import Mathlib

/-!
The udisks iSCSI provider: a shallow embedding of `src/udisksiscsiprovider.c`.

C strings are lists of bytes (`Nat`, each below 256, none zero), `gint` is `Int`
with explicit 32-bit wrap-around where the code can overflow, pointers to
records that the code shares are made explicit where identity matters, and
loops are structural recursions (over the list walked, or over a fuel that the
caller sets to the length of the input).
-/

namespace UDisksISCSI

/-! ## C strings -/

/-- A NUL-terminated `gchar *`: the bytes before the terminator. -/
abbrev CString := List Nat

/-- The bytes of an ASCII literal. -/
def cstr (s : String) : CString := s.toList.map Char.toNat

/-- Two's-complement wrap-around of a mathematical integer into a 32-bit `gint`. -/
def wrap_gint (x : Int) : Int := (x + 2147483648) % 4294967296 - 2147483648

/-- Saturation of a mathematical integer into a 64-bit `long`, as `strtol` does. -/
def clamp_long (x : Int) : Int :=
  if x < -9223372036854775808 then -9223372036854775808
  else if x > 9223372036854775807 then 9223372036854775807
  else x

/-- The C library `strcmp` (and `g_strcmp0` on non-NULL arguments): the strings are
compared byte by byte as `unsigned char`, a proper prefix sorts first.  The C standard
specifies only the sign of the result, and the callers use only its sign. -/
def strcmp : CString → CString → Int
  | [], [] => 0
  | [], _ :: _ => -1
  | _ :: _, [] => 1
  | a :: s, b :: t => if a = b then strcmp s t else (a : Int) - (b : Int)

/-- `g_strcmp0`: `strcmp` that accepts NULL, which sorts before every string. -/
def g_strcmp0 : Option CString → Option CString → Int
  | none, none => 0
  | none, some _ => -1
  | some _, none => 1
  | some a, some b => strcmp a b

/-- `g_str_has_prefix`. -/
def g_str_has_prefix (str pfx : CString) : Bool := pfx.isPrefixOf str

/-- The C library `strstr`: the offset of the first occurrence of `needle` in
`haystack`, or `none` (NULL). -/
def strstr : CString → CString → Option Nat
  | [], needle => if needle.isPrefixOf [] then some 0 else none
  | b :: rest, needle =>
      if needle.isPrefixOf (b :: rest) then some 0
      else (strstr rest needle).map (fun i => i + 1)

/-- The lines that the loops `while (s != NULL) { endl = strstr (s, "\n"); ... }` walk
through: the text is cut at every line feed, and the piece after the last line feed (it may
be empty) is a line too. -/
def split_lines : CString → List CString
  | [] => [[]]
  | b :: rest =>
      if b = 10 then [] :: split_lines rest
      else
        match split_lines rest with
        | [] => [[b]]
        | line :: lines => (b :: line) :: lines

/-- `g_ascii_isspace`: space, tab, line feed, form feed and carriage return. -/
def g_ascii_isspace (b : Nat) : Bool := b = 32 || b = 9 || b = 10 || b = 12 || b = 13

/-- The C library `isspace` in the C locale: `g_ascii_isspace` and vertical tab. -/
def isspace (b : Nat) : Bool := b = 32 || (9 ≤ b && b ≤ 13)

/-- `g_strstrip`: leading and trailing `g_ascii_isspace` bytes are removed. -/
def g_strstrip (s : CString) : CString :=
  ((s.dropWhile g_ascii_isspace).reverse.dropWhile g_ascii_isspace).reverse

/-- The decimal digits of `u`, most significant first; `fuel` bounds their number. -/
def dec_loop : Nat → Nat → CString → CString
  | 0, _, acc => acc
  | fuel + 1, u, acc =>
      if u / 10 = 0 then (48 + u % 10) :: acc
      else dec_loop fuel (u / 10) ((48 + u % 10) :: acc)

/-- The C library conversion `%u`; a number `u` has at most `u + 1` digits. -/
def printf_u (u : Nat) : CString := dec_loop (u + 1) u []

/-- The C library conversion `%d`. -/
def printf_d (c : Int) : CString :=
  if c < 0 then 45 :: printf_u (-c).toNat else printf_u c.toNat

/-- Is the byte a decimal digit. -/
def is_digit (b : Nat) : Bool := 48 ≤ b && b ≤ 57

/-- The longest run of decimal digits at the start of the text, accumulated onto `acc`,
and the text after it. -/
def scan_digits_loop : CString → Nat → Nat × CString
  | [], acc => (acc, [])
  | b :: rest, acc =>
      if is_digit b then scan_digits_loop rest (acc * 10 + (b - 48))
      else (acc, b :: rest)

/-- The C library conversion `%d` of `sscanf` (as in glibc): white space is skipped, an
optional sign and at least one digit are read, the value saturates as a `long` and is
stored into the `gint`; the result is the value and the text left, or `none` when the
conversion fails. -/
def scanf_d (s : CString) : Option (Int × CString) :=
  let s1 := s.dropWhile isspace
  let signed : Bool × CString :=
    match s1 with
    | 45 :: r => (true, r)
    | 43 :: r => (false, r)
    | _ => (false, s1)
  match signed.2 with
  | [] => none
  | b :: _ =>
      if is_digit b then
        let r := scan_digits_loop signed.2 0
        let v : Int := if signed.1 then -(r.1 : Int) else (r.1 : Int)
        some (wrap_gint (clamp_long v), r.2)
      else none

/-- The call `sscanf (s, "%d,%d", &port, &tpgt)`: `some (port, tpgt)` when it returns 2. -/
def sscanf_d_comma_d (s : CString) : Option (Int × Int) :=
  match scanf_d s with
  | none => none
  | some (port, r) =>
      match r with
      | 44 :: r2 =>
          match scanf_d r2 with
          | none => none
          | some (tpgt, _) => some (port, tpgt)
      | _ => none

/-- The calls `sscanf (name, "session%d", &n) == 1` and `sscanf (name, "connection%d", &n)
== 1`: the literal prefix matches and a `%d` conversion succeeds after it. -/
def sscanf_prefix_d (name pfx : CString) : Bool :=
  pfx.isPrefixOf name && (scanf_d (name.drop pfx.length)).isSome

/-- The three octal digits of a byte. -/
def octal3 (b : Nat) : CString := [48 + (b / 64) % 8, 48 + (b / 8) % 8, 48 + b % 8]

/-- What `g_strescape (source, NULL)` writes for one byte. -/
def g_strescape_byte (b : Nat) : CString :=
  if b = 8 then [92, 98]
  else if b = 12 then [92, 102]
  else if b = 10 then [92, 110]
  else if b = 13 then [92, 114]
  else if b = 9 then [92, 116]
  else if b = 11 then [92, 118]
  else if b = 92 then [92, 92]
  else if b = 34 then [92, 34]
  else if b < 32 ∨ b ≥ 127 then 92 :: octal3 b
  else [b]

/-- `g_strescape (source, NULL)`. -/
def g_strescape : CString → CString
  | [] => []
  | b :: rest => g_strescape_byte b ++ g_strescape rest

/-! ## Identity & diff utility -/

/-- The loop of `diff_sorted_lists` (lines 112-141): `list1` and `list2` are walked
in lock-step, `added` and `removed` grow by `g_list_prepend`.  The first two
equations are the two trailing `while` loops, reached as soon as one list is
exhausted; `fuel` bounds the number of iterations of the first loop. -/
def diff_sorted_lists_loop {α : Type} (compare : α → α → Int) :
    Nat → List α → List α → List α → List α → List α × List α
  | _, [], list2, added, removed =>
      (list2.foldl (fun acc x => x :: acc) added, removed)
  | _, list1, [], added, removed =>
      (added, list1.foldl (fun acc x => x :: acc) removed)
  | 0, _ :: _, _ :: _, added, removed => (added, removed)
  | fuel + 1, a :: list1, b :: list2, added, removed =>
      let order := compare a b
      if order < 0 then
        diff_sorted_lists_loop compare fuel list1 (b :: list2) added (a :: removed)
      else if order > 0 then
        diff_sorted_lists_loop compare fuel (a :: list1) list2 (b :: added) removed
      else
        diff_sorted_lists_loop compare fuel list1 list2 added removed

/-- `diff_sorted_lists` (lines 101-142); the result is `(added, removed)`.  Every
iteration of the first loop consumes an element of one of the lists, so
`list1.length + list2.length` iterations always suffice. -/
def diff_sorted_lists {α : Type} (list1 list2 : List α) (compare : α → α → Int) :
    List α × List α :=
  diff_sorted_lists_loop compare (list1.length + list2.length) list1 list2 [] []

/-- A `GCompareFunc` that is a total preorder: the sign of `compare b a` is the
opposite of the sign of `compare a b`, and `compare a b ≤ 0` is transitive. -/
def IsTotalPreorder {α : Type} (compare : α → α → Int) : Prop :=
  (∀ a b, compare a b < 0 ↔ 0 < compare b a) ∧
  (∀ a b c, compare a b ≤ 0 → compare b c ≤ 0 → compare a c ≤ 0)

/-- A list sorted ascending by a `GCompareFunc`. -/
def SortedBy {α : Type} (compare : α → α → Int) (l : List α) : Prop :=
  l.Pairwise (fun a b => compare a b ≤ 0)

/-- The number of elements of `l` that compare equal to the key `k`. -/
def keyCount {α : Type} (compare : α → α → Int) (k : α) (l : List α) : Nat :=
  l.countP (fun x => decide (compare k x = 0))

/-- The C library `strrchr`: the suffix of `s` that starts at the last occurrence of the
byte `c`, or `none` (NULL) when `c` does not occur. -/
def strrchr : CString → Nat → Option CString
  | [], _ => none
  | b :: rest, c =>
      match strrchr rest c with
      | some r => some r
      | none => if b = c then some (b :: rest) else none

/-- Reading a `gchar` into a `gint` (`gint c = basename[n]`, line 165): `gchar` is the
plain C `char`, which is signed on x86 and x86-64, so a byte from 0x80 up is
sign-extended to a negative `gint`. -/
def gchar_to_gint (b : Nat) : Int :=
  if b < 128 then (b : Int) else (b : Int) - 256

/-- Storing a `gint` into a `gchar` (the argument of `g_string_append_c`): the low byte. -/
def gint_to_gchar (c : Int) : Nat := (c % 256).toNat

/-- One lower-case hexadecimal digit. -/
def hex_digit (d : Nat) : Nat := if d < 10 then 48 + d else 87 + d

/-- The digits of `u` in base 16, most significant first; `fuel` bounds their number. -/
def hex_loop : Nat → Nat → CString → CString
  | 0, _, acc => acc
  | fuel + 1, u, acc =>
      if u / 16 = 0 then hex_digit (u % 16) :: acc
      else hex_loop fuel (u / 16) (hex_digit (u % 16) :: acc)

/-- The C library conversion `%02x` applied to an `int` argument: the argument is read as
an `unsigned int` (32 bits, so at most 8 digits) and printed in hexadecimal, padded with
`0` to at least two digits. -/
def printf_02x (c : Int) : CString :=
  let digits := hex_loop 8 (c % 4294967296).toNat []
  if digits.length < 2 then 48 :: digits else digits

/-- The test of line 171 on the `gint` value `c`: is it in `[A-Z]`, `[a-z]` or `[0-9]`. -/
def is_path_char (c : Int) : Bool :=
  (c ≥ 65 && c ≤ 90) || (c ≥ 97 && c ≤ 122) || (c ≥ 48 && c ≤ 57)

/-- The `for` loop of `util_compute_object_path` (lines 163-180) over the bytes of
`basename`, appending to the `GString` `s`. -/
def util_compute_object_path_loop : CString → CString → CString
  | [], s => s
  | b :: basename, s =>
      let c := gchar_to_gint b
      if is_path_char c then
        util_compute_object_path_loop basename (s ++ [gint_to_gchar c])
      else
        util_compute_object_path_loop basename (s ++ 95 :: printf_02x c)

/-- `util_compute_object_path` (lines 146-183) for a non-NULL `path`. -/
def util_compute_object_path (base path : CString) : CString :=
  let basename :=
    match strrchr path 47 with
    | some r => r.drop 1
    | none => path
  util_compute_object_path_loop basename base

/-- A well-formed C string: every element is a byte, and none is the terminator. -/
def IsCString (s : CString) : Prop := ∀ b ∈ s, 0 < b ∧ b < 256

/-- The encoding the spec describes for one byte of the last segment: a byte in
`[A-Za-z0-9]` is copied, any other byte becomes `_` and exactly two hexadecimal digits. -/
def spec_escape_byte (b : Nat) : CString :=
  if (65 ≤ b ∧ b ≤ 90) ∨ (97 ≤ b ∧ b ≤ 122) ∨ (48 ≤ b ∧ b ≤ 57) then [b]
  else [95, hex_digit (b / 16), hex_digit (b % 16)]

/-- The last `/`-separated segment of `name` (all of `name` when it has no `/`). -/
def last_segment : CString → CString
  | [] => []
  | b :: rest =>
      if 47 ∈ rest then last_segment rest
      else if b = 47 then rest else b :: rest

/-! ## Records of the data model -/

/-- A `GVariant` of type `a{ss}`: the entries in the order the builder received them. -/
abbrev Settings := List (CString × CString)

/-- The record `iSCSIIface` (lines 187-193); `none` is a NULL `GVariant *`. -/
structure iSCSIIface where
  name : CString
  settings : Option Settings
  secret_settings : Option Settings
  deriving DecidableEq, Repr

/-- The record `iSCSIPortal` (lines 213-219). -/
structure iSCSIPortal where
  address : CString
  port : Int
  tpgt : Int
  ifaces : List iSCSIIface
  deriving DecidableEq, Repr

/-- One element of the `connections` property, of type `(siisa{ss}sa{sv})`.  The third
field is `none` when the code passes the value of a variable that it never wrote, the
state is `none` when the code passes a NULL string. -/
structure ConnectionView where
  address : CString
  port : Int
  tpgt : Option Int
  iface_name : CString
  settings : Option Settings
  state : Option CString
  deriving DecidableEq, Repr

/-- The published handle of a target, a `UDisksiSCSITarget` skeleton: `id` stands for the
identity of the object that `udisks_iscsi_target_skeleton_new` allocates, the other
fields are its properties. -/
structure UDisksiSCSITarget where
  id : Nat
  name : Option CString
  source : Option CString
  connections : List ConnectionView
  deriving DecidableEq, Repr

/-- The record `iSCSITarget` (lines 263-276), without its reference count.  `object` is
the identity of the `UDisksObjectSkeleton`, `none` fields are NULL pointers.
`source_object_path` is never NULL: line 1374 copies it from a source whose object path
`iscsi_source_compute_object_path` has set. -/
structure iSCSITarget where
  target_name : CString
  object_path : Option CString
  object : Option Nat
  iface : Option UDisksiSCSITarget
  source_object_path : CString
  portals : List iSCSIPortal
  deriving DecidableEq, Repr

/-- `iscsi_iface_compare` (lines 206-211). -/
def iscsi_iface_compare (a b : iSCSIIface) : Int := strcmp a.name b.name

/-- The `for` loop of `iscsi_portal_compare` (lines 250-257) over the two interface lists,
which have the same length when the loop is reached. -/
def iscsi_portal_compare_ifaces : List iSCSIIface → List iSCSIIface → Int
  | ia :: l, ib :: j =>
      let ret := iscsi_iface_compare ia ib
      if ret ≠ 0 then ret else iscsi_portal_compare_ifaces l j
  | _, _ => 0

/-- `iscsi_portal_compare` (lines 230-261); the subtractions are 32-bit. -/
def iscsi_portal_compare (a b : iSCSIPortal) : Int :=
  let ret := strcmp a.address b.address
  if ret ≠ 0 then ret
  else
    let ret := wrap_gint (a.port - b.port)
    if ret ≠ 0 then ret
    else
      let ret := wrap_gint (a.tpgt - b.tpgt)
      if ret ≠ 0 then ret
      else
        let ret := wrap_gint ((a.ifaces.length : Int) - (b.ifaces.length : Int))
        if ret ≠ 0 then ret
        else iscsi_portal_compare_ifaces a.ifaces b.ifaces

/-- `iscsi_target_compare` (lines 307-320): on purpose, only the names are compared. -/
def iscsi_target_compare (a b : iSCSITarget) : Int := strcmp a.target_name b.target_name

/-- GLib's `g_list_sort_merge`: the loop `while (l1 && l2)` takes the head of `l1` when
`compare_func (l1->data, l2->data) <= 0` and the head of `l2` otherwise, and what is left
of the list that is not exhausted is appended; `fuel` bounds the number of rounds. -/
def g_list_sort_merge {α : Type} (compare : α → α → Int) : Nat → List α → List α → List α
  | fuel + 1, a :: l1, b :: l2 =>
      if compare a b ≤ 0 then a :: g_list_sort_merge compare fuel l1 (b :: l2)
      else b :: g_list_sort_merge compare fuel (a :: l1) l2
  | _, [], l2 => l2
  | _, l1, _ => l1

/-- GLib's `g_list_sort_real`: a list of two or more elements is cut after its first
`length / 2` elements, the two parts are sorted and then merged; `fuel` bounds the depth
of the recursion. -/
def g_list_sort_real {α : Type} (compare : α → α → Int) : Nat → List α → List α
  | fuel + 1, a :: b :: rest =>
      let list := a :: b :: rest
      let l1 := list.take (list.length / 2)
      let l2 := list.drop (list.length / 2)
      g_list_sort_merge compare list.length
        (g_list_sort_real compare fuel l1) (g_list_sort_real compare fuel l2)
  | _, list => list

/-- GLib's `g_list_sort`, a merge sort.  It is stable, and sorts when the comparison
function is a total preorder; the order it gives for `iscsi_portal_compare`, which is not
one for ports or tpgts more than 2^31 - 1 apart, is the one of this merge. -/
def g_list_sort {α : Type} (compare : α → α → Int) (l : List α) : List α :=
  g_list_sort_real compare l.length l

/-- `g_list_remove`: the first element equal to `data` is taken out.  The C function
compares pointers; records of one list that are equal as values are the same record
here. -/
def g_list_remove {α : Type} [DecidableEq α] (l : List α) (data : α) : List α := l.erase data

/-! ## Settings loader -/

/-- What `g_spawn_command_line_sync` hands back when the child could be spawned. -/
structure SpawnOutput where
  standard_output : CString
  standard_error : CString
  exit_status : Nat

/-- The environment of `g_spawn_command_line_sync`: the outcome of running a command
line, `none` when spawning fails. -/
abbrev Spawner := CString → Option SpawnOutput

/-- The test `WIFEXITED (exit_status) && WEXITSTATUS (exit_status) == 0` on a wait
status. -/
def exited_with_zero (exit_status : Nat) : Bool :=
  exit_status % 128 = 0 && (exit_status / 256) % 256 = 0

/-- The byte test `(b & 0xc0) == 0x80` of GLib's UTF-8 validation: a continuation byte. -/
def utf8_continuation (b : Nat) : Bool := 128 ≤ b && b ≤ 191

/-- One round of the loop of GLib's `g_utf8_validate` on a NUL-terminated string: the
number of bytes of the character that `p` starts with, `none` when the bytes are not a
character of RFC 3629 (a lone continuation byte, an overlong form, a surrogate, a code
point above U+10FFFF, or a character cut short by the terminator). -/
def fast_validate_char : CString → Option Nat
  | [] => none
  | b0 :: rest =>
      if b0 < 128 then some 1
      else if b0 < 224 then
        if b0 < 194 then none
        else
          match rest with
          | b1 :: _ => if utf8_continuation b1 then some 2 else none
          | [] => none
      else if b0 < 240 then
        match rest with
        | b1 :: b2 :: _ =>
            let first :=
              if b0 % 16 = 0 then decide (160 ≤ b1 ∧ b1 ≤ 191)
              else if b0 % 16 = 13 then decide (128 ≤ b1 ∧ b1 ≤ 159)
              else utf8_continuation b1
            if first && utf8_continuation b2 then some 3 else none
        | _ => none
      else if b0 < 245 then
        match rest with
        | b1 :: b2 :: b3 :: _ =>
            let first :=
              if b0 % 8 = 0 then decide (144 ≤ b1 ∧ b1 ≤ 191)
              else if b0 % 8 = 4 then decide (128 ≤ b1 ∧ b1 ≤ 143)
              else utf8_continuation b1
            if first && utf8_continuation b2 && utf8_continuation b3 then some 4 else none
        | _ => none
      else none

/-- The loop of GLib's `g_utf8_validate` over the characters of a NUL-terminated string;
`fuel` bounds the number of rounds. -/
def fast_validate : Nat → CString → Bool
  | _, [] => true
  | 0, _ :: _ => false
  | fuel + 1, b :: rest =>
      match fast_validate_char (b :: rest) with
      | none => false
      | some n => fast_validate fuel ((b :: rest).drop n)

/-- GLib's `g_utf8_validate (str, -1, NULL)`: is the string valid UTF-8. -/
def g_utf8_validate (str : CString) : Bool := fast_validate str.length str

/-- What GLib's `g_variant_builder_add` stores for an `s` of its format string
(`g_variant_valist_new_nnp`): `g_variant_new_string` refuses a string that is not valid
UTF-8, with a critical warning (a precondition check, which GLib has unless it is built
without its checks), and the text `[Invalid UTF-8]` is stored in its place. -/
def g_variant_valist_new_nnp (string : CString) : CString :=
  if g_utf8_validate string then string else cstr "[Invalid UTF-8]"

/-- GLib's `g_variant_builder_add (builder, "{ss}", key, value)`: one entry is appended to
the array under construction. -/
def g_variant_builder_add (builder : Settings) (key value : CString) : Settings :=
  builder ++ [(g_variant_valist_new_nnp key, g_variant_valist_new_nnp value)]

/-- One iteration of the `while (p != NULL)` loop of `load_settings` (lines 1020-1067) on
the line `p`, with the two builders.  Nothing checks that `key` and `value` are valid
UTF-8 before they are handed to `g_variant_builder_add` (the TODO of line 1049). -/
def load_settings_line (p : CString) (builders : Settings × Settings) : Settings × Settings :=
  if p.head? = some 35 then builders
  else
    match strstr p (cstr " = ") with
    | none => builders
    | some p_middle =>
        let key := p.take p_middle
        let value := p.drop (p_middle + 3)
        let value := if strcmp value (cstr "<empty>") = 0 then [] else value
        if (strstr key (cstr "password")).isSome then
          (g_variant_builder_add builders.1 key [], g_variant_builder_add builders.2 key value)
        else
          (g_variant_builder_add builders.1 key value,
           g_variant_builder_add builders.2 key value)

/-- The `while (p != NULL)` loop of `load_settings` over the lines of `ia_out`; the
result is `(settings_builder, secret_settings_builder)`. -/
def load_settings_parse (ia_out : CString) : Settings × Settings :=
  (split_lines ia_out).foldl (fun builders p => load_settings_line p builders) ([], [])

/-- The command line that `load_settings` builds for one interface (lines 991-996). -/
def load_settings_command_line (target_name address : CString) (port : Int)
    (iface_name : CString) : CString :=
  cstr "iscsiadm --mode node --target \"" ++ g_strescape target_name
    ++ cstr "\" --portal \"" ++ g_strescape address ++ cstr "\":"
    ++ printf_d (if port = 0 then 3260 else port)
    ++ cstr " --interface \"" ++ g_strescape iface_name ++ cstr "\" --op show --show"

/-- The body of the inner loop of `load_settings` (lines 975-1082) for one interface. -/
def load_settings_iface (spawn : Spawner) (target_name address : CString) (port : Int)
    (iface : iSCSIIface) : iSCSIIface :=
  let builders : Settings × Settings :=
    match spawn (load_settings_command_line target_name address port iface.name) with
    | none => ([], [])
    | some out =>
        if exited_with_zero out.exit_status then load_settings_parse out.standard_output
        else ([], [])
  { iface with settings := some builders.1, secret_settings := some builders.2 }

/-- The body of the outer loop of `load_settings` (lines 967-1084) for one portal. -/
def load_settings_portal (spawn : Spawner) (target_name : CString) (portal : iSCSIPortal) :
    iSCSIPortal :=
  { portal with
    ifaces := (g_list_sort iscsi_iface_compare portal.ifaces).map
      (load_settings_iface spawn target_name portal.address portal.port) }

/-- `load_settings` (lines 955-1087). -/
def load_settings (spawn : Spawner) (target : iSCSITarget) : iSCSITarget :=
  { target with
    portals := (g_list_sort iscsi_portal_compare target.portals).map
      (load_settings_portal spawn target.target_name) }

/-! ## Connection cache -/

/-- A `GHashTable` with string keys (`g_str_hash`, `g_str_equal`): the entries, at most
one per key once built by `g_hash_table_insert`. -/
abbrev GHashTable (V : Type) := List (CString × V)

/-- `g_hash_table_lookup`. -/
def g_hash_table_lookup {V : Type} : GHashTable V → CString → Option V
  | [], _ => none
  | (k, v) :: t, key => if k = key then some v else g_hash_table_lookup t key

/-- `g_hash_table_remove`: the entry of the key, if any, is dropped. -/
def g_hash_table_remove {V : Type} : GHashTable V → CString → GHashTable V
  | [], _ => []
  | (k, v) :: t, key =>
      if k = key then g_hash_table_remove t key else (k, v) :: g_hash_table_remove t key

/-- `g_hash_table_insert`: the value of an existing key is replaced. -/
def g_hash_table_insert {V : Type} (t : GHashTable V) (key : CString) (v : V) : GHashTable V :=
  (key, v) :: g_hash_table_remove t key

/-- The record `Connection` (lines 1500-1515).  The three strings that the code checks
with `is_null` before it keeps the record are never NULL in a kept record; `state` is
NULL (`none`) until it is read from the session device. -/
structure Connection where
  target_name : CString
  iface_name : CString
  tpgt : Int
  state : Option CString
  session_sysfs_path : CString
  address : CString
  port : Int
  id : CString
  id_without_tpgt : CString
  deriving DecidableEq, Repr

/-- A `Connection *` held by the two id tables.  `sysfs_to_connection` owns the records
(`connection_free` is its value destroy function) and holds each record under one key, so
a pointer to a record is represented by the sysfs path that owns it. -/
abbrev ConnectionRef := CString

/-- The three hash tables of the provider (lines 420-422). -/
structure ConnectionCache where
  sysfs_to_connection : GHashTable Connection
  id_to_connection : GHashTable ConnectionRef
  id_without_tpgt_to_connection : GHashTable ConnectionRef
  deriving DecidableEq, Repr

/-- The tables as `connections_init` creates them. -/
def ConnectionCache.empty : ConnectionCache :=
  { sysfs_to_connection := [], id_to_connection := [], id_without_tpgt_to_connection := [] }

/-- Following a `Connection *` found in one of the id tables. -/
def ConnectionCache.deref (provider : ConnectionCache) (ref : ConnectionRef) :
    Option Connection :=
  g_hash_table_lookup provider.sysfs_to_connection ref

/-- A `GUdevDevice`: its sysfs path and its sysfs attributes. -/
structure GUdevDevice where
  sysfs_path : CString
  attrs : List (CString × CString)
  deriving DecidableEq, Repr

/-- `g_udev_device_get_sysfs_attr`: NULL (`none`) when the attribute is absent. -/
def g_udev_device_get_sysfs_attr (device : GUdevDevice) (name : CString) : Option CString :=
  g_hash_table_lookup device.attrs name

/-- The value of a digit or letter as a digit, for `strtol`. -/
def digit_value (b : Nat) : Nat :=
  if 48 ≤ b ∧ b ≤ 57 then b - 48
  else if 97 ≤ b ∧ b ≤ 122 then b - 87
  else if 65 ≤ b ∧ b ≤ 90 then b - 55
  else 36

/-- The digits of `strtol` in the given base, accumulated onto `acc`. -/
def strtol_digits (base : Nat) : CString → Nat → Nat
  | [], acc => acc
  | b :: rest, acc =>
      if digit_value b < base then strtol_digits base rest (acc * base + digit_value b)
      else acc

/-- The C library `strtol (s, NULL, 0)`: white space, an optional sign, an optional `0x`
or `0` prefix that selects base 16 or 8, digits; 0 when there is no digit; the value
saturates as a `long`. -/
def strtol (s : CString) : Int :=
  let s1 := s.dropWhile isspace
  let signed : Bool × CString :=
    match s1 with
    | 45 :: r => (true, r)
    | 43 :: r => (false, r)
    | _ => (false, s1)
  let v : Nat :=
    match signed.2 with
    | 48 :: x :: h :: r =>
        if (x = 120 ∨ x = 88) ∧ digit_value h < 16 then strtol_digits 16 (h :: r) 0
        else strtol_digits 8 (x :: h :: r) 0
    | 48 :: r => strtol_digits 8 r 0
    | r => strtol_digits 10 r 0
  clamp_long (if signed.1 then -(v : Int) else (v : Int))

/-- `g_udev_device_get_sysfs_attr_as_int`: 0 when the attribute is absent, otherwise the
`strtol` of its text stored into a `gint`. -/
def g_udev_device_get_sysfs_attr_as_int (device : GUdevDevice) (name : CString) : Int :=
  match g_udev_device_get_sysfs_attr device name with
  | none => 0
  | some s => wrap_gint (strtol s)

/-- The part of the system that `handle_iscsi_connection_uevent` looks at when an event
arrives: the file system under `/sys` and the udev database. -/
structure Sysfs where
  /-- The test `g_file_test (path, G_FILE_TEST_IS_DIR)`. -/
  is_dir : CString → Bool
  /-- The names `g_dir_read_name` returns after `g_dir_open`, `none` when it fails. -/
  dir_entries : CString → Option (List CString)
  /-- The call `g_udev_client_query_by_sysfs_path`. -/
  query_by_sysfs_path : CString → Option GUdevDevice

/-- `is_null` (lines 1532-1537). -/
def is_null (str : Option CString) : Bool :=
  match str with
  | none => true
  | some s => strcmp s (cstr "(null)") = 0

/-- The format `"%d,%s:%d,%s,%s"` of lines 1630 and 1816. -/
def format_id (tpgt : Int) (address : CString) (port : Int) (iface_name target_name : CString) :
    CString :=
  printf_d tpgt ++ 44 :: address ++ 58 :: printf_d port ++ 44 :: iface_name ++ 44 :: target_name

/-- The format `"%s:%d,%s,%s"` of lines 1636 and 1826. -/
def format_id_without_tpgt (address : CString) (port : Int) (iface_name target_name : CString) :
    CString :=
  address ++ 58 :: printf_d port ++ 44 :: iface_name ++ 44 :: target_name

/-- The in-place assignment `connection->state = ...` on the record that `ref` points
to. -/
def set_connection_state : GHashTable Connection → ConnectionRef → Option CString →
    GHashTable Connection
  | [], _, _ => []
  | (k, c) :: t, ref, state =>
      (k, if k = ref then { c with state := state } else c)
        :: set_connection_state t ref state

/-- The block of `handle_iscsi_connection_uevent` that builds a record for a device that
is not cached yet (lines 1570-1653).  The result is the tables and the local variable
`connection` after the block: a pointer to the new record, or NULL (`none`) when the
block was left through `skip_connection`. -/
def new_connection (sysfs : Sysfs) (provider : ConnectionCache) (device : GUdevDevice) :
    ConnectionCache × Option ConnectionRef :=
  let sysfs_path := device.sysfs_path
  let session_sysfs_dir := sysfs_path ++ cstr "/device/../iscsi_session"
  if ¬ sysfs.is_dir session_sysfs_dir then (provider, none)
  else
    match sysfs.dir_entries session_sysfs_dir with
    | none => (provider, none)
    | some names =>
        match names.find? (fun name => sscanf_prefix_d name (cstr "session")) with
        | none => (provider, none)
        | some name =>
            let session_sysfs_path := session_sysfs_dir ++ 47 :: name
            match sysfs.query_by_sysfs_path session_sysfs_path with
            | none => (provider, none)
            | some session_device =>
                let target_name := g_udev_device_get_sysfs_attr session_device (cstr "targetname")
                let iface_name := g_udev_device_get_sysfs_attr session_device (cstr "ifacename")
                let tpgt := g_udev_device_get_sysfs_attr_as_int session_device (cstr "tpgt")
                let address := g_udev_device_get_sysfs_attr device (cstr "persistent_address")
                let port := g_udev_device_get_sysfs_attr_as_int device (cstr "persistent_port")
                if is_null target_name ∨ is_null iface_name ∨ is_null address ∨ port = 0 then
                  (provider, none)
                else
                  match target_name, iface_name, address with
                  | some target_name, some iface_name, some address =>
                      let connection : Connection :=
                        { target_name := target_name
                          iface_name := iface_name
                          tpgt := tpgt
                          state := none
                          session_sysfs_path := session_device.sysfs_path
                          address := address
                          port := port
                          id := format_id tpgt address port iface_name target_name
                          id_without_tpgt :=
                            format_id_without_tpgt address port iface_name target_name }
                      ({ sysfs_to_connection :=
                           g_hash_table_insert provider.sysfs_to_connection sysfs_path connection
                         id_to_connection :=
                           g_hash_table_insert provider.id_to_connection connection.id sysfs_path
                         id_without_tpgt_to_connection :=
                           g_hash_table_insert provider.id_without_tpgt_to_connection
                             connection.id_without_tpgt sysfs_path },
                       some sysfs_path)
                  | _, _, _ => (provider, none)

/-- The block "update the Connection object" (lines 1655-1671) for a non-NULL
`connection`. -/
def update_connection (sysfs : Sysfs) (provider : ConnectionCache) (connection : ConnectionRef) :
    ConnectionCache :=
  match provider.deref connection with
  | none => provider
  | some c =>
      match sysfs.query_by_sysfs_path c.session_sysfs_path with
      | some session_device =>
          { provider with
            sysfs_to_connection :=
              set_connection_state provider.sysfs_to_connection connection
                (g_udev_device_get_sysfs_attr session_device (cstr "state")) }
      | none => provider

/-- `handle_iscsi_connection_uevent` (lines 1539-1673). -/
def handle_iscsi_connection_uevent (sysfs : Sysfs) (provider : ConnectionCache)
    (uevent : CString) (device : GUdevDevice) : ConnectionCache :=
  let sysfs_path := device.sysfs_path
  let connection := g_hash_table_lookup provider.sysfs_to_connection sysfs_path
  if strcmp uevent (cstr "remove") = 0 then
    match connection with
    | some c =>
        { sysfs_to_connection := g_hash_table_remove provider.sysfs_to_connection sysfs_path
          id_to_connection := g_hash_table_remove provider.id_to_connection c.id
          id_without_tpgt_to_connection :=
            g_hash_table_remove provider.id_without_tpgt_to_connection c.id_without_tpgt }
    | none => provider
  else
    let built : ConnectionCache × Option ConnectionRef :=
      match connection with
      | some _ => (provider, some sysfs_path)
      | none => new_connection sysfs provider device
    match built.2 with
    | some connection => update_connection sysfs built.1 connection
    | none => built.1

/-- `connections_get_state` (lines 1799-1843).  The result is the returned string (NULL is
`none`) and what the call wrote to `*out_tpgt` (`none` when it wrote nothing). -/
def connections_get_state (provider : ConnectionCache) (target_name : CString) (tpgt : Int)
    (portal_address : CString) (portal_port : Int) (iface_name : CString) :
    Option CString × Option Int :=
  let connection : Option ConnectionRef :=
    if tpgt ≠ -1 then
      g_hash_table_lookup provider.id_to_connection
        (format_id tpgt portal_address portal_port iface_name target_name)
    else
      g_hash_table_lookup provider.id_without_tpgt_to_connection
        (format_id_without_tpgt portal_address portal_port iface_name target_name)
  match connection.bind provider.deref with
  | some c => (c.state, some c.tpgt)
  | none => (some [], none)

/-- A device event on an `iscsi_connection` device as `connections_on_uevent` receives it,
with the system as it is when the event is handled. -/
structure ConnectionEvent where
  sysfs : Sysfs
  uevent : CString
  device : GUdevDevice

/-- The cache after a sequence of `iscsi_connection` events, oldest first. -/
def run_connection_events (provider : ConnectionCache) (events : List ConnectionEvent) :
    ConnectionCache :=
  events.foldl (fun st e => handle_iscsi_connection_uevent e.sysfs st e.uevent e.device) provider

/-! ### A small sysfs tree for concrete runs -/

/-- The `iscsi_connection` device `connection<n>:0`, with the portal 10.0.0.5:3260. -/
def demo_connection_device (n : CString) : GUdevDevice :=
  { sysfs_path := cstr "/sys/class/iscsi_connection/connection" ++ n ++ cstr ":0"
    attrs := [(cstr "persistent_address", cstr "10.0.0.5"),
              (cstr "persistent_port", cstr "3260")] }

/-- The `iscsi_session` device `session<n>` of the target `target_name`, logged in through
the interface `default` with tpgt 1. -/
def demo_session_device (n target_name : CString) : GUdevDevice :=
  { sysfs_path := cstr "/sys/class/iscsi_session/session" ++ n
    attrs := [(cstr "targetname", target_name), (cstr "ifacename", cstr "default"),
              (cstr "tpgt", cstr "1"), (cstr "state", cstr "LOGGED_IN")] }

/-- The directory `<connection>/device/../iscsi_session` of `connection<n>:0`. -/
def demo_session_dir (n : CString) : CString :=
  (demo_connection_device n).sysfs_path ++ cstr "/device/../iscsi_session"

/-- A system with the two connections `connection1:0` and `connection2:0`, each with its
own session (`session1`, `session2`) of the target `target_name`. -/
def demo_sysfs (target_name : CString) : Sysfs :=
  { is_dir := fun path =>
      decide (path = demo_session_dir (cstr "1")) || decide (path = demo_session_dir (cstr "2"))
    dir_entries := fun path =>
      if path = demo_session_dir (cstr "1") then some [cstr "session1"]
      else if path = demo_session_dir (cstr "2") then some [cstr "session2"]
      else none
    query_by_sysfs_path := fun path =>
      if path = demo_session_dir (cstr "1") ++ cstr "/session1"
          ∨ path = (demo_session_device (cstr "1") target_name).sysfs_path then
        some (demo_session_device (cstr "1") target_name)
      else if path = demo_session_dir (cstr "2") ++ cstr "/session2"
          ∨ path = (demo_session_device (cstr "2") target_name).sysfs_path then
        some (demo_session_device (cstr "2") target_name)
      else none }

/-- The `iscsi_session` device `session1` of the target `t1` on a kernel that gives the
session no `tpgt` attribute. -/
def demo_session_device_without_tpgt : GUdevDevice :=
  { sysfs_path := cstr "/sys/class/iscsi_session/session1"
    attrs := [(cstr "targetname", cstr "t1"), (cstr "ifacename", cstr "default"),
              (cstr "state", cstr "LOGGED_IN")] }

/-- A system with the connection `connection1:0`, whose session has no `tpgt` attribute. -/
def demo_sysfs_without_tpgt : Sysfs :=
  { is_dir := fun path => decide (path = demo_session_dir (cstr "1"))
    dir_entries := fun path =>
      if path = demo_session_dir (cstr "1") then some [cstr "session1"] else none
    query_by_sysfs_path := fun path =>
      if path = demo_session_dir (cstr "1") ++ cstr "/session1"
          ∨ path = demo_session_device_without_tpgt.sysfs_path then
        some demo_session_device_without_tpgt
      else none }

/-! ## Discovery parser -/

/-- The published handle of a source, a `UDisksiSCSISource` skeleton. -/
structure UDisksiSCSISource where
  id : Nat
  mechanism : Option CString
  address : Option CString
  deriving DecidableEq, Repr

/-- The record `iSCSISource` (lines 322-333), without its reference count. -/
structure iSCSISource where
  mechanism : CString
  object_path : Option CString
  object : Option Nat
  iface : Option UDisksiSCSISource
  discovery_address : Option CString
  deriving DecidableEq, Repr

/-- `iscsi_source_compare` (lines 359-376). -/
def iscsi_source_compare (a b : iSCSISource) : Int :=
  let ret := strcmp a.mechanism b.mechanism
  if ret ≠ 0 then ret else g_strcmp0 a.discovery_address b.discovery_address

deriving instance DecidableEq for Except

/-- The ways the daemon process is aborted while it parses. -/
inductive Abort where
  /-- The call `g_error ("TODO: support '%s'", ...)` of line 396. -/
  | g_error_todo_support (mechanism : CString)
  /-- The failure of `g_assert (s - s2 >= 0)`, line 1400. -/
  | g_assert_failed
  /-- The read of the local variable `portal` before anything was assigned to it. -/
  | uninitialized_portal
  deriving DecidableEq, Repr

/-- `iscsi_source_compute_object_path` (lines 378-398). -/
def iscsi_source_compute_object_path (source : iSCSISource) : Except Abort iSCSISource :=
  if strcmp source.mechanism (cstr "static") = 0 then
    .ok { source with object_path := some (cstr "/org/freedesktop/UDisks2/iSCSI/static") }
  else if strcmp source.mechanism (cstr "sendtargets") = 0 then
    .ok { source with
          object_path := source.discovery_address.map
            (util_compute_object_path (cstr "/org/freedesktop/UDisks2/iSCSI/sendtargets/")) }
  else if strcmp source.mechanism (cstr "firmware") = 0 then
    .ok { source with object_path := some (cstr "/org/freedesktop/UDisks2/iSCSI/firmware") }
  else
    .error (.g_error_todo_support source.mechanism)

/-- The parser modes (lines 1222-1229). -/
inductive Mode where
  | MODE_NOWHERE
  | MODE_IN_SENDTARGETS
  | MODE_IN_ISNS
  | MODE_IN_STATIC
  | MODE_IN_FIRMWARE
  deriving DecidableEq, Repr

/-- The local variable `portal` of `load_and_process_iscsi`: it is declared without an
initial value (line 1243) and nothing is assigned to it before the loop.  A non-NULL
value points to a portal of an allocated target: the target by its number in order of
allocation, the portal by its position in the `portals` list of that target. -/
inductive PortalVar where
  | uninitialized
  | null
  | at (target : Nat) (portal : Nat)
  deriving DecidableEq, Repr

/-- The variables of the parsing loop of `load_and_process_iscsi` (lines 1275-1435).
`allocated_targets` holds the `iSCSITarget` records in order of allocation; a pointer to a
target is its position there.  `g_list_prepend` puts each new record in front of
`parsed_targets`, so that list is `allocated_targets` reversed. -/
structure ParserState where
  mode : Mode
  source : Option iSCSISource
  target : Option Nat
  portal : PortalVar
  allocated_targets : List iSCSITarget
  parsed_sources : List iSCSISource
  deriving DecidableEq, Repr

/-- The `GList` `parsed_targets`. -/
def ParserState.parsed_targets (st : ParserState) : List iSCSITarget :=
  st.allocated_targets.reverse

/-- An update through a pointer into a list of records. -/
def list_modify {α : Type} : List α → Nat → (α → α) → List α
  | [], _, _ => []
  | a :: l, 0, f => f a :: l
  | a :: l, n + 1, f => a :: list_modify l n f

/-- The variables before the first line is read (lines 1275-1279). -/
def ParserState.initial : ParserState :=
  { mode := .MODE_NOWHERE, source := none, target := none, portal := .uninitialized,
    allocated_targets := [], parsed_sources := [] }

/-- The branches that create a source (lines 1306-1314, 1325-1333, 1338-1344, 1349-1355):
the record is given its object path and prepended to `parsed_sources`. -/
def parse_new_source (st : ParserState) (mode : Mode) (mechanism : CString)
    (discovery_address : Option CString) : Except Abort ParserState :=
  match iscsi_source_compute_object_path
      { mechanism := mechanism, object_path := none, object := none, iface := none,
        discovery_address := discovery_address } with
  | .error e => .error e
  | .ok source =>
      .ok { st with
            mode := mode, source := some source, parsed_sources := source :: st.parsed_sources,
            target := none, portal := .null }

/-- The address of a portal line (lines 1401-1408): stripped, and with the brackets of an
IPv6 address removed. -/
def parse_portal_address (raw : CString) : CString :=
  let address := g_strstrip raw
  if address.head? = some 91 ∧ address.getLast? = some 93 then
    g_strstrip (32 :: (address.drop 1).dropLast)
  else address

/-- The branch for a line that starts with tab `Portal: ` (lines 1381-1413). -/
def parse_portal_line (st : ParserState) (line : CString) : Except Abort ParserState :=
  match st.target with
  | none => .ok st
  | some target =>
      match strrchr line 58 with
      | none => .ok st
      | some s =>
          match sscanf_d_comma_d (s.drop 1) with
          | none => .ok st
          | some (port, tpgt) =>
              -- `s2 = line + 9`, and `s` is at offset `line.length - s.length`
              if line.length - s.length < 9 then .error .g_assert_failed
              else
                let portal : iSCSIPortal :=
                  { address := parse_portal_address
                      ((line.drop 9).take (line.length - s.length - 9))
                    port := port, tpgt := tpgt, ifaces := [] }
                let index :=
                  match st.allocated_targets.get? target with
                  | some t => t.portals.length
                  | none => 0
                .ok { st with
                      portal := .at target index
                      allocated_targets :=
                        list_modify st.allocated_targets target
                          (fun t => { t with portals := t.portals ++ [portal] }) }

/-- The branch for a line that starts with two tabs and `Iface Name: ` (lines
1416-1427). -/
def parse_iface_line (st : ParserState) (line : CString) : Except Abort ParserState :=
  match st.portal with
  | .uninitialized => .error .uninitialized_portal
  | .null => .ok st
  | .at target portal =>
      let iface : iSCSIIface := { name := line.drop 14, settings := none, secret_settings := none }
      .ok { st with
            allocated_targets :=
              list_modify st.allocated_targets target
                (fun t => { t with
                            portals := list_modify t.portals portal
                              (fun p => { p with ifaces := p.ifaces ++ [iface] }) }) }

/-- One iteration of the parsing loop (lines 1297-1432) on the line `line`. -/
def parse_line (st : ParserState) (line : CString) : Except Abort ParserState :=
  if strcmp line (cstr "SENDTARGETS:") = 0 then
    .ok { st with mode := .MODE_IN_SENDTARGETS, source := none, target := none, portal := .null }
  else if st.mode = .MODE_IN_SENDTARGETS ∧ g_str_has_prefix line (cstr "DiscoveryAddress: ") then
    parse_new_source st st.mode (cstr "sendtargets") (some (line.drop 18))
  else if strcmp line (cstr "iSNS:") = 0 then
    .ok { st with mode := .MODE_IN_ISNS, source := none, target := none, portal := .null }
  else if st.mode = .MODE_IN_ISNS ∧ g_str_has_prefix line (cstr "DiscoveryAddress: ") then
    parse_new_source st st.mode (cstr "isns") (some (line.drop 18))
  else if strcmp line (cstr "STATIC:") = 0 then
    parse_new_source st .MODE_IN_STATIC (cstr "static") none
  else if strcmp line (cstr "FIRMWARE:") = 0 then
    parse_new_source st .MODE_IN_FIRMWARE (cstr "firmware") none
  else if strcmp line (cstr "No targets found.") = 0 then
    .ok { st with mode := .MODE_NOWHERE, source := none, target := none, portal := .null }
  else if g_str_has_prefix line (cstr "Target: ") then
    match st.source with
    | none => .ok st
    | some source =>
        let target : iSCSITarget :=
          { target_name := g_strstrip (line.drop 8)
            object_path := none, object := none, iface := none
            source_object_path := source.object_path.getD []
            portals := [] }
        .ok { st with
              target := some st.allocated_targets.length
              allocated_targets := st.allocated_targets ++ [target] }
  else if g_str_has_prefix line (cstr "\tPortal: ") then
    parse_portal_line st line
  else if g_str_has_prefix line (cstr "\t\tIface Name: ") then
    parse_iface_line st line
  else
    .ok st

/-- The parsing loop over the lines of `ia_out`. -/
def parse_lines : ParserState → List CString → Except Abort ParserState
  | st, [] => .ok st
  | st, line :: lines =>
      match parse_line st line with
      | .error e => .error e
      | .ok st' => parse_lines st' lines

/-- The parsing part of `load_and_process_iscsi` (lines 1275-1435) on the output `ia_out`
of the discovery command. -/
def parse_discovery (ia_out : CString) : Except Abort ParserState :=
  parse_lines ParserState.initial (split_lines ia_out)

/-- The discovery output with one static target `n` that has one portal `a:p,t` with one
interface `x`: the four lines, each ended by a line feed. -/
def static_block (n a x : CString) (p t : Int) : CString :=
  cstr "STATIC:" ++ 10 ::
    (cstr "Target: " ++ n ++ 10 ::
      (cstr "\tPortal: " ++ a ++ 58 :: (printf_d p ++ 44 :: printf_d t) ++ 10 ::
        (cstr "\t\tIface Name: " ++ x ++ [10])))

/-- The source record that the line `STATIC:` creates. -/
def static_source : iSCSISource :=
  { mechanism := cstr "static"
    object_path := some (cstr "/org/freedesktop/UDisks2/iSCSI/static")
    object := none, iface := none, discovery_address := none }

/-! ## Reconciliation engine -/

/-- A call to the D-Bus object manager of the daemon, which is outside this file. -/
inductive ObjectManagerCall where
  /-- The call `g_dbus_object_manager_server_unexport (manager, object_path)`. -/
  | unexport (object_path : Option CString)
  /-- The call `g_dbus_object_manager_server_export_uniquely (manager, object)` for the
  object skeleton `object` created with the path `object_path`. -/
  | export_uniquely (object : Nat) (object_path : Option CString)
  deriving DecidableEq, Repr

/-- The table `map_object_path_to_data` of GLib's `GDBusObjectManagerServer`, for the
objects of this provider: the path an object is exported under and the object, oldest
export first. -/
abbrev GDBusObjectManagerServer := List (CString × Nat)

/-- The loop of GLib's `g_variant_is_object_path` over the bytes after the first: each is
in `[A-Z][a-z][0-9]_`, or a `/` that does not follow a `/`; `prev` is the byte before, and
the last byte is not a `/`. -/
def is_object_path_loop : Nat → CString → Bool
  | prev, [] => prev ≠ 47
  | prev, b :: rest =>
      if (65 ≤ b ∧ b ≤ 90) ∨ (97 ≤ b ∧ b ≤ 122) ∨ (48 ≤ b ∧ b ≤ 57) ∨ b = 95 then
        is_object_path_loop b rest
      else if b = 47 then prev ≠ 47 && is_object_path_loop b rest
      else false

/-- GLib's `g_variant_is_object_path`: the string is `/`, or it starts with `/` and is
made of non-empty elements of `[A-Z][a-z][0-9]_` separated by single `/`. -/
def g_variant_is_object_path : CString → Bool
  | [] => false
  | [b] => b = 47
  | b :: rest => b = 47 && is_object_path_loop 47 rest

/-- GLib's `is_valid_child_object_path` for the object manager of the daemon, which is
created outside this file for the path `/org/freedesktop/UDisks2`, the start of every
object path of lines 380-395. -/
def is_valid_child_object_path (child_object_path : CString) : Bool :=
  g_str_has_prefix child_object_path (cstr "/org/freedesktop/UDisks2/")

/-- GLib's `g_dbus_object_manager_server_unexport (manager, object_path)`: what is
exported under the path is taken out of the table; nothing happens when nothing is, and
when the path fails the precondition checks of the function. -/
def g_dbus_object_manager_server_unexport (manager : GDBusObjectManagerServer)
    (object_path : CString) : GDBusObjectManagerServer :=
  if g_variant_is_object_path object_path && is_valid_child_object_path object_path then
    manager.filter (fun r => decide (r.1 ≠ object_path))
  else manager

/-- The loop of GLib's `g_dbus_object_manager_server_export_uniquely` that looks for a free
path: as long as an object is exported under `object_path` the next candidate is
`orig_object_path` followed by `_` and `count`, which starts at 1; `fuel` bounds the number
of rounds. -/
def export_uniquely_object_path (manager : GDBusObjectManagerServer)
    (orig_object_path : CString) : Nat → Nat → CString → CString
  | 0, _, object_path => object_path
  | fuel + 1, count, object_path =>
      if manager.any (fun r => decide (r.1 = object_path)) then
        export_uniquely_object_path manager orig_object_path fuel (count + 1)
          (orig_object_path ++ cstr "_" ++ printf_d count)
      else object_path

/-- GLib's `g_dbus_object_manager_server_export_uniquely (manager, object)` for an object
that was created with the path `orig_object_path`: the object is exported under the first
free path among `orig_object_path`, `orig_object_path_1`, `orig_object_path_2`, ...  The
path that the object skeleton reports is set to that path; the string `object_path` of the
record of this provider is not touched.  Nothing happens when the path fails the
precondition check of the function. -/
def g_dbus_object_manager_server_export_uniquely (manager : GDBusObjectManagerServer)
    (object : Nat) (orig_object_path : CString) : GDBusObjectManagerServer :=
  if is_valid_child_object_path orig_object_path then
    manager ++ [(export_uniquely_object_path manager orig_object_path (manager.length + 1) 1
      orig_object_path, object)]
  else manager

/-- What one call does to the table of the object manager.  An unexport call with a NULL
path fails the precondition check of the GLib function, which returns without doing
anything; `udisks_object_skeleton_new` gives an object only for a path that is NULL or a
valid object path, and there is nothing to export without an object or without a path. -/
def ObjectManagerCall.apply (manager : GDBusObjectManagerServer) :
    ObjectManagerCall → GDBusObjectManagerServer
  | .unexport (some object_path) => g_dbus_object_manager_server_unexport manager object_path
  | .export_uniquely object (some object_path) =>
      if g_variant_is_object_path object_path then
        g_dbus_object_manager_server_export_uniquely manager object object_path
      else manager
  | _ => manager

/-- The table of the object manager after the calls `calls`, made on a manager that has
no object of this provider. -/
def object_manager_server (calls : List ObjectManagerCall) : GDBusObjectManagerServer :=
  calls.foldl ObjectManagerCall.apply []

/-- The fields of `struct _UDisksiSCSIProvider` (lines 410-426) that the reconciliation
works on, the three hash tables as `connections`.  `next_object` is the identity that the
next allocated `GObject` gets, `object_manager_calls` the calls made to the object manager
so far, oldest first. -/
structure UDisksiSCSIProvider where
  cool_off_timeout_id : Nat
  connections : ConnectionCache
  targets : List iSCSITarget
  sources : List iSCSISource
  next_object : Nat
  object_manager_calls : List ObjectManagerCall
  deriving DecidableEq, Repr

/-- The inner loop of `portals_and_ifaces_to_gvariant` (lines 588-610) over the sorted
interfaces of one portal: the tuples added to the builder. -/
def portal_connection_views (connections : ConnectionCache) (target_name : CString)
    (portal : iSCSIPortal) : List ConnectionView :=
  portal.ifaces.map (fun iface =>
    let found := connections_get_state connections target_name portal.tpgt portal.address
      portal.port iface.name
    { address := portal.address
      port := portal.port
      tpgt := if portal.tpgt ≠ -1 then some portal.tpgt else found.2
      iface_name := iface.name
      settings := iface.settings
      state := found.1 })

/-- `portals_and_ifaces_to_gvariant` (lines 573-613): the target with its portals and
their interfaces sorted in place, and the array built. -/
def portals_and_ifaces_to_gvariant (connections : ConnectionCache) (target : iSCSITarget) :
    iSCSITarget × List ConnectionView :=
  let portals := (g_list_sort iscsi_portal_compare target.portals).map
    (fun portal => { portal with ifaces := g_list_sort iscsi_iface_compare portal.ifaces })
  ({ target with portals := portals },
   (portals.map (portal_connection_views connections target.target_name)).flatten)

/-- The body of the loops of lines 1152-1157 and 1457-1462:
`udisks_iscsi_target_set_connections (target->iface, portals_and_ifaces_to_gvariant (...))`. -/
def update_target_connections (connections : ConnectionCache) (target : iSCSITarget) :
    iSCSITarget :=
  let built := portals_and_ifaces_to_gvariant connections target
  { built.1 with iface := built.1.iface.map (fun h => { h with connections := built.2 }) }

/-- The body of the loop over `removed` in `add_remove_targets` (lines 1104-1111). -/
def remove_target (provider : UDisksiSCSIProvider) (target : iSCSITarget) :
    UDisksiSCSIProvider :=
  { provider with
    object_manager_calls := provider.object_manager_calls ++ [.unexport target.object_path]
    targets := g_list_remove provider.targets target }

/-- The body of the first loop over `added` in `add_remove_targets` (lines 1113-1142): the
target gets its object path and a new published handle, and is prepended to the live
list. -/
def add_target (provider : UDisksiSCSIProvider) (target : iSCSITarget) : UDisksiSCSIProvider :=
  let target : iSCSITarget :=
    { target with
      object_path :=
        some (util_compute_object_path (target.source_object_path ++ cstr "/")
          target.target_name)
      iface := some { id := provider.next_object
                      name := some target.target_name
                      source := some target.source_object_path
                      connections := [] } }
  { provider with targets := target :: provider.targets, next_object := provider.next_object + 1 }

/-- The body of the last loop over `added` in `add_remove_targets` (lines 1160-1167), for
the element of `added` that is the record at position `index` of the live list. -/
def export_target (provider : UDisksiSCSIProvider) (index : Nat) : UDisksiSCSIProvider :=
  match provider.targets.get? index with
  | none => provider
  | some target =>
      { provider with
        targets := list_modify provider.targets index
          (fun t => { t with object := some provider.next_object })
        next_object := provider.next_object + 1
        object_manager_calls := provider.object_manager_calls ++
          [.export_uniquely provider.next_object target.object_path] }

/-- `add_remove_targets` (lines 1090-1171).  The elements of `added` are prepended to the
live list one after the other, so the element number `k` of `added` is the record at
position `added.length - 1 - k` of the live list when the last loop runs. -/
def add_remove_targets (spawn : Spawner) (provider : UDisksiSCSIProvider)
    (parsed_targets : List iSCSITarget) : UDisksiSCSIProvider :=
  let provider := { provider with targets := g_list_sort iscsi_target_compare provider.targets }
  let diff := diff_sorted_lists provider.targets parsed_targets iscsi_target_compare
  let added := diff.1
  let removed := diff.2
  let provider := removed.foldl remove_target provider
  let provider := added.foldl add_target provider
  let provider := { provider with targets := provider.targets.map (load_settings spawn) }
  let provider :=
    { provider with
      targets := provider.targets.map (update_target_connections provider.connections) }
  (List.range added.length).foldl
    (fun provider k => export_target provider (added.length - 1 - k)) provider

/-- The body of the loop over `removed` in `add_remove_sources` (lines 1187-1194). -/
def remove_source (provider : UDisksiSCSIProvider) (source : iSCSISource) :
    UDisksiSCSIProvider :=
  { provider with
    object_manager_calls := provider.object_manager_calls ++ [.unexport source.object_path]
    sources := g_list_remove provider.sources source }

/-- The body of the first loop over `added` in `add_remove_sources` (lines 1196-1206): the
source gets a new published handle and is prepended to the live list. -/
def add_source (provider : UDisksiSCSIProvider) (source : iSCSISource) : UDisksiSCSIProvider :=
  let source : iSCSISource :=
    { source with
      iface := some { id := provider.next_object
                      mechanism := some source.mechanism
                      address := source.discovery_address } }
  { provider with sources := source :: provider.sources, next_object := provider.next_object + 1 }

/-- The body of the last loop over `added` in `add_remove_sources` (lines 1209-1216), for
the element of `added` that is the record at position `index` of the live list. -/
def export_source (provider : UDisksiSCSIProvider) (index : Nat) : UDisksiSCSIProvider :=
  match provider.sources.get? index with
  | none => provider
  | some source =>
      { provider with
        sources := list_modify provider.sources index
          (fun s => { s with object := some provider.next_object })
        next_object := provider.next_object + 1
        object_manager_calls := provider.object_manager_calls ++
          [.export_uniquely provider.next_object source.object_path] }

/-- `add_remove_sources` (lines 1173-1220). -/
def add_remove_sources (provider : UDisksiSCSIProvider) (parsed_sources : List iSCSISource) :
    UDisksiSCSIProvider :=
  let provider := { provider with sources := g_list_sort iscsi_source_compare provider.sources }
  let diff := diff_sorted_lists provider.sources parsed_sources iscsi_source_compare
  let added := diff.1
  let removed := diff.2
  let provider := removed.foldl remove_source provider
  let provider := added.foldl add_source provider
  (List.range added.length).foldl
    (fun provider k => export_source provider (added.length - 1 - k)) provider

/-- The command line of the discovery dump (line 1254). -/
def discovery_command_line : CString := cstr "iscsiadm --mode discoverydb --print 1"

/-- `load_and_process_iscsi` (lines 1231-1451): the provider after the pass, or the way
the process is aborted while the output is parsed.  When the command cannot be spawned or
does not exit with status 0 the code jumps to `done_parsing` with both parsed lists
empty. -/
def load_and_process_iscsi (spawn : Spawner) (provider : UDisksiSCSIProvider) :
    Except Abort UDisksiSCSIProvider :=
  let parsed : Except Abort (List iSCSITarget × List iSCSISource) :=
    match spawn discovery_command_line with
    | none => .ok ([], [])
    | some out =>
        if exited_with_zero out.exit_status then
          match parse_discovery out.standard_output with
          | .error e => .error e
          | .ok st => .ok (st.parsed_targets, st.parsed_sources)
        else .ok ([], [])
  match parsed with
  | .error e => .error e
  | .ok parsed =>
      let parsed_targets := g_list_sort iscsi_target_compare parsed.1
      let parsed_sources := g_list_sort iscsi_source_compare parsed.2
      let provider := add_remove_targets spawn provider parsed_targets
      .ok (add_remove_sources provider parsed_sources)

/-! ## Event scheduler -/

/-- The provider together with the part of the GLib main context that the scheduler uses:
`timeout_sources` holds the ids of the timeout sources that are attached to the main
context with the callback `on_cool_off_timeout_cb` and have not been removed yet, oldest
first. -/
structure SchedulerState where
  provider : UDisksiSCSIProvider
  timeout_sources : List Nat
  deriving DecidableEq, Repr

/-- `g_timeout_add (250, on_cool_off_timeout_cb, provider)`: a source is attached to the main
context and its id is returned.  GLib documents the id as greater than 0 and gives an id
that no attached source has; here it is the successor of the largest id attached.  The
result is the id and the attached sources. -/
def g_timeout_add (timeout_sources : List Nat) : Nat × List Nat :=
  let id := timeout_sources.foldl max 0 + 1
  (id, timeout_sources ++ [id])

/-- `request_reload` (lines 1478-1484). -/
def request_reload (s : SchedulerState) : SchedulerState :=
  if s.provider.cool_off_timeout_id = 0 then
    let added := g_timeout_add s.timeout_sources
    { provider := { s.provider with cool_off_timeout_id := added.1 }
      timeout_sources := added.2 }
  else s

/-- `on_file_monitor_changed` (lines 1486-1496). -/
def on_file_monitor_changed (s : SchedulerState) : SchedulerState := request_reload s

/-- The end of `on_cool_off_timeout_cb` (lines 1474-1475), after the call of
`load_and_process_iscsi` has returned: the pending flag is cleared, and the return value
`FALSE` makes the main context remove the source `source_id` that fired. -/
def on_cool_off_timeout_cb_return (source_id : Nat) (s : SchedulerState) : SchedulerState :=
  { provider := { s.provider with cool_off_timeout_id := 0 }
    timeout_sources := s.timeout_sources.erase source_id }

/-- `on_cool_off_timeout_cb` (lines 1467-1476) for the source `source_id`, when no other
thread touches the provider while it runs: the pass of line 1473, then lines 1474-1475. -/
def on_cool_off_timeout_cb (spawn : Spawner) (source_id : Nat) (s : SchedulerState) :
    Except Abort SchedulerState :=
  match load_and_process_iscsi spawn s.provider with
  | .error e => .error e
  | .ok provider => .ok (on_cool_off_timeout_cb_return source_id { s with provider := provider })

/-! ### A small provider for concrete runs -/

/-- A parsed target named `name` under the source with object path `source_object_path`,
with the portal 10.0.0.5:3260,1 and the interface `default`. -/
def demo_parsed_target (name source_object_path : CString) : iSCSITarget :=
  { target_name := name
    object_path := none, object := none, iface := none
    source_object_path := source_object_path
    portals := [{ address := cstr "10.0.0.5", port := 3260, tpgt := 1
                  ifaces := [{ name := cstr "default", settings := none,
                               secret_settings := none }] }] }

/-- A spawner for a system without `iscsiadm`: every spawn fails. -/
def demo_spawn_fails : Spawner := fun _ => none

/-- A provider whose live list is what a first pass over the static target `t1` leaves. -/
def demo_provider : UDisksiSCSIProvider :=
  add_remove_targets demo_spawn_fails
    { cool_off_timeout_id := 0, connections := ConnectionCache.empty, targets := [],
      sources := [], next_object := 0, object_manager_calls := [] }
    [demo_parsed_target (cstr "t1") (cstr "/org/freedesktop/UDisks2/iSCSI/static")]

/-- A provider with nothing live. -/
def demo_empty_provider : UDisksiSCSIProvider :=
  { cool_off_timeout_id := 0, connections := ConnectionCache.empty, targets := [],
    sources := [], next_object := 0, object_manager_calls := [] }

/-- A scheduler state with nothing live and no timer pending. -/
def demo_scheduler : SchedulerState :=
  { provider := demo_empty_provider, timeout_sources := [] }

/-- A spawner for a system whose discovery dump is the static target `t1` with the portal
10.0.0.5:3260,1 and the interface `default`; every other command cannot be spawned. -/
def demo_spawn_static : Spawner := fun command_line =>
  if command_line = discovery_command_line then
    some { standard_output := static_block (cstr "t1") (cstr "10.0.0.5") (cstr "default") 3260 1
           standard_error := [], exit_status := 0 }
  else none

/-- The provider after one pass of `load_and_process_iscsi` on that system. -/
def demo_loaded_provider : UDisksiSCSIProvider :=
  match load_and_process_iscsi demo_spawn_static demo_empty_provider with
  | .ok provider => provider
  | .error _ => demo_empty_provider

/-- A spawner for a system whose discovery dump is the two static targets `iqn.a/lun0` and
`iqn.b/lun0`, each with the portal 10.0.0.5:3260,1 and the interface `default`; every
other command cannot be spawned. -/
def demo_spawn_two_luns : Spawner := fun command_line =>
  if command_line = discovery_command_line then
    some { standard_output :=
             cstr "STATIC:\nTarget: iqn.a/lun0\n\tPortal: 10.0.0.5:3260,1\n\t\tIface Name: default\nTarget: iqn.b/lun0\n\tPortal: 10.0.0.5:3260,1\n\t\tIface Name: default\n"
           standard_error := [], exit_status := 0 }
  else none

/-- The provider after one pass of `load_and_process_iscsi` on that system. -/
def demo_two_luns_provider : UDisksiSCSIProvider :=
  match load_and_process_iscsi demo_spawn_two_luns demo_empty_provider with
  | .ok provider => provider
  | .error _ => demo_empty_provider

/-- A spawner for a system where `iscsiadm` has a record for the interface `default` of
the portal 10.0.0.5:3260 of `t1` and for nothing else: every other command exits with
status 21. -/
def demo_spawn_default_only : Spawner := fun command_line =>
  if command_line
      = load_settings_command_line (cstr "t1") (cstr "10.0.0.5") 3260 (cstr "default") then
    some { standard_output :=
             cstr "node.startup = automatic\nnode.session.auth.password = secret123\n"
           standard_error := [], exit_status := 0 }
  else
    some { standard_output := [], standard_error := cstr "iscsiadm: no records found",
           exit_status := 5376 }

/-- The target `t1` with one portal and the two interfaces `eth1`, which holds settings of
an earlier pass, and `default`. -/
def demo_target_two_ifaces : iSCSITarget :=
  { target_name := cstr "t1"
    object_path := none, object := none, iface := none
    source_object_path := cstr "/org/freedesktop/UDisks2/iSCSI/static"
    portals := [{ address := cstr "10.0.0.5", port := 3260, tpgt := 1
                  ifaces := [{ name := cstr "eth1"
                               settings := some [(cstr "node.startup", cstr "manual")]
                               secret_settings := some [(cstr "node.startup", cstr "manual")] },
                             { name := cstr "default", settings := none,
                               secret_settings := none }] }] }

/-- The entry the spec describes for one line of the settings output: none for a line
that starts with `#` or has no ` = `, otherwise the key is the text before the first
` = ` and the value all the text after it, the empty string when it is `<empty>`. -/
def setting_of_line (line : CString) : Option (CString × CString) :=
  if line.head? = some 35 then none
  else
    match strstr line (cstr " = ") with
    | none => none
    | some i =>
        some (line.take i,
          if line.drop (i + 3) = cstr "<empty>" then [] else line.drop (i + 3))

/-- Does the key contain the substring `password`. -/
def is_password_key (key : CString) : Bool := (strstr key (cstr "password")).isSome

/-- The entry that the `a{ss}` array holds for a parsed entry: each of the two strings
as `g_variant_builder_add` stores it. -/
def stored_entry (e : CString × CString) : CString × CString :=
  (g_variant_valist_new_nnp e.1, g_variant_valist_new_nnp e.2)

/-- The public entry of a parsed entry: the value of a `password` key is blanked. -/
def mask_entry (e : CString × CString) : CString × CString :=
  if is_password_key e.1 then (e.1, []) else e

/-! ## Definitions used by the statements and proofs -/

/-- The candidate number `k` of the loop of `g_dbus_object_manager_server_export_uniquely`:
the path of the object, then that path followed by `_1`, `_2`, ... -/
def export_candidate (orig_object_path : CString) (k : Nat) : CString :=
  if k = 0 then orig_object_path else orig_object_path ++ cstr "_" ++ printf_d k

/-- What the loop of `util_compute_object_path` appends for one byte. -/
def escape_byte (b : Nat) : CString :=
  if is_path_char (gchar_to_gint b) then [gint_to_gchar (gchar_to_gint b)]
  else 95 :: printf_02x (gchar_to_gint b)

/-- The bytes the loop of `util_compute_object_path` appends for a whole segment. -/
def escape_segment : CString → CString
  | [] => []
  | b :: rest => escape_byte b ++ escape_segment rest

/-- The three shapes of `escape_byte`: a copied byte, `_` and two digits for the other
bytes below 0x80, `_ffffff` and two digits for the bytes from 0x80 up. -/
def escape_byte_shape (b : Nat) : CString :=
  if (65 ≤ b ∧ b ≤ 90) ∨ (97 ≤ b ∧ b ≤ 122) ∨ (48 ≤ b ∧ b ≤ 57) then [b]
  else if b < 128 then [95, hex_digit (b / 16), hex_digit (b % 16)]
  else [95, 102, 102, 102, 102, 102, 102, hex_digit (b / 16), hex_digit (b % 16)]

/-- The encoding the spec describes for a whole segment. -/
def spec_escape_segment : CString → CString
  | [] => []
  | b :: rest => spec_escape_byte b ++ spec_escape_segment rest

/-- The record that lines 1602-1640 build from the attributes read. -/
def built_connection (session_sysfs_path t i a : CString) (g p : Int) : Connection :=
  { target_name := t
    iface_name := i
    tpgt := g
    state := none
    session_sysfs_path := session_sysfs_path
    address := a
    port := p
    id := format_id g a p i t
    id_without_tpgt := format_id_without_tpgt a p i t }

/-- The record cached for `connection1:0`. -/
def demo_connection_one : Connection :=
  { built_connection (demo_session_device (cstr "1") (cstr "t1")).sysfs_path (cstr "t1")
      (cstr "default") (cstr "10.0.0.5") 1 3260 with state := some (cstr "LOGGED_IN") }

/-- The two id strings of a record are the ones lines 1630-1640 compute from its fields. -/
def Connection.ids_computed (c : Connection) : Prop :=
  c.id = format_id c.tpgt c.address c.port c.iface_name c.target_name ∧
  c.id_without_tpgt = format_id_without_tpgt c.address c.port c.iface_name c.target_name

/-- What every cache state that the code builds satisfies: the id strings of the cached
records are computed from their fields, and every pointer in an id table points to a
record that `sysfs_to_connection` holds and that carries the key as its id. -/
def ConnectionCache.consistent (st : ConnectionCache) : Prop :=
  (∀ path c, g_hash_table_lookup st.sysfs_to_connection path = some c → c.ids_computed) ∧
  (∀ key ref, g_hash_table_lookup st.id_to_connection key = some ref →
    ∃ c, g_hash_table_lookup st.sysfs_to_connection ref = some c ∧ c.id = key) ∧
  (∀ key ref, g_hash_table_lookup st.id_without_tpgt_to_connection key = some ref →
    ∃ c, g_hash_table_lookup st.sysfs_to_connection ref = some c ∧ c.id_without_tpgt = key)

/-- The value of a run of decimal digits read onto `acc`. -/
def digits_value (ds : CString) (acc : Nat) : Nat :=
  ds.foldl (fun a b => a * 10 + (b - 48)) acc

/-- The text has no `g_ascii_isspace` byte at its start or at its end. -/
def no_space_at_ends (s : CString) : Prop :=
  (∀ b, s.head? = some b → g_ascii_isspace b = false) ∧
  (∀ b, s.getLast? = some b → g_ascii_isspace b = false)

/-- The address is not of the bracketed form `[...]`. -/
def not_bracketed (a : CString) : Prop := ¬ (a.head? = some 91 ∧ a.getLast? = some 93)

/-- A list sorted strictly ascending by a `GCompareFunc`: no two elements compare equal. -/
def StrictlySortedBy {α : Type} (compare : α → α → Int) (l : List α) : Prop :=
  l.Pairwise (fun a b => compare a b < 0)

/-- The record that `add_target` prepends for an element of `added`. -/
def prepared_target (next_object : Nat) (target : iSCSITarget) : iSCSITarget :=
  { target with
    object_path :=
      some (util_compute_object_path (target.source_object_path ++ cstr "/") target.target_name)
    iface := some { id := next_object
                    name := some target.target_name
                    source := some target.source_object_path
                    connections := [] } }

/-- The records that the first loop over `added` prepends, in the order of `added`. -/
def prepare_added : Nat → List iSCSITarget → List iSCSITarget
  | _, [] => []
  | next_object, t :: ts => prepared_target next_object t :: prepare_added (next_object + 1) ts

/-- The record without the identity of its object skeleton. -/
def without_object (t : iSCSITarget) : iSCSITarget := { t with object := none }

/-- A call that is an `export_uniquely`. -/
def ObjectManagerCall.is_export : ObjectManagerCall → Prop
  | .unexport _ => False
  | .export_uniquely _ _ => True

/-- What the last loop of `add_remove_targets` leaves alone. -/
def export_preserves (n : Nat) (before after : UDisksiSCSIProvider) : Prop :=
  after.targets.map without_object = before.targets.map without_object ∧
  after.targets.drop n = before.targets.drop n ∧
  ∃ calls, after.object_manager_calls = before.object_manager_calls ++ calls ∧
    ∀ c ∈ calls, c.is_export

/-- The live list of `add_remove_targets` before its last loop runs: the prepared elements
of `added`, last one first, then what is left of the sorted live list, every record with
its settings reloaded and its connections property updated. -/
def reconciled_targets (spawn : Spawner) (provider : UDisksiSCSIProvider)
    (parsed_targets : List iSCSITarget) : List iSCSITarget :=
  (((prepare_added provider.next_object
        (diff_sorted_lists (g_list_sort iscsi_target_compare provider.targets) parsed_targets
          iscsi_target_compare).1).reverse
      ++ (g_list_sort iscsi_target_compare provider.targets).diff
          (diff_sorted_lists (g_list_sort iscsi_target_compare provider.targets) parsed_targets
            iscsi_target_compare).2).map (load_settings spawn)).map
    (update_target_connections provider.connections)

/-- The names that the lines starting with `Target: ` carry: the text after the prefix,
without the white space at its ends. -/
def target_line_names (lines : List CString) : List CString :=
  (lines.filter (fun line => g_str_has_prefix line (cstr "Target: "))).map
    (fun line => g_strstrip (line.drop 8))

/-- A sysfs attribute that is absent or reads as the literal text `(null)`. -/
def null_equivalent (value : Option CString) : Prop :=
  value = none ∨ value = some (cstr "(null)")

/-- What the spec says one line of the settings output gives: nothing when the line starts
with `#` or does not contain ` = `; otherwise the entry whose key is the text before the
first ` = ` and whose value is all the text after it, the empty string when that text is
`<empty>`. -/
def is_entry_of_line (line : CString) (entry : Option (CString × CString)) : Prop :=
  ((line.head? = some 35 ∨ ¬ (cstr " = ") <:+: line) → entry = none) ∧
  (line.head? ≠ some 35 → (cstr " = ") <:+: line →
    ∃ key value, line = key ++ cstr " = " ++ value ∧
      (∀ key' value', line = key' ++ cstr " = " ++ value' → key.length ≤ key'.length) ∧
      entry = some (key, if value = cstr "<empty>" then [] else value))

/-- The value of a lower-case hexadecimal digit. -/
def hex_value (d : Nat) : Nat :=
  if 48 ≤ d ∧ d ≤ 57 then d - 48 else d - 87

/-- The decoding the spec describes for the part of an object path after the base: each
`_` followed by two hexadecimal digits gives the byte they denote, every other byte is
copied. -/
def unescape_segment : CString → CString
  | [] => []
  | [b] => [b]
  | [b, c] => [b, c]
  | b :: h :: l :: rest =>
      if b = 95 then (16 * hex_value h + hex_value l) :: unescape_segment rest
      else b :: unescape_segment (h :: l :: rest)

/-- What links the variables of the parsing loop, once they have been written: a portal
that was set belongs to a state with a current target, a current target to a state with a
current source, the current source is on the parsed list, every parsed source has an
object path, and every allocated target carries the object path of a parsed source. -/
def ParserState.linked (st : ParserState) : Prop :=
  (∀ target portal, st.portal = .at target portal → st.target ≠ none) ∧
  (st.target ≠ none → st.source ≠ none) ∧
  (∀ s, st.source = some s → s ∈ st.parsed_sources) ∧
  (∀ s ∈ st.parsed_sources, s.object_path ≠ none) ∧
  (∀ t ∈ st.allocated_targets, ∃ s ∈ st.parsed_sources,
    s.object_path = some t.source_object_path)

/-! ## Theorems -/

theorem foldl_prepend_eq {α : Type} (l init : List α) :
    l.foldl (fun acc x => x :: acc) init = l.reverse ++ init := by
  induction l generalizing init with
  | nil => rfl
  | cons a l ih => simp [ih]

theorem compare_self_eq_zero {α : Type} {compare : α → α → Int}
    (h : IsTotalPreorder compare) (a : α) : compare a a = 0 := by
  have h1 := h.1 a a
  omega

theorem compare_eq_zero_symm {α : Type} {compare : α → α → Int}
    (h : IsTotalPreorder compare) {a b : α} (hab : compare a b = 0) : compare b a = 0 := by
  have h1 := h.1 a b
  have h2 := h.1 b a
  omega

theorem compare_eq_zero_trans {α : Type} {compare : α → α → Int}
    (h : IsTotalPreorder compare) {a b c : α} (hab : compare a b = 0) (hbc : compare b c = 0) :
    compare a c = 0 := by
  have hba := compare_eq_zero_symm h hab
  have hcb := compare_eq_zero_symm h hbc
  have h1 := h.2 a b c (by omega) (by omega)
  have h2 := h.2 c b a (by omega) (by omega)
  have h3 := h.1 a c
  omega

theorem keyCount_congr {α : Type} {compare : α → α → Int}
    (h : IsTotalPreorder compare) {a b : α} (hab : compare a b = 0) (k : α) (l : List α) :
    keyCount compare k (a :: l) = keyCount compare k (b :: l) := by
  have hiff : compare k a = 0 ↔ compare k b = 0 :=
    ⟨fun hk => compare_eq_zero_trans h hk hab,
     fun hk => compare_eq_zero_trans h hk (compare_eq_zero_symm h hab)⟩
  unfold keyCount
  by_cases hk : compare k a = 0
  · simp [List.countP_cons, hk, hiff.mp hk]
  · have hk2 : ¬ compare k b = 0 := fun hb => hk (hiff.mpr hb)
    simp [List.countP_cons, hk, hk2]

theorem keyCount_cons {α : Type} (compare : α → α → Int) (k a : α) (l : List α) :
    keyCount compare k (a :: l) = keyCount compare k l + (if compare k a = 0 then 1 else 0) := by
  unfold keyCount
  simp [List.countP_cons]

/-- What the loop of `diff_sorted_lists` computes, with enough fuel: `removed` grows by
a sublist `s1` of `list1`, `added` by a sublist `s2` of `list2`, the key counts balance,
and on sorted input no element of `s2` compares equal to one of `s1`. -/
theorem diff_sorted_lists_loop_spec {α : Type} {compare : α → α → Int}
    (h : IsTotalPreorder compare) :
    ∀ (fuel : Nat) (list1 list2 added removed : List α),
      list1.length + list2.length ≤ fuel →
      ∃ s1 s2 : List α,
        diff_sorted_lists_loop compare fuel list1 list2 added removed
          = (s2.reverse ++ added, s1.reverse ++ removed) ∧
        s1.Sublist list1 ∧ s2.Sublist list2 ∧
        (∀ k, keyCount compare k list1 + keyCount compare k s2
            = keyCount compare k list2 + keyCount compare k s1) ∧
        (SortedBy compare list1 → SortedBy compare list2 →
          ∀ x ∈ s2, ∀ y ∈ s1, compare x y ≠ 0) := by
  intro fuel
  induction fuel with
  | zero =>
    intro list1 list2 added removed hf
    have h1 : list1 = [] := by
      cases list1 with
      | nil => rfl
      | cons a l => simp at hf
    have h2 : list2 = [] := by
      cases list2 with
      | nil => rfl
      | cons a l => simp at hf
    subst h1 h2
    exact ⟨[], [], by simp [diff_sorted_lists_loop], List.Sublist.refl _, List.Sublist.refl _,
      fun k => rfl, fun _ _ x hx => by simp at hx⟩
  | succ fuel ih =>
    intro list1 list2 added removed hf
    cases list1 with
    | nil =>
      refine ⟨[], list2, ?_, List.Sublist.refl _, List.Sublist.refl _, fun k => ?_,
        fun _ _ x _ y hy => by simp at hy⟩
      · simp [diff_sorted_lists_loop, foldl_prepend_eq]
      · omega
    | cons a l1 =>
      cases list2 with
      | nil =>
        refine ⟨a :: l1, [], ?_, List.Sublist.refl _, List.Sublist.refl _, fun k => ?_,
          fun _ _ x hx => by simp at hx⟩
        · simp [diff_sorted_lists_loop, foldl_prepend_eq]
        · omega
      | cons b l2 =>
        simp only [List.length_cons] at hf
        by_cases hlt : compare a b < 0
        · obtain ⟨s1, s2, heq, hs1, hs2, hcnt, hdis⟩ :=
            ih l1 (b :: l2) added (a :: removed) (by simp only [List.length_cons]; omega)
          refine ⟨a :: s1, s2, ?_, hs1.cons₂ a, hs2, fun k => ?_, ?_⟩
          · simp [diff_sorted_lists_loop, hlt, heq]
          · have := hcnt k
            rw [keyCount_cons compare k a l1, keyCount_cons compare k a s1]
            omega
          · intro hA hB x hx y hy
            rcases List.mem_cons.mp hy with rfl | hy
            · -- `y < b ≤ x`
              have hbx : compare b x ≤ 0 := by
                rcases List.mem_cons.mp (hs2.subset hx) with rfl | hxl
                · have := compare_self_eq_zero h x
                  omega
                · exact (List.pairwise_cons.mp hB).1 x hxl
              intro hxy
              have hyx := compare_eq_zero_symm h hxy
              have h1 := h.2 b x y hbx (by omega)
              have h2 := h.1 y b
              have h3 := h.1 b y
              omega
            · exact hdis (List.pairwise_cons.mp hA).2 hB x hx y hy
        · by_cases hgt : compare a b > 0
          · obtain ⟨s1, s2, heq, hs1, hs2, hcnt, hdis⟩ :=
              ih (a :: l1) l2 (b :: added) removed (by simp only [List.length_cons]; omega)
            refine ⟨s1, b :: s2, ?_, hs1, hs2.cons₂ b, fun k => ?_, ?_⟩
            · simp [diff_sorted_lists_loop, hlt, hgt, heq]
            · have := hcnt k
              rw [keyCount_cons compare k b l2, keyCount_cons compare k b s2]
              omega
            · intro hA hB x hx y hy
              rcases List.mem_cons.mp hx with rfl | hx
              · -- `x < a ≤ y`
                have hay : compare a y ≤ 0 := by
                  rcases List.mem_cons.mp (hs1.subset hy) with rfl | hyl
                  · have := compare_self_eq_zero h y
                    omega
                  · exact (List.pairwise_cons.mp hA).1 y hyl
                intro hxy
                have hyx := compare_eq_zero_symm h hxy
                have h1 := h.2 a y x hay (by omega)
                omega
              · exact hdis hA (List.pairwise_cons.mp hB).2 x hx y hy
          · have heq0 : compare a b = 0 := by omega
            obtain ⟨s1, s2, heq, hs1, hs2, hcnt, hdis⟩ :=
              ih l1 l2 added removed (by omega)
            refine ⟨s1, s2, ?_, hs1.cons a, hs2.cons b, fun k => ?_, ?_⟩
            · simp [diff_sorted_lists_loop, hlt, hgt, heq]
            · have := hcnt k
              rw [keyCount_congr h heq0 k l1, keyCount_cons compare k b l1,
                keyCount_cons compare k b l2]
              omega
            · intro hA hB x hx y hy
              exact hdis (List.pairwise_cons.mp hA).2 (List.pairwise_cons.mp hB).2 x hx y hy

/-- The two result lists of `diff_sorted_lists`, with the facts the loop establishes. -/
theorem diff_sorted_lists_spec {α : Type} {compare : α → α → Int}
    (h : IsTotalPreorder compare) (list1 list2 : List α) :
    ∃ s1 s2 : List α,
      diff_sorted_lists list1 list2 compare = (s2.reverse, s1.reverse) ∧
      s1.Sublist list1 ∧ s2.Sublist list2 ∧
      (∀ k, keyCount compare k list1 + keyCount compare k s2
          = keyCount compare k list2 + keyCount compare k s1) ∧
      (SortedBy compare list1 → SortedBy compare list2 →
        ∀ x ∈ s2, ∀ y ∈ s1, compare x y ≠ 0) := by
  obtain ⟨s1, s2, heq, hs1, hs2, hcnt, hdis⟩ :=
    diff_sorted_lists_loop_spec h (list1.length + list2.length) list1 list2 [] [] (le_refl _)
  exact ⟨s1, s2, by simpa [diff_sorted_lists] using heq, hs1, hs2, hcnt, hdis⟩

theorem keyCount_perm {α : Type} (compare : α → α → Int) (k : α) {l1 l2 : List α}
    (hp : l1.Perm l2) : keyCount compare k l1 = keyCount compare k l2 := by
  unfold keyCount
  exact hp.countP_eq _

theorem keyCount_append {α : Type} (compare : α → α → Int) (k : α) (l1 l2 : List α) :
    keyCount compare k (l1 ++ l2) = keyCount compare k l1 + keyCount compare k l2 := by
  unfold keyCount
  exact List.countP_append _ _ _

theorem keyCount_diff_add {α : Type} [DecidableEq α] (compare : α → α → Int) (k : α)
    {l r : List α} (hsub : r.Subperm l) :
    keyCount compare k (l.diff r) + keyCount compare k r = keyCount compare k l := by
  have hp : (r ++ l.diff r).Perm l :=
    List.subperm_append_diff_self_of_count_le (fun x _ => hsub.count_le x)
  rw [← keyCount_perm compare k hp, keyCount_append]
  omega

/-- C1: for a comparator that is a total preorder and lists `A`, `B` sorted ascending by
it, `diff_sorted_lists A B` returns `(added, removed)` where `removed` is made of elements
of `A` and `added` of elements of `B`, taking `removed` out of `A` and putting `added` in
gives a list with, for every key, as many elements comparing equal to it as `B` has, and
no element of `added` compares equal to an element of `removed`. -/
theorem diff_sorted_lists_reconciles {α : Type} [DecidableEq α] (compare : α → α → Int)
    (h : IsTotalPreorder compare) (A B : List α)
    (hA : SortedBy compare A) (hB : SortedBy compare B) :
    (diff_sorted_lists A B compare).2.Subperm A ∧
    (diff_sorted_lists A B compare).1.Subperm B ∧
    (∀ k, keyCount compare k
            (A.diff (diff_sorted_lists A B compare).2 ++ (diff_sorted_lists A B compare).1)
          = keyCount compare k B) ∧
    (∀ x ∈ (diff_sorted_lists A B compare).1, ∀ y ∈ (diff_sorted_lists A B compare).2,
        compare x y ≠ 0) := by
  obtain ⟨s1, s2, heq, hs1, hs2, hcnt, hdis⟩ := diff_sorted_lists_spec h A B
  rw [heq]
  have hsub1 : s1.reverse.Subperm A := (List.reverse_perm s1).subperm.trans hs1.subperm
  have hsub2 : s2.reverse.Subperm B := (List.reverse_perm s2).subperm.trans hs2.subperm
  refine ⟨hsub1, hsub2, fun k => ?_, fun x hx y hy => ?_⟩
  · have h1 := keyCount_diff_add compare k hsub1
    have h2 := hcnt k
    have h3 := keyCount_perm compare k (List.reverse_perm s1)
    have h4 := keyCount_perm compare k (List.reverse_perm s2)
    simp only [] at h1 ⊢
    rw [keyCount_append]
    omega
  · exact hdis hA hB x (List.mem_reverse.mp hx) y (List.mem_reverse.mp hy)

/-- Witness for C1: integers compared by subtraction, with repeated keys on both sides. -/
theorem diff_sorted_lists_reconciles_witness :
    diff_sorted_lists [1, 2, 2, 4] [2, 3, 4, 4] (fun a b : Int => a - b) = ([4, 3], [2, 1]) ∧
    ((diff_sorted_lists [1, 2, 2, 4] [2, 3, 4, 4] (fun a b : Int => a - b)).2.Subperm
        [1, 2, 2, 4] ∧
     (diff_sorted_lists [1, 2, 2, 4] [2, 3, 4, 4] (fun a b : Int => a - b)).1.Subperm
        [2, 3, 4, 4] ∧
     (∀ k, keyCount (fun a b : Int => a - b) k
            (([1, 2, 2, 4] : List Int).diff
                (diff_sorted_lists [1, 2, 2, 4] [2, 3, 4, 4] (fun a b : Int => a - b)).2
              ++ (diff_sorted_lists [1, 2, 2, 4] [2, 3, 4, 4] (fun a b : Int => a - b)).1)
          = keyCount (fun a b : Int => a - b) k [2, 3, 4, 4]) ∧
     (∀ x ∈ (diff_sorted_lists [1, 2, 2, 4] [2, 3, 4, 4] (fun a b : Int => a - b)).1,
        ∀ y ∈ (diff_sorted_lists [1, 2, 2, 4] [2, 3, 4, 4] (fun a b : Int => a - b)).2,
        (fun a b : Int => a - b) x y ≠ 0)) :=
  ⟨by decide,
   diff_sorted_lists_reconciles (fun a b : Int => a - b)
    ⟨fun a b => by constructor <;> intro hab <;> simp only [] at hab ⊢ <;> omega,
     fun a b c hab hbc => by simp only [] at hab hbc ⊢; omega⟩
    [1, 2, 2, 4] [2, 3, 4, 4] (by unfold SortedBy; decide) (by unfold SortedBy; decide)⟩

theorem util_compute_object_path_loop_eq (basename s : CString) :
    util_compute_object_path_loop basename s = s ++ escape_segment basename := by
  induction basename generalizing s with
  | nil => simp [util_compute_object_path_loop, escape_segment]
  | cons b rest ih =>
    unfold util_compute_object_path_loop
    by_cases hc : is_path_char (gchar_to_gint b) = true
    · simp [hc, ih, escape_segment, escape_byte]
    · simp [hc, ih, escape_segment, escape_byte]

theorem strrchr_eq_none_iff (s : CString) (c : Nat) : strrchr s c = none ↔ c ∉ s := by
  induction s with
  | nil => simp [strrchr]
  | cons b rest ih =>
    unfold strrchr
    cases hr : strrchr rest c with
    | some r =>
      have : ¬ (strrchr rest c = none) := by simp [hr]
      have hmem : c ∈ rest := by
        by_contra hn
        exact this (ih.mpr hn)
      simp [hmem]
    | none =>
      have hmem : c ∉ rest := ih.mp hr
      by_cases hb : b = c
      · simp [hb]
      · have hcb : ¬ c = b := fun h => hb h.symm
        simp [hb, hmem, hcb]

theorem strrchr_basename_eq (path : CString) :
    (match strrchr path 47 with
      | some r => r.drop 1
      | none => path) = last_segment path := by
  induction path with
  | nil => simp [strrchr, last_segment]
  | cons b rest ih =>
    unfold strrchr last_segment
    cases hr : strrchr rest 47 with
    | some r =>
      have hmem : 47 ∈ rest := by
        by_contra hn
        have := (strrchr_eq_none_iff rest 47).mpr hn
        simp [hr] at this
      rw [hr] at ih
      simp only [hmem, if_true]
      exact ih
    | none =>
      have hmem : 47 ∉ rest := (strrchr_eq_none_iff rest 47).mp hr
      by_cases hb : b = 47
      · simp [hb, hmem]
      · simp [hb, hmem]

theorem util_compute_object_path_eq (base path : CString) :
    util_compute_object_path base path = base ++ escape_segment (last_segment path) := by
  unfold util_compute_object_path
  simp only []
  rw [strrchr_basename_eq, util_compute_object_path_loop_eq]

set_option maxRecDepth 100000 in
theorem escape_byte_eq_shape : ∀ b, b < 256 → escape_byte b = escape_byte_shape b := by
  decide

theorem escape_byte_prefix_free {b1 b2 : Nat} (h1 : b1 < 256) (h2 : b2 < 256)
    {r1 r2 : CString} (h : escape_byte b1 ++ r1 = escape_byte b2 ++ r2) :
    b1 = b2 ∧ r1 = r2 := by
  rw [escape_byte_eq_shape b1 h1, escape_byte_eq_shape b2 h2] at h
  unfold escape_byte_shape hex_digit at h
  split_ifs at h <;>
    simp only [List.cons_append, List.nil_append, List.cons.injEq] at h <;>
    first
      | (exfalso; omega)
      | exact ⟨by omega, by tauto⟩

theorem escape_byte_ne_nil {b : Nat} (h : b < 256) (r : CString) : escape_byte b ++ r ≠ [] := by
  rw [escape_byte_eq_shape b h]
  unfold escape_byte_shape
  split_ifs <;> simp

theorem escape_segment_injective : ∀ (s1 s2 : CString),
    (∀ b ∈ s1, b < 256) → (∀ b ∈ s2, b < 256) →
    escape_segment s1 = escape_segment s2 → s1 = s2 := by
  intro s1
  induction s1 with
  | nil =>
    intro s2 _ h2 h
    cases s2 with
    | nil => rfl
    | cons b r =>
      exfalso
      exact escape_byte_ne_nil (h2 b (List.mem_cons_self _ _)) _ h.symm
  | cons a r1 ih =>
    intro s2 h1 h2 h
    cases s2 with
    | nil =>
      exfalso
      exact escape_byte_ne_nil (h1 a (List.mem_cons_self _ _)) _ h
    | cons b r2 =>
      simp only [escape_segment] at h
      obtain ⟨hab, hr⟩ := escape_byte_prefix_free (h1 a (List.mem_cons_self _ _))
        (h2 b (List.mem_cons_self _ _)) h
      rw [hab, ih r2 (fun x hx => h1 x (List.mem_cons_of_mem _ hx))
        (fun x hx => h2 x (List.mem_cons_of_mem _ hx)) hr]

theorem last_segment_subset (s : CString) : ∀ b ∈ last_segment s, b ∈ s := by
  induction s with
  | nil => simp [last_segment]
  | cons a r ih =>
    intro b hb
    unfold last_segment at hb
    split_ifs at hb with h1 h2
    · exact List.mem_cons_of_mem _ (ih b hb)
    · exact List.mem_cons_of_mem _ hb
    · exact hb

theorem last_segment_isCString {s : CString} (h : IsCString s) :
    ∀ b ∈ last_segment s, b < 256 :=
  fun b hb => (h b (last_segment_subset s b hb)).2

/-- C9 fails as stated: two different names with the same last `/`-separated segment get
the same object path. -/
theorem util_compute_object_path_collision :
    cstr "iqn.a/lun0" ≠ cstr "iqn.b/lun0" ∧
    util_compute_object_path (cstr "/org/freedesktop/UDisks2/iSCSI/static/") (cstr "iqn.a/lun0")
      = util_compute_object_path (cstr "/org/freedesktop/UDisks2/iSCSI/static/")
          (cstr "iqn.b/lun0") := by
  decide

/-- C9 as amended: for every base and all names `n1`, `n2` (C strings),
`util_compute_object_path base n1` and `util_compute_object_path base n2` are equal exactly
when the last `/`-separated segments of `n1` and `n2` are equal; in particular names with
different last segments never collide. -/
theorem util_compute_object_path_eq_iff (base n1 n2 : CString)
    (h1 : IsCString n1) (h2 : IsCString n2) :
    util_compute_object_path base n1 = util_compute_object_path base n2
      ↔ last_segment n1 = last_segment n2 := by
  rw [util_compute_object_path_eq, util_compute_object_path_eq]
  constructor
  · intro h
    exact escape_segment_injective _ _ (last_segment_isCString h1) (last_segment_isCString h2)
      (List.append_cancel_left h)
  · intro h
    rw [h]

/-- Witness for the amended C9, on two names that differ in their last segment. -/
theorem util_compute_object_path_eq_iff_witness :
    IsCString (cstr "iqn.a/lun0") ∧ IsCString (cstr "iqn.a/lun1") ∧
    (util_compute_object_path (cstr "/b/") (cstr "iqn.a/lun0")
        = util_compute_object_path (cstr "/b/") (cstr "iqn.a/lun1")
      ↔ last_segment (cstr "iqn.a/lun0") = last_segment (cstr "iqn.a/lun1")) :=
  ⟨by unfold IsCString; decide, by unfold IsCString; decide,
   util_compute_object_path_eq_iff (cstr "/b/") (cstr "iqn.a/lun0") (cstr "iqn.a/lun1")
    (by unfold IsCString; decide) (by unfold IsCString; decide)⟩

/-- C10 at the failing input: the byte 0xe9 is not escaped as `_` and two hexadecimal
digits (`_e9`), it is sign-extended and escaped as `_ffffffe9`. -/
theorem util_compute_object_path_high_byte :
    util_compute_object_path (cstr "/org/freedesktop/UDisks2/iSCSI/static/") [233]
      = cstr "/org/freedesktop/UDisks2/iSCSI/static/_ffffffe9" ∧
    cstr "/org/freedesktop/UDisks2/iSCSI/static/" ++ spec_escape_segment (last_segment [233])
      = cstr "/org/freedesktop/UDisks2/iSCSI/static/_e9" := by
  decide

theorem escape_byte_eq_spec_of_ascii : ∀ b, b < 128 → escape_byte b = spec_escape_byte b := by
  intro b hb
  rw [escape_byte_eq_shape b (by omega)]
  unfold escape_byte_shape spec_escape_byte
  simp [hb]

/-- On names whose bytes are all below 0x80 the code does what the spec describes. -/
theorem util_compute_object_path_ascii (base name : CString) (h : ∀ b ∈ name, b < 128) :
    util_compute_object_path base name = base ++ spec_escape_segment (last_segment name) := by
  rw [util_compute_object_path_eq]
  congr 1
  have hs : ∀ b ∈ last_segment name, b < 128 := fun b hb => h b (last_segment_subset name b hb)
  generalize last_segment name = seg at hs
  induction seg with
  | nil => rfl
  | cons a r ih =>
    simp only [escape_segment, spec_escape_segment]
    rw [escape_byte_eq_spec_of_ascii a (hs a (List.mem_cons_self _ _)),
      ih (fun b hb => hs b (List.mem_cons_of_mem _ hb))]

theorem strcmp_eq_zero_iff (a b : CString) : strcmp a b = 0 ↔ a = b := by
  induction a generalizing b with
  | nil => cases b <;> simp [strcmp]
  | cons x s ih =>
    cases b with
    | nil => simp [strcmp]
    | cons y t =>
      unfold strcmp
      by_cases hxy : x = y
      · simp [hxy, ih]
      · simp only [hxy, if_false, List.cons.injEq, false_and, iff_false]
        omega

theorem fast_validate_char_pos (p : CString) (n : Nat) (h : fast_validate_char p = some n) :
    0 < n := by
  unfold fast_validate_char at h
  simp only [] at h
  repeat' split at h
  all_goals first
    | (simp only [Option.some.injEq] at h; omega)
    | simp at h

/-- The fuel that `g_utf8_validate` gives to its loop is enough: more fuel gives the same
answer. -/
theorem fast_validate_fuel : ∀ (fuel : Nat) (p : CString), p.length ≤ fuel →
    fast_validate fuel p = fast_validate p.length p := by
  intro fuel
  induction fuel using Nat.strong_induction_on with
  | _ fuel ih =>
    intro p hp
    cases p with
    | nil => cases fuel <;> rfl
    | cons b rest =>
      cases fuel with
      | zero => simp at hp
      | succ fuel =>
        simp only [List.length_cons, fast_validate]
        cases hc : fast_validate_char (b :: rest) with
        | none => rfl
        | some n =>
          simp only []
          have hn := fast_validate_char_pos _ _ hc
          have hlen : ((b :: rest).drop n).length ≤ rest.length := by
            rw [List.length_drop, List.length_cons]
            omega
          simp only [List.length_cons] at hp
          rw [ih fuel (by omega) _ (by omega), ih rest.length (by omega) _ hlen]

/-- Runs of `g_utf8_validate`: ASCII, `J`, u with diaeresis, `rgen` in UTF-8 and in Latin-1,
the euro sign, a character outside the basic plane, two overlong forms, a surrogate, a
code point above U+10FFFF, a character cut short and a lone continuation byte. -/
theorem g_utf8_validate_runs :
    g_utf8_validate (cstr "node.startup") = true ∧
    g_utf8_validate [74, 195, 188, 114, 103, 101, 110] = true ∧
    g_utf8_validate [74, 252, 114, 103, 101, 110] = false ∧
    g_utf8_validate [226, 130, 172] = true ∧
    g_utf8_validate [240, 159, 152, 128] = true ∧
    g_utf8_validate [192, 128] = false ∧
    g_utf8_validate [224, 128, 128] = false ∧
    g_utf8_validate [237, 160, 128] = false ∧
    g_utf8_validate [244, 144, 128, 128] = false ∧
    g_utf8_validate [195] = false ∧
    g_utf8_validate [128] = false := by
  decide

theorem g_variant_valist_new_nnp_of_valid (string : CString)
    (h : g_utf8_validate string = true) : g_variant_valist_new_nnp string = string := by
  unfold g_variant_valist_new_nnp
  rw [if_pos h]

theorem g_variant_valist_new_nnp_nil : g_variant_valist_new_nnp [] = [] := rfl

theorem stored_entry_of_valid (e : CString × CString)
    (h : g_utf8_validate e.1 = true ∧ g_utf8_validate e.2 = true) : stored_entry e = e := by
  unfold stored_entry
  rw [g_variant_valist_new_nnp_of_valid _ h.1, g_variant_valist_new_nnp_of_valid _ h.2]

theorem stored_entry_fst (e : CString × CString) :
    (stored_entry (mask_entry e)).1 = (stored_entry e).1 := by
  unfold mask_entry stored_entry
  split_ifs <;> rfl

theorem load_settings_line_eq (p : CString) (b : Settings × Settings) :
    load_settings_line p b
      = (b.1 ++ ((setting_of_line p).map (fun e => stored_entry (mask_entry e))).toList,
         b.2 ++ ((setting_of_line p).map stored_entry).toList) := by
  unfold load_settings_line setting_of_line
  by_cases h35 : p.head? = some 35
  · simp [h35]
  · simp only [h35, if_false]
    cases hs : strstr p (cstr " = ") with
    | none => simp
    | some i =>
      simp only [strcmp_eq_zero_iff, mask_entry, is_password_key, Option.map_some',
        Option.toList_some, g_variant_builder_add, stored_entry]
      by_cases hp : (strstr (List.take i p) (cstr "password")).isSome = true
      · simp [hp]
      · simp [hp]

theorem load_settings_foldl_eq (lines : List CString) (b : Settings × Settings) :
    lines.foldl (fun builders p => load_settings_line p builders) b
      = (b.1 ++ (lines.filterMap setting_of_line).map (fun e => stored_entry (mask_entry e)),
         b.2 ++ (lines.filterMap setting_of_line).map stored_entry) := by
  induction lines generalizing b with
  | nil => simp
  | cons p rest ih =>
    rw [List.foldl_cons, ih, load_settings_line_eq]
    cases hs : setting_of_line p with
    | none => simp [List.filterMap_cons, hs]
    | some e => simp [List.filterMap_cons, hs]

/-- The two arrays that the loop of `load_settings` builds from an output text: the parsed
entries of its lines, each string as `g_variant_builder_add` stores it; in the public
array the value of a key that contains `password` is blanked before it is stored. -/
theorem load_settings_parse_eq (ia_out : CString) :
    load_settings_parse ia_out
      = (((split_lines ia_out).filterMap setting_of_line).map
            (fun e => stored_entry (mask_entry e)),
         ((split_lines ia_out).filterMap setting_of_line).map stored_entry) := by
  unfold load_settings_parse
  rw [load_settings_foldl_eq]
  simp

/-- For every settings output text the public and the secret settings have the same keys
in the same order. -/
theorem load_settings_parse_same_keys (ia_out : CString) :
    (load_settings_parse ia_out).1.map Prod.fst
      = (load_settings_parse ia_out).2.map Prod.fst := by
  rw [load_settings_parse_eq]
  simp only [List.map_map]
  apply List.map_congr_left
  intro e _
  exact stored_entry_fst e

/-- C8 at the failing inputs, a defect of the code: nothing ensures that the key and the
value are valid UTF-8 (the TODO of line 1049) before `g_variant_builder_add` gets them, and
GLib stores the text `[Invalid UTF-8]` for a string that is not.  For the output line
`node.session.auth.password = s`, byte 0xe9, `cret` (a password written in Latin-1) the
secret value is `[Invalid UTF-8]`, not the parsed value.  For a key that has the byte 0xe9
after `password` both arrays hold the key `[Invalid UTF-8]`, which does not contain
`password`, with the public value empty and the secret value `secret123`: the two values
of a key without `password` differ. -/
theorem load_settings_parse_password_not_utf8 :
    load_settings_parse
        (cstr "node.session.auth.password = s" ++ [233] ++ cstr "cret\n")
      = ([(cstr "node.session.auth.password", [])],
         [(cstr "node.session.auth.password", cstr "[Invalid UTF-8]")]) ∧
    (split_lines (cstr "node.session.auth.password = s" ++ [233] ++ cstr "cret\n")).filterMap
        setting_of_line
      = [(cstr "node.session.auth.password", cstr "s" ++ [233] ++ cstr "cret")] ∧
    load_settings_parse
        (cstr "node.session.auth.password" ++ [233] ++ cstr " = secret123\n")
      = ([(cstr "[Invalid UTF-8]", [])], [(cstr "[Invalid UTF-8]", cstr "secret123")]) ∧
    strstr (cstr "[Invalid UTF-8]") (cstr "password") = none := by
  refine ⟨?_, ?_, ?_, ?_⟩ <;> decide

/-- On an output text whose keys and values are valid UTF-8 the code does what C8 says:
the public and the secret settings have the same keys in the same order, the secret
settings are the parsed entries of the text, and entry by entry the public value is the
empty string when the key contains `password` and the secret (parsed) value otherwise. -/
theorem load_settings_parse_password_split (ia_out : CString)
    (hvalid : ∀ e ∈ (split_lines ia_out).filterMap setting_of_line,
      g_utf8_validate e.1 = true ∧ g_utf8_validate e.2 = true) :
    (load_settings_parse ia_out).1.map Prod.fst = (load_settings_parse ia_out).2.map Prod.fst ∧
    (load_settings_parse ia_out).2 = (split_lines ia_out).filterMap setting_of_line ∧
    List.Forall₂
      (fun pub sec : CString × CString =>
        pub.1 = sec.1 ∧
        (if (strstr sec.1 (cstr "password")).isSome then pub.2 = [] else pub.2 = sec.2))
      (load_settings_parse ia_out).1 (load_settings_parse ia_out).2 := by
  refine ⟨load_settings_parse_same_keys ia_out, ?_, ?_⟩
  · rw [load_settings_parse_eq]
    simp only []
    conv_rhs => rw [← List.map_id ((split_lines ia_out).filterMap setting_of_line)]
    apply List.map_congr_left
    intro e he
    exact stored_entry_of_valid e (hvalid e he)
  · rw [load_settings_parse_eq]
    simp only []
    generalize (split_lines ia_out).filterMap setting_of_line = entries at hvalid
    induction entries with
    | nil => exact List.Forall₂.nil
    | cons e rest ih =>
      refine List.Forall₂.cons ?_ (ih (fun x hx => hvalid x (List.mem_cons_of_mem _ hx)))
      have he := hvalid e (List.mem_cons_self _ _)
      rw [stored_entry_of_valid e he]
      unfold mask_entry is_password_key
      by_cases hp : (strstr e.1 (cstr "password")).isSome = true
      · simp only [hp, if_true]
        exact ⟨g_variant_valist_new_nnp_of_valid _ he.1, g_variant_valist_new_nnp_nil⟩
      · simp only [hp, Bool.false_eq_true, if_false]
        rw [stored_entry_of_valid e he]
        exact ⟨rfl, rfl⟩

/-- The split of C8 on the output that the spec gives as its example. -/
theorem load_settings_parse_password_split_witness :
    (load_settings_parse
        (cstr "node.startup = automatic\nchap.password = secret123\n")).2
      = (split_lines (cstr "node.startup = automatic\nchap.password = secret123\n")).filterMap
          setting_of_line ∧
    load_settings_parse (cstr "node.startup = automatic\nchap.password = secret123\n")
      = ([(cstr "node.startup", cstr "automatic"), (cstr "chap.password", [])],
         [(cstr "node.startup", cstr "automatic"), (cstr "chap.password", cstr "secret123")]) :=
  ⟨(load_settings_parse_password_split
      (cstr "node.startup = automatic\nchap.password = secret123\n") (by decide)).2.1,
   by decide⟩

/-! ### Hash tables -/

theorem g_hash_table_lookup_remove_self {V : Type} (t : GHashTable V) (key : CString) :
    g_hash_table_lookup (g_hash_table_remove t key) key = none := by
  induction t with
  | nil => rfl
  | cons e t ih =>
    obtain ⟨k, v⟩ := e
    by_cases hk : k = key
    · simp [g_hash_table_remove, hk, ih]
    · simp [g_hash_table_remove, hk, g_hash_table_lookup, ih]

theorem g_hash_table_lookup_remove_of_ne {V : Type} (t : GHashTable V) {key key' : CString}
    (h : key' ≠ key) :
    g_hash_table_lookup (g_hash_table_remove t key) key' = g_hash_table_lookup t key' := by
  have hkk : ¬ key = key' := fun h' => h h'.symm
  induction t with
  | nil => rfl
  | cons e t ih =>
    obtain ⟨k, v⟩ := e
    by_cases hk : k = key
    · subst hk
      simp [g_hash_table_remove, g_hash_table_lookup, ih, hkk]
    · by_cases hk' : k = key'
      · subst hk'
        simp [g_hash_table_remove, hk, g_hash_table_lookup]
      · simp [g_hash_table_remove, hk, g_hash_table_lookup, hk', ih]

theorem g_hash_table_lookup_insert_self {V : Type} (t : GHashTable V) (key : CString) (v : V) :
    g_hash_table_lookup (g_hash_table_insert t key v) key = some v := by
  simp [g_hash_table_insert, g_hash_table_lookup]

theorem g_hash_table_lookup_insert_of_ne {V : Type} (t : GHashTable V) {key key' : CString}
    (v : V) (h : key' ≠ key) :
    g_hash_table_lookup (g_hash_table_insert t key v) key' = g_hash_table_lookup t key' := by
  have hk : ¬ key = key' := fun h' => h h'.symm
  simp [g_hash_table_insert, g_hash_table_lookup, hk, g_hash_table_lookup_remove_of_ne t h]

theorem g_hash_table_lookup_set_connection_state (t : GHashTable Connection)
    (ref key : ConnectionRef) (state : Option CString) :
    g_hash_table_lookup (set_connection_state t ref state) key
      = (g_hash_table_lookup t key).map
          (fun c => if key = ref then { c with state := state } else c) := by
  induction t with
  | nil => rfl
  | cons e t ih =>
    obtain ⟨k, v⟩ := e
    by_cases hk : k = key
    · subst hk
      simp [set_connection_state, g_hash_table_lookup]
    · simp [set_connection_state, g_hash_table_lookup, hk, ih]

/-! ### Connection cache -/

theorem is_null_some_eq_false {s : CString} (h : s ≠ cstr "(null)") : is_null (some s) = false := by
  simp [is_null, strcmp_eq_zero_iff, h]

theorem new_connection_of_complete (sysfs : Sysfs) (provider : ConnectionCache)
    (device session_device : GUdevDevice) (names : List CString) (name t i a : CString)
    (g p : Int)
    (hdir : sysfs.is_dir (device.sysfs_path ++ cstr "/device/../iscsi_session") = true)
    (hnames : sysfs.dir_entries (device.sysfs_path ++ cstr "/device/../iscsi_session")
      = some names)
    (hname : names.find? (fun name => sscanf_prefix_d name (cstr "session")) = some name)
    (hsession : sysfs.query_by_sysfs_path
      (device.sysfs_path ++ cstr "/device/../iscsi_session" ++ 47 :: name) = some session_device)
    (ht : g_udev_device_get_sysfs_attr session_device (cstr "targetname") = some t)
    (hi : g_udev_device_get_sysfs_attr session_device (cstr "ifacename") = some i)
    (hg : g_udev_device_get_sysfs_attr_as_int session_device (cstr "tpgt") = g)
    (ha : g_udev_device_get_sysfs_attr device (cstr "persistent_address") = some a)
    (hp : g_udev_device_get_sysfs_attr_as_int device (cstr "persistent_port") = p)
    (hp0 : p ≠ 0) (htn : t ≠ cstr "(null)") (hin : i ≠ cstr "(null)")
    (han : a ≠ cstr "(null)") :
    new_connection sysfs provider device
      = ({ sysfs_to_connection :=
             g_hash_table_insert provider.sysfs_to_connection device.sysfs_path
               (built_connection session_device.sysfs_path t i a g p)
           id_to_connection :=
             g_hash_table_insert provider.id_to_connection (format_id g a p i t)
               device.sysfs_path
           id_without_tpgt_to_connection :=
             g_hash_table_insert provider.id_without_tpgt_to_connection
               (format_id_without_tpgt a p i t) device.sysfs_path },
         some device.sysfs_path) := by
  unfold new_connection
  simp only [hdir, hnames, hname, hsession, ht, hi, hg, ha, hp, is_null_some_eq_false htn,
    is_null_some_eq_false hin, is_null_some_eq_false han, hp0, built_connection]
  simp

theorem strcmp_add_remove : ¬ strcmp (cstr "add") (cstr "remove") = 0 := by decide

/-- C5 fails as stated: when the session device gives the target name `(null)`, the add
event builds no record, and the lookup with the attributes of the event returns the empty
string, not the session state `LOGGED_IN`. -/
theorem connections_get_state_after_add_null_name :
    g_hash_table_lookup ConnectionCache.empty.sysfs_to_connection
        (demo_connection_device (cstr "1")).sysfs_path = none ∧
    g_udev_device_get_sysfs_attr (demo_session_device (cstr "1") (cstr "(null)"))
        (cstr "targetname") = some (cstr "(null)") ∧
    connections_get_state
        (handle_iscsi_connection_uevent (demo_sysfs (cstr "(null)")) ConnectionCache.empty
          (cstr "add") (demo_connection_device (cstr "1")))
        (cstr "(null)") 1 (cstr "10.0.0.5") 3260 (cstr "default")
      = (some [], none) := by
  decide

/-- C5 as amended: for every cache state, after an add event for a sysfs path not yet
cached whose session and connection devices give target_name `t`, iface_name `i`, tpgt `g`,
address `a`, port `p` (not 0) and session state `s`, where none of `t`, `i`, `a` is the
literal text `(null)`, `connections_get_state (t, g, a, p, i)` returns `s`, and
`connections_get_state (t, -1, a, p, i)` returns `s` with the resolved tpgt equal to `g`. -/
theorem connections_get_state_after_add (sysfs : Sysfs) (provider : ConnectionCache)
    (device session_device state_device : GUdevDevice) (names : List CString)
    (name t i a s : CString) (g p : Int)
    (hnew : g_hash_table_lookup provider.sysfs_to_connection device.sysfs_path = none)
    (hdir : sysfs.is_dir (device.sysfs_path ++ cstr "/device/../iscsi_session") = true)
    (hnames : sysfs.dir_entries (device.sysfs_path ++ cstr "/device/../iscsi_session")
      = some names)
    (hname : names.find? (fun name => sscanf_prefix_d name (cstr "session")) = some name)
    (hsession : sysfs.query_by_sysfs_path
      (device.sysfs_path ++ cstr "/device/../iscsi_session" ++ 47 :: name) = some session_device)
    (ht : g_udev_device_get_sysfs_attr session_device (cstr "targetname") = some t)
    (hi : g_udev_device_get_sysfs_attr session_device (cstr "ifacename") = some i)
    (hg : g_udev_device_get_sysfs_attr_as_int session_device (cstr "tpgt") = g)
    (ha : g_udev_device_get_sysfs_attr device (cstr "persistent_address") = some a)
    (hp : g_udev_device_get_sysfs_attr_as_int device (cstr "persistent_port") = p)
    (hstate : sysfs.query_by_sysfs_path session_device.sysfs_path = some state_device)
    (hs : g_udev_device_get_sysfs_attr state_device (cstr "state") = some s)
    (hp0 : p ≠ 0) (htn : t ≠ cstr "(null)") (hin : i ≠ cstr "(null)")
    (han : a ≠ cstr "(null)") :
    connections_get_state
        (handle_iscsi_connection_uevent sysfs provider (cstr "add") device) t g a p i
      = (some s, some g) ∧
    connections_get_state
        (handle_iscsi_connection_uevent sysfs provider (cstr "add") device) t (-1) a p i
      = (some s, some g) := by
  have hst : handle_iscsi_connection_uevent sysfs provider (cstr "add") device
      = { sysfs_to_connection :=
            set_connection_state
              (g_hash_table_insert provider.sysfs_to_connection device.sysfs_path
                (built_connection session_device.sysfs_path t i a g p))
              device.sysfs_path (some s)
          id_to_connection :=
            g_hash_table_insert provider.id_to_connection (format_id g a p i t)
              device.sysfs_path
          id_without_tpgt_to_connection :=
            g_hash_table_insert provider.id_without_tpgt_to_connection
              (format_id_without_tpgt a p i t) device.sysfs_path } := by
    unfold handle_iscsi_connection_uevent
    simp only [strcmp_add_remove, if_false, hnew]
    rw [new_connection_of_complete sysfs provider device session_device names name
      t i a g p hdir hnames hname hsession ht hi hg ha hp hp0 htn hin han]
    simp only [update_connection, ConnectionCache.deref, g_hash_table_lookup_insert_self,
      built_connection, hstate, hs]
  rw [hst]
  have hderef : ∀ tbl : GHashTable ConnectionRef, ∀ key,
      (g_hash_table_lookup (g_hash_table_insert tbl key device.sysfs_path) key).bind
        (ConnectionCache.deref
          { sysfs_to_connection :=
              set_connection_state
                (g_hash_table_insert provider.sysfs_to_connection device.sysfs_path
                  (built_connection session_device.sysfs_path t i a g p))
                device.sysfs_path (some s)
            id_to_connection :=
              g_hash_table_insert provider.id_to_connection (format_id g a p i t)
                device.sysfs_path
            id_without_tpgt_to_connection :=
              g_hash_table_insert provider.id_without_tpgt_to_connection
                (format_id_without_tpgt a p i t) device.sysfs_path })
        = some { built_connection session_device.sysfs_path t i a g p with state := some s } := by
    intro tbl key
    simp [ConnectionCache.deref, g_hash_table_lookup_insert_self,
      g_hash_table_lookup_set_connection_state]
  constructor
  · unfold connections_get_state
    by_cases hg1 : g = -1
    · subst hg1
      simp only [ne_eq, not_true_eq_false, if_false, hderef]
      simp [built_connection]
    · simp only [ne_eq, hg1, not_false_eq_true, if_true, hderef]
      simp [built_connection]
  · unfold connections_get_state
    simp only [ne_eq, not_true_eq_false, if_false, hderef]
    simp [built_connection]

/-- Witness for the amended C5: the add event of `connection1:0` on an empty cache. -/
theorem connections_get_state_after_add_witness :
    connections_get_state
        (handle_iscsi_connection_uevent (demo_sysfs (cstr "t1")) ConnectionCache.empty
          (cstr "add") (demo_connection_device (cstr "1")))
        (cstr "t1") 1 (cstr "10.0.0.5") 3260 (cstr "default")
      = (some (cstr "LOGGED_IN"), some 1) ∧
    connections_get_state
        (handle_iscsi_connection_uevent (demo_sysfs (cstr "t1")) ConnectionCache.empty
          (cstr "add") (demo_connection_device (cstr "1")))
        (cstr "t1") (-1) (cstr "10.0.0.5") 3260 (cstr "default")
      = (some (cstr "LOGGED_IN"), some 1) :=
  connections_get_state_after_add (demo_sysfs (cstr "t1")) ConnectionCache.empty
    (demo_connection_device (cstr "1")) (demo_session_device (cstr "1") (cstr "t1"))
    (demo_session_device (cstr "1") (cstr "t1")) [cstr "session1"] (cstr "session1")
    (cstr "t1") (cstr "default") (cstr "10.0.0.5") (cstr "LOGGED_IN") 1 3260
    (by decide) (by decide) (by decide) (by decide) (by decide) (by decide) (by decide)
    (by decide) (by decide) (by decide) (by decide) (by decide) (by decide) (by decide)
    (by decide) (by decide)

theorem strcmp_remove_remove : strcmp (cstr "remove") (cstr "remove") = 0 := by decide

/-- The remove event on a cache in which the record `c`, whose two id strings are the ones
lines 1630-1640 compute from its fields, is cached under the sysfs path of the device. -/
theorem remove_event_of_ids_computed (sysfs : Sysfs) (provider : ConnectionCache)
    (device : GUdevDevice) (c : Connection)
    (hc : g_hash_table_lookup provider.sysfs_to_connection device.sysfs_path = some c)
    (hid : c.id = format_id c.tpgt c.address c.port c.iface_name c.target_name)
    (hid2 : c.id_without_tpgt
      = format_id_without_tpgt c.address c.port c.iface_name c.target_name) :
    g_hash_table_lookup
        (handle_iscsi_connection_uevent sysfs provider (cstr "remove") device).sysfs_to_connection
        device.sysfs_path = none ∧
    g_hash_table_lookup
        (handle_iscsi_connection_uevent sysfs provider (cstr "remove") device).id_to_connection
        c.id = none ∧
    g_hash_table_lookup
        (handle_iscsi_connection_uevent sysfs provider (cstr "remove")
          device).id_without_tpgt_to_connection
        c.id_without_tpgt = none ∧
    connections_get_state (handle_iscsi_connection_uevent sysfs provider (cstr "remove") device)
        c.target_name c.tpgt c.address c.port c.iface_name = (some [], none) ∧
    connections_get_state (handle_iscsi_connection_uevent sysfs provider (cstr "remove") device)
        c.target_name (-1) c.address c.port c.iface_name = (some [], none) := by
  have hst : handle_iscsi_connection_uevent sysfs provider (cstr "remove") device
      = { sysfs_to_connection :=
            g_hash_table_remove provider.sysfs_to_connection device.sysfs_path
          id_to_connection := g_hash_table_remove provider.id_to_connection c.id
          id_without_tpgt_to_connection :=
            g_hash_table_remove provider.id_without_tpgt_to_connection c.id_without_tpgt } := by
    unfold handle_iscsi_connection_uevent
    simp only [strcmp_remove_remove, if_true, hc]
  rw [hst]
  refine ⟨g_hash_table_lookup_remove_self _ _, g_hash_table_lookup_remove_self _ _,
    g_hash_table_lookup_remove_self _ _, ?_, ?_⟩
  · unfold connections_get_state
    by_cases hg : c.tpgt = -1
    · simp only [ne_eq, hg, not_true_eq_false, if_false]
      rw [← hid2, g_hash_table_lookup_remove_self]
      rfl
    · simp only [ne_eq, hg, not_false_eq_true, if_true]
      rw [← hid, g_hash_table_lookup_remove_self]
      rfl
  · unfold connections_get_state
    simp only [ne_eq, not_true_eq_false, if_false]
    rw [← hid2, g_hash_table_lookup_remove_self]
    rfl

/-- C4 at the failing input: `connection1:0` and `connection2:0` belong to two sessions of
the same target through the same portal and interface, so their records have the same id
strings.  After both are added and the first is removed, the record of `connection2:0` is
still stored under its sysfs path, yet neither id table has an entry for its id: the
tables disagree (and the later removal of `connection2:0` fails the `g_warn_if_fail` of
lines 1554-1555). -/
theorem connection_tables_disagree_on_shared_id :
    g_hash_table_lookup
        (run_connection_events ConnectionCache.empty
          [{ sysfs := demo_sysfs (cstr "t1"), uevent := cstr "add",
             device := demo_connection_device (cstr "1") },
           { sysfs := demo_sysfs (cstr "t1"), uevent := cstr "add",
             device := demo_connection_device (cstr "2") },
           { sysfs := demo_sysfs (cstr "t1"), uevent := cstr "remove",
             device := demo_connection_device (cstr "1") }]).sysfs_to_connection
        (demo_connection_device (cstr "2")).sysfs_path
      = some { built_connection (demo_session_device (cstr "2") (cstr "t1")).sysfs_path
                (cstr "t1") (cstr "default") (cstr "10.0.0.5") 1 3260 with
               state := some (cstr "LOGGED_IN") } ∧
    g_hash_table_lookup
        (run_connection_events ConnectionCache.empty
          [{ sysfs := demo_sysfs (cstr "t1"), uevent := cstr "add",
             device := demo_connection_device (cstr "1") },
           { sysfs := demo_sysfs (cstr "t1"), uevent := cstr "add",
             device := demo_connection_device (cstr "2") },
           { sysfs := demo_sysfs (cstr "t1"), uevent := cstr "remove",
             device := demo_connection_device (cstr "1") }]).id_to_connection
        (format_id 1 (cstr "10.0.0.5") 3260 (cstr "default") (cstr "t1")) = none ∧
    g_hash_table_lookup
        (run_connection_events ConnectionCache.empty
          [{ sysfs := demo_sysfs (cstr "t1"), uevent := cstr "add",
             device := demo_connection_device (cstr "1") },
           { sysfs := demo_sysfs (cstr "t1"), uevent := cstr "add",
             device := demo_connection_device (cstr "2") },
           { sysfs := demo_sysfs (cstr "t1"), uevent := cstr "remove",
             device := demo_connection_device (cstr "1") }]).id_without_tpgt_to_connection
        (format_id_without_tpgt (cstr "10.0.0.5") 3260 (cstr "default") (cstr "t1")) = none := by
  decide

theorem new_connection_cases (sysfs : Sysfs) (provider : ConnectionCache)
    (device : GUdevDevice) :
    new_connection sysfs provider device = (provider, none) ∨
    ∃ c : Connection, c.ids_computed ∧
      new_connection sysfs provider device
        = ({ sysfs_to_connection :=
               g_hash_table_insert provider.sysfs_to_connection device.sysfs_path c
             id_to_connection :=
               g_hash_table_insert provider.id_to_connection c.id device.sysfs_path
             id_without_tpgt_to_connection :=
               g_hash_table_insert provider.id_without_tpgt_to_connection c.id_without_tpgt
                 device.sysfs_path },
           some device.sysfs_path) := by
  unfold new_connection
  simp only []
  repeat' split
  all_goals first
    | exact Or.inl rfl
    | exact Or.inr ⟨_, ⟨rfl, rfl⟩, rfl⟩

theorem consistent_insert {st : ConnectionCache} (h : st.consistent) (path : CString)
    (c : Connection) (hc : c.ids_computed)
    (hnew : g_hash_table_lookup st.sysfs_to_connection path = none) :
    ConnectionCache.consistent
      { sysfs_to_connection := g_hash_table_insert st.sysfs_to_connection path c
        id_to_connection := g_hash_table_insert st.id_to_connection c.id path
        id_without_tpgt_to_connection :=
          g_hash_table_insert st.id_without_tpgt_to_connection c.id_without_tpgt path } := by
  obtain ⟨h1, h2, h3⟩ := h
  refine ⟨?_, ?_, ?_⟩
  · intro path' c' hl
    by_cases hp : path' = path
    · subst hp
      rw [g_hash_table_lookup_insert_self] at hl
      cases hl
      exact hc
    · rw [g_hash_table_lookup_insert_of_ne _ _ hp] at hl
      exact h1 path' c' hl
  · intro key ref hl
    simp only [] at hl ⊢
    by_cases hk : key = c.id
    · subst hk
      rw [g_hash_table_lookup_insert_self] at hl
      cases hl
      exact ⟨c, g_hash_table_lookup_insert_self _ _ _, rfl⟩
    · rw [g_hash_table_lookup_insert_of_ne _ _ hk] at hl
      obtain ⟨c', hc', hid⟩ := h2 key ref hl
      have hr : ref ≠ path := by
        intro hr
        rw [hr, hnew] at hc'
        cases hc'
      exact ⟨c', by rw [g_hash_table_lookup_insert_of_ne _ _ hr]; exact hc', hid⟩
  · intro key ref hl
    simp only [] at hl ⊢
    by_cases hk : key = c.id_without_tpgt
    · subst hk
      rw [g_hash_table_lookup_insert_self] at hl
      cases hl
      exact ⟨c, g_hash_table_lookup_insert_self _ _ _, rfl⟩
    · rw [g_hash_table_lookup_insert_of_ne _ _ hk] at hl
      obtain ⟨c', hc', hid⟩ := h3 key ref hl
      have hr : ref ≠ path := by
        intro hr
        rw [hr, hnew] at hc'
        cases hc'
      exact ⟨c', by rw [g_hash_table_lookup_insert_of_ne _ _ hr]; exact hc', hid⟩

theorem consistent_update_connection {st : ConnectionCache} (h : st.consistent) (sysfs : Sysfs)
    (ref : ConnectionRef) : (update_connection sysfs st ref).consistent := by
  unfold update_connection
  split
  · exact h
  · split
    · obtain ⟨h1, h2, h3⟩ := h
      refine ⟨?_, ?_, ?_⟩
      · intro path c hl
        simp only [g_hash_table_lookup_set_connection_state, Option.map_eq_some'] at hl
        obtain ⟨c0, hc0, hmap⟩ := hl
        have := h1 path c0 hc0
        subst hmap
        split_ifs
        · exact this
        · exact this
      · intro key r hl
        obtain ⟨c, hc, hid⟩ := h2 key r hl
        simp only [g_hash_table_lookup_set_connection_state, hc, Option.map_some']
        split_ifs
        · exact ⟨_, rfl, hid⟩
        · exact ⟨_, rfl, hid⟩
      · intro key r hl
        obtain ⟨c, hc, hid⟩ := h3 key r hl
        simp only [g_hash_table_lookup_set_connection_state, hc, Option.map_some']
        split_ifs
        · exact ⟨_, rfl, hid⟩
        · exact ⟨_, rfl, hid⟩
    · exact h

theorem consistent_handle_iscsi_connection_uevent {st : ConnectionCache} (h : st.consistent)
    (sysfs : Sysfs) (uevent : CString) (device : GUdevDevice) :
    (handle_iscsi_connection_uevent sysfs st uevent device).consistent := by
  unfold handle_iscsi_connection_uevent
  simp only []
  split_ifs with hrem
  · cases hc : g_hash_table_lookup st.sysfs_to_connection device.sysfs_path with
    | none => exact h
    | some c =>
      obtain ⟨h1, h2, h3⟩ := h
      refine ⟨?_, ?_, ?_⟩
      · intro path c' hl
        simp only [] at hl
        by_cases hp : path = device.sysfs_path
        · rw [hp, g_hash_table_lookup_remove_self] at hl
          cases hl
        · rw [g_hash_table_lookup_remove_of_ne _ hp] at hl
          exact h1 path c' hl
      · intro key ref hl
        simp only [] at hl ⊢
        by_cases hk : key = c.id
        · rw [hk, g_hash_table_lookup_remove_self] at hl
          cases hl
        · rw [g_hash_table_lookup_remove_of_ne _ hk] at hl
          obtain ⟨c', hc', hid⟩ := h2 key ref hl
          have hr : ref ≠ device.sysfs_path := by
            intro hr
            rw [hr, hc] at hc'
            cases hc'
            exact hk hid.symm
          exact ⟨c', by rw [g_hash_table_lookup_remove_of_ne _ hr]; exact hc', hid⟩
      · intro key ref hl
        simp only [] at hl ⊢
        by_cases hk : key = c.id_without_tpgt
        · rw [hk, g_hash_table_lookup_remove_self] at hl
          cases hl
        · rw [g_hash_table_lookup_remove_of_ne _ hk] at hl
          obtain ⟨c', hc', hid⟩ := h3 key ref hl
          have hr : ref ≠ device.sysfs_path := by
            intro hr
            rw [hr, hc] at hc'
            cases hc'
            exact hk hid.symm
          exact ⟨c', by rw [g_hash_table_lookup_remove_of_ne _ hr]; exact hc', hid⟩
  · cases hc : g_hash_table_lookup st.sysfs_to_connection device.sysfs_path with
    | some c =>
      simp only []
      exact consistent_update_connection h sysfs _
    | none =>
      simp only []
      rcases new_connection_cases sysfs st device with hn | ⟨c, hcw, hn⟩
      · rw [hn]
        exact h
      · rw [hn]
        simp only []
        exact consistent_update_connection (consistent_insert h _ c hcw hc) sysfs _

/-- Every cache state reached from the empty cache by `iscsi_connection` events is
consistent: in particular no id table holds a pointer to a freed record, and the id
strings of every cached record are computed from its fields. -/
theorem consistent_run_connection_events (events : List ConnectionEvent) :
    (run_connection_events ConnectionCache.empty events).consistent := by
  have hgen : ∀ (evs : List ConnectionEvent) (st : ConnectionCache), st.consistent →
      (run_connection_events st evs).consistent := by
    intro evs
    induction evs with
    | nil => intro st h; exact h
    | cons e rest ih =>
      intro st h
      exact ih _ (consistent_handle_iscsi_connection_uevent h e.sysfs e.uevent e.device)
  refine hgen events _ ⟨?_, ?_, ?_⟩
  · intro path c hl
    cases hl
  · intro key ref hl
    cases hl
  · intro key ref hl
    cases hl

/-- C6: for every cache state (reached from the empty cache by `iscsi_connection`
events) in which a connection `c` is cached under the sysfs path of the device, after a
remove event for that device none of the three tables has an entry for the path, `c.id` or
`c.id_without_tpgt`, and `connections_get_state` with the target, address, port and
interface of `c` returns the empty string, both with the tpgt of `c` and with tpgt -1. -/
theorem connections_get_state_after_remove (events : List ConnectionEvent) (sysfs : Sysfs)
    (device : GUdevDevice) (c : Connection)
    (hc : g_hash_table_lookup
        (run_connection_events ConnectionCache.empty events).sysfs_to_connection
        device.sysfs_path = some c) :
    g_hash_table_lookup
        (handle_iscsi_connection_uevent sysfs
          (run_connection_events ConnectionCache.empty events) (cstr "remove")
          device).sysfs_to_connection
        device.sysfs_path = none ∧
    g_hash_table_lookup
        (handle_iscsi_connection_uevent sysfs
          (run_connection_events ConnectionCache.empty events) (cstr "remove")
          device).id_to_connection
        c.id = none ∧
    g_hash_table_lookup
        (handle_iscsi_connection_uevent sysfs
          (run_connection_events ConnectionCache.empty events) (cstr "remove")
          device).id_without_tpgt_to_connection
        c.id_without_tpgt = none ∧
    connections_get_state
        (handle_iscsi_connection_uevent sysfs
          (run_connection_events ConnectionCache.empty events) (cstr "remove") device)
        c.target_name c.tpgt c.address c.port c.iface_name = (some [], none) ∧
    connections_get_state
        (handle_iscsi_connection_uevent sysfs
          (run_connection_events ConnectionCache.empty events) (cstr "remove") device)
        c.target_name (-1) c.address c.port c.iface_name = (some [], none) := by
  have hids := (consistent_run_connection_events events).1 device.sysfs_path c hc
  exact remove_event_of_ids_computed sysfs _ device c hc hids.1 hids.2

/-- Witness for C6: `connection1:0` is added to an empty cache and removed again. -/
theorem connections_get_state_after_remove_witness :
    g_hash_table_lookup
        (run_connection_events ConnectionCache.empty
          [{ sysfs := demo_sysfs (cstr "t1"), uevent := cstr "add",
             device := demo_connection_device (cstr "1") }]).sysfs_to_connection
        (demo_connection_device (cstr "1")).sysfs_path = some demo_connection_one ∧
    connections_get_state
        (handle_iscsi_connection_uevent (demo_sysfs (cstr "t1"))
          (run_connection_events ConnectionCache.empty
            [{ sysfs := demo_sysfs (cstr "t1"), uevent := cstr "add",
               device := demo_connection_device (cstr "1") }])
          (cstr "remove") (demo_connection_device (cstr "1")))
        (cstr "t1") 1 (cstr "10.0.0.5") 3260 (cstr "default") = (some [], none) ∧
    connections_get_state
        (handle_iscsi_connection_uevent (demo_sysfs (cstr "t1"))
          (run_connection_events ConnectionCache.empty
            [{ sysfs := demo_sysfs (cstr "t1"), uevent := cstr "add",
               device := demo_connection_device (cstr "1") }])
          (cstr "remove") (demo_connection_device (cstr "1")))
        (cstr "t1") (-1) (cstr "10.0.0.5") 3260 (cstr "default") = (some [], none) :=
  ⟨by decide,
   (connections_get_state_after_remove
      [{ sysfs := demo_sysfs (cstr "t1"), uevent := cstr "add",
         device := demo_connection_device (cstr "1") }]
      (demo_sysfs (cstr "t1")) (demo_connection_device (cstr "1")) demo_connection_one
      (by decide)).2.2.2⟩

/-! ### Decimal numbers: `sscanf` reads back what `printf` wrote -/

theorem dec_loop_fuel (f1 : Nat) : ∀ (f2 u : Nat) (acc : CString), u < f1 → u < f2 →
    dec_loop f1 u acc = dec_loop f2 u acc := by
  induction f1 with
  | zero => intro f2 u acc h1; omega
  | succ k ih =>
    intro f2 u acc h1 h2
    cases f2 with
    | zero => omega
    | succ m =>
      unfold dec_loop
      by_cases h0 : u / 10 = 0
      · simp [h0]
      · simp only [h0, if_false]
        exact ih m (u / 10) _ (by omega) (by omega)

theorem dec_loop_acc (f : Nat) : ∀ (u : Nat) (acc : CString), u < f →
    dec_loop f u acc = dec_loop f u [] ++ acc := by
  induction f with
  | zero => intro u acc h; omega
  | succ k ih =>
    intro u acc h
    unfold dec_loop
    by_cases h0 : u / 10 = 0
    · simp [h0]
    · simp only [h0, if_false]
      rw [ih (u / 10) ((48 + u % 10) :: acc) (by omega), ih (u / 10) [48 + u % 10] (by omega)]
      simp

theorem printf_u_small {u : Nat} (h : u < 10) : printf_u u = [48 + u] := by
  unfold printf_u dec_loop
  have h0 : u / 10 = 0 := by omega
  have h1 : u % 10 = u := by omega
  simp [h0, h1]

theorem printf_u_step {u : Nat} (h : 10 ≤ u) :
    printf_u u = printf_u (u / 10) ++ [48 + u % 10] := by
  have h0 : ¬ u / 10 = 0 := by omega
  have hu : printf_u u = dec_loop u (u / 10) [48 + u % 10] := by
    show dec_loop (u + 1) u [] = _
    rw [dec_loop]
    simp only [h0, if_false]
  rw [hu, dec_loop_acc u (u / 10) _ (by omega)]
  congr 1
  exact dec_loop_fuel u (u / 10 + 1) (u / 10) [] (by omega) (by omega)

theorem printf_u_digits (u : Nat) : ∀ b ∈ printf_u u, is_digit b = true := by
  induction u using Nat.strong_induction_on with
  | _ u ih =>
    by_cases h : u < 10
    · rw [printf_u_small h]
      intro b hb
      simp only [List.mem_singleton] at hb
      subst hb
      simp [is_digit]
      omega
    · rw [printf_u_step (by omega)]
      intro b hb
      rcases List.mem_append.mp hb with hb | hb
      · exact ih (u / 10) (by omega) b hb
      · simp only [List.mem_singleton] at hb
        subst hb
        simp [is_digit]
        omega

theorem printf_u_value (u : Nat) : digits_value (printf_u u) 0 = u := by
  induction u using Nat.strong_induction_on with
  | _ u ih =>
    by_cases h : u < 10
    · rw [printf_u_small h]
      simp [digits_value]
    · rw [printf_u_step (by omega)]
      have := ih (u / 10) (by omega)
      unfold digits_value at this ⊢
      rw [List.foldl_append, this]
      simp
      omega

theorem printf_u_ne_nil (u : Nat) : printf_u u ≠ [] := by
  by_cases h : u < 10
  · rw [printf_u_small h]
    simp
  · rw [printf_u_step (by omega)]
    simp

theorem scan_digits_loop_append (ds rest : CString) (acc : Nat)
    (hds : ∀ b ∈ ds, is_digit b = true) :
    scan_digits_loop (ds ++ rest) acc = scan_digits_loop rest (digits_value ds acc) := by
  induction ds generalizing acc with
  | nil => rfl
  | cons d ds ih =>
    have hd := hds d (List.mem_cons_self _ _)
    show scan_digits_loop (d :: (ds ++ rest)) acc = _
    rw [scan_digits_loop]
    simp only [hd, if_true]
    exact ih _ (fun b hb => hds b (List.mem_cons_of_mem _ hb))

theorem scan_digits_loop_stop (rest : CString) (acc : Nat)
    (hrest : ∀ b, rest.head? = some b → is_digit b = false) :
    scan_digits_loop rest acc = (acc, rest) := by
  cases rest with
  | nil => rfl
  | cons b r =>
    have := hrest b rfl
    simp [scan_digits_loop, this]

theorem scan_digits_loop_printf_u (u : Nat) (rest : CString)
    (hrest : ∀ b, rest.head? = some b → is_digit b = false) :
    scan_digits_loop (printf_u u ++ rest) 0 = (u, rest) := by
  rw [scan_digits_loop_append _ _ _ (printf_u_digits u), printf_u_value,
    scan_digits_loop_stop rest u hrest]

theorem wrap_gint_clamp_long_of_range {p : Int} (h1 : -2147483648 ≤ p) (h2 : p ≤ 2147483647) :
    wrap_gint (clamp_long p) = p := by
  unfold wrap_gint clamp_long
  split_ifs <;> omega

theorem scanf_d_printf_d (p : Int) (rest : CString)
    (h1 : -2147483648 ≤ p) (h2 : p ≤ 2147483647)
    (hrest : ∀ b, rest.head? = some b → is_digit b = false) :
    scanf_d (printf_d p ++ rest) = some (p, rest) := by
  obtain ⟨d, ds, hds⟩ : ∃ d ds, printf_u p.natAbs = d :: ds := by
    cases hq : printf_u p.natAbs with
    | nil => exact absurd hq (printf_u_ne_nil _)
    | cons d ds => exact ⟨d, ds, rfl⟩
  have hd : is_digit d = true := printf_u_digits p.natAbs d (by rw [hds]; exact List.mem_cons_self _ _)
  have hd' : 48 ≤ d ∧ d ≤ 57 := by simpa [is_digit] using hd
  have hscan := scan_digits_loop_printf_u p.natAbs rest hrest
  rw [hds, List.cons_append] at hscan
  unfold printf_d scanf_d
  by_cases hneg : p < 0
  · have hnat : (-p).toNat = p.natAbs := by omega
    simp only [hneg, if_true, hnat, hds, List.cons_append]
    simp only [List.dropWhile_cons, isspace]
    simp only [show (decide (45 = 32) || (decide (9 ≤ 45) && decide (45 ≤ 13))) = false by decide]
    simp only [Bool.false_eq_true, if_false, hd, if_true]
    rw [hscan]
    simp only [if_true]
    rw [wrap_gint_clamp_long_of_range (by omega) (by omega)]
    congr 2
    omega
  · have hnat : p.toNat = p.natAbs := by omega
    have hsp : isspace d = false := by
      simp only [isspace, Bool.or_eq_false_iff, decide_eq_false_iff_not, Bool.and_eq_false_iff]
      omega
    have h45 : d ≠ 45 := by omega
    have h43 : d ≠ 43 := by omega
    simp only [hneg, if_false, hnat, hds, List.cons_append, List.dropWhile_cons, hsp,
      Bool.false_eq_true]
    have hmatch : (match d :: (ds ++ rest) with
        | 45 :: r => (true, r)
        | 43 :: r => (false, r)
        | _ => (false, d :: (ds ++ rest))) = (false, d :: (ds ++ rest)) := by
      split
      · rename_i heq
        simp only [List.cons.injEq] at heq
        exact absurd heq.1 h45
      · rename_i heq
        simp only [List.cons.injEq] at heq
        exact absurd heq.1 h43
      · rfl
    rw [hmatch]
    simp only [hd, if_true]
    rw [hscan]
    simp only [Bool.false_eq_true, if_false]
    rw [wrap_gint_clamp_long_of_range (by omega) (by omega)]
    congr 2
    omega

theorem sscanf_d_comma_d_printf (p t : Int)
    (hp1 : -2147483648 ≤ p) (hp2 : p ≤ 2147483647)
    (ht1 : -2147483648 ≤ t) (ht2 : t ≤ 2147483647) :
    sscanf_d_comma_d (printf_d p ++ 44 :: printf_d t) = some (p, t) := by
  unfold sscanf_d_comma_d
  rw [scanf_d_printf_d p (44 :: printf_d t) hp1 hp2
    (by intro b hb; simp only [List.head?_cons, Option.some.injEq] at hb; subst hb; decide)]
  simp only []
  have := scanf_d_printf_d t [] ht1 ht2 (by intro b hb; simp at hb)
  rw [List.append_nil] at this
  rw [this]

theorem printf_d_bytes (p : Int) : ∀ b ∈ printf_d p, b = 45 ∨ is_digit b = true := by
  intro b hb
  unfold printf_d at hb
  split_ifs at hb
  · rcases List.mem_cons.mp hb with h | h
    · exact Or.inl h
    · exact Or.inr (printf_u_digits _ b h)
  · exact Or.inr (printf_u_digits _ b hb)

theorem colon_not_mem_port_tpgt (p t : Int) : 58 ∉ printf_d p ++ 44 :: printf_d t := by
  intro h
  rcases List.mem_append.mp h with h | h
  · rcases printf_d_bytes p 58 h with h | h
    · omega
    · simp [is_digit] at h
  · rcases List.mem_cons.mp h with h | h
    · omega
    · rcases printf_d_bytes t 58 h with h | h
      · omega
      · simp [is_digit] at h

theorem strrchr_append_of_not_mem (pre tail : CString) (c : Nat) (h : c ∉ tail) :
    strrchr (pre ++ c :: tail) c = some (c :: tail) := by
  induction pre with
  | nil =>
    simp [strrchr, (strrchr_eq_none_iff tail c).mpr h]
  | cons b pre ih =>
    simp [strrchr, ih]

theorem split_lines_append (line rest : CString) (h : 10 ∉ line) :
    split_lines (line ++ 10 :: rest) = line :: split_lines rest := by
  induction line with
  | nil => simp [split_lines]
  | cons b line ih =>
    have hb : ¬ b = 10 := fun hb => h (by simp [hb])
    have hl : 10 ∉ line := fun hl => h (List.mem_cons_of_mem _ hl)
    simp [split_lines, hb, ih hl]

theorem dropWhile_eq_self_of_head {f : Nat → Bool} (s : CString)
    (h : ∀ b, s.head? = some b → f b = false) : s.dropWhile f = s := by
  cases s with
  | nil => rfl
  | cons b r => simp [List.dropWhile_cons, h b rfl]

theorem g_strstrip_eq_self {s : CString} (h : no_space_at_ends s) : g_strstrip s = s := by
  unfold g_strstrip
  rw [dropWhile_eq_self_of_head s h.1,
    dropWhile_eq_self_of_head s.reverse (by rw [List.head?_reverse]; exact h.2)]
  exact List.reverse_reverse s

theorem parse_line_target (st : ParserState) (rest : CString) :
    parse_line st (cstr "Target: " ++ rest)
      = match st.source with
        | none => .ok st
        | some source =>
            .ok { st with
                  target := some st.allocated_targets.length
                  allocated_targets := st.allocated_targets ++
                    [{ target_name := g_strstrip rest
                       object_path := none, object := none, iface := none
                       source_object_path := source.object_path.getD []
                       portals := [] }] } := by
  unfold parse_line
  simp [strcmp_eq_zero_iff, cstr, g_str_has_prefix]

theorem parse_line_portal (st : ParserState) (rest : CString) :
    parse_line st (cstr "\tPortal: " ++ rest) = parse_portal_line st (cstr "\tPortal: " ++ rest) := by
  unfold parse_line
  simp [strcmp_eq_zero_iff, cstr, g_str_has_prefix]

theorem parse_line_iface (st : ParserState) (rest : CString) :
    parse_line st (cstr "\t\tIface Name: " ++ rest)
      = parse_iface_line st (cstr "\t\tIface Name: " ++ rest) := by
  unfold parse_line
  simp [strcmp_eq_zero_iff, cstr, g_str_has_prefix]

theorem parse_line_empty (st : ParserState) : parse_line st [] = .ok st := by
  unfold parse_line
  simp [strcmp_eq_zero_iff, cstr, g_str_has_prefix]

theorem parse_portal_address_eq_self {a : CString} (h : no_space_at_ends a)
    (hb : not_bracketed a) : parse_portal_address a = a := by
  unfold parse_portal_address
  rw [g_strstrip_eq_self h]
  simp only []
  rw [if_neg hb]

theorem parse_line_static_initial :
    parse_line ParserState.initial (cstr "STATIC:")
      = .ok { mode := .MODE_IN_STATIC, source := some static_source, target := none,
              portal := .null, allocated_targets := [], parsed_sources := [static_source] } := by
  decide

theorem parse_portal_line_of_current (st : ParserState) (target : Nat) (a : CString)
    (p t : Int) (htarget : st.target = some target)
    (ha : no_space_at_ends a) (hb : not_bracketed a)
    (hp1 : -2147483648 ≤ p) (hp2 : p ≤ 2147483647)
    (ht1 : -2147483648 ≤ t) (ht2 : t ≤ 2147483647) :
    parse_portal_line st (cstr "\tPortal: " ++ a ++ 58 :: (printf_d p ++ 44 :: printf_d t))
      = .ok { st with
              portal := .at target
                (match st.allocated_targets.get? target with
                  | some tg => tg.portals.length
                  | none => 0)
              allocated_targets :=
                list_modify st.allocated_targets target
                  (fun tg => { tg with
                    portals := tg.portals ++
                      [{ address := a, port := p, tpgt := t, ifaces := [] }] }) } := by
  unfold parse_portal_line
  rw [htarget]
  simp only []
  rw [strrchr_append_of_not_mem _ _ 58 (colon_not_mem_port_tpgt p t)]
  simp only [List.drop_one, List.tail_cons]
  rw [sscanf_d_comma_d_printf p t hp1 hp2 ht1 ht2]
  simp only []
  have hlen : (cstr "\tPortal: " ++ a ++ 58 :: (printf_d p ++ 44 :: printf_d t)).length
      - (58 :: (printf_d p ++ 44 :: printf_d t)).length = 9 + a.length := by
    simp [cstr]
    omega
  rw [hlen]
  have hlt : ¬ (9 + a.length < 9) := by omega
  simp only [hlt, if_false]
  have haddr : List.take (9 + a.length - 9)
      (List.drop 9 (cstr "\tPortal: " ++ a ++ 58 :: (printf_d p ++ 44 :: printf_d t))) = a := by
    have h9 : 9 + a.length - 9 = a.length := by omega
    rw [h9]
    simp [cstr]
  rw [haddr, parse_portal_address_eq_self ha hb]

theorem line_feed_not_mem_port_tpgt (p t : Int) : 10 ∉ 58 :: (printf_d p ++ 44 :: printf_d t) := by
  intro h
  rcases List.mem_cons.mp h with h | h
  · omega
  · rcases List.mem_append.mp h with h | h
    · rcases printf_d_bytes p 10 h with h | h
      · omega
      · simp [is_digit] at h
    · rcases List.mem_cons.mp h with h | h
      · omega
      · rcases printf_d_bytes t 10 h with h | h
        · omega
        · simp [is_digit] at h

theorem split_lines_static_block (n a x : CString) (p t : Int)
    (hn : 10 ∉ n) (ha : 10 ∉ a) (hx : 10 ∉ x) :
    split_lines (static_block n a x p t)
      = [cstr "STATIC:", cstr "Target: " ++ n,
         cstr "\tPortal: " ++ a ++ 58 :: (printf_d p ++ 44 :: printf_d t),
         cstr "\t\tIface Name: " ++ x, []] := by
  unfold static_block
  rw [split_lines_append _ _ (by decide)]
  rw [split_lines_append _ _ (by
    intro h
    rcases List.mem_append.mp h with h | h
    · revert h; decide
    · exact hn h)]
  rw [split_lines_append _ _ (by
    intro h
    rcases List.mem_append.mp h with h | h
    · rcases List.mem_append.mp h with h | h
      · revert h; decide
      · exact ha h
    · exact line_feed_not_mem_port_tpgt p t h)]
  rw [show cstr "\t\tIface Name: " ++ x ++ [10] = (cstr "\t\tIface Name: " ++ x) ++ 10 :: [] by simp]
  rw [split_lines_append _ _ (by
    intro h
    rcases List.mem_append.mp h with h | h
    · revert h; decide
    · exact hx h)]
  rfl

/-- C7 as amended: for every target name `n`, address `a` and interface name `x` (none with
a line feed, `n` and `a` without white space at the ends, `a` not bracketed) and all
32-bit signed integers `p` and `t`, parsing the four lines `STATIC:`, `Target: n`, tab
`Portal: a:p,t`, tab tab `Iface Name: x` completes and yields exactly one Source, with
mechanism static, and exactly one Target, named `n` and attached to that source, with
exactly one Portal (address `a`, port `p`, tpgt `t`) holding exactly one Interface, named
`x` and with no settings yet. -/
theorem parse_discovery_static_block (n a x : CString) (p t : Int)
    (hn : 10 ∉ n) (hns : no_space_at_ends n)
    (ha : 10 ∉ a) (has : no_space_at_ends a) (hab : not_bracketed a)
    (hx : 10 ∉ x)
    (hp1 : -2147483648 ≤ p) (hp2 : p ≤ 2147483647)
    (ht1 : -2147483648 ≤ t) (ht2 : t ≤ 2147483647) :
    (parse_discovery (static_block n a x p t)).map
        (fun st => (st.parsed_sources, st.parsed_targets))
      = .ok ([static_source],
             [{ target_name := n
                object_path := none, object := none, iface := none
                source_object_path := cstr "/org/freedesktop/UDisks2/iSCSI/static"
                portals :=
                  [{ address := a, port := p, tpgt := t
                     ifaces := [{ name := x, settings := none, secret_settings := none }] }] }]) := by
  unfold parse_discovery
  rw [split_lines_static_block n a x p t hn ha hx]
  simp only [parse_lines, parse_line_static_initial, parse_line_target, g_strstrip_eq_self hns]
  have hpl : ∀ st : ParserState,
      parse_line st (cstr "\tPortal: " ++ a ++ 58 :: (printf_d p ++ 44 :: printf_d t))
        = parse_portal_line st
            (cstr "\tPortal: " ++ a ++ 58 :: (printf_d p ++ 44 :: printf_d t)) := by
    intro st
    rw [List.append_assoc]
    exact parse_line_portal st _
  rw [hpl, parse_portal_line_of_current _ 0 a p t rfl has hab hp1 hp2 ht1 ht2]
  simp only [parse_line_iface, parse_iface_line, parse_line_empty]
  simp [list_modify, ParserState.parsed_targets, Except.map, static_source, cstr]

/-- Witness for the amended C7: the block of the spec. -/
theorem parse_discovery_static_block_witness :
    (parse_discovery
        (static_block (cstr "iqn.2000-01.com.example:target1") (cstr "10.0.0.5") (cstr "default")
          3260 1)).map
        (fun st => (st.parsed_sources, st.parsed_targets))
      = .ok ([static_source],
             [{ target_name := cstr "iqn.2000-01.com.example:target1"
                object_path := none, object := none, iface := none
                source_object_path := cstr "/org/freedesktop/UDisks2/iSCSI/static"
                portals :=
                  [{ address := cstr "10.0.0.5", port := 3260, tpgt := 1
                     ifaces := [{ name := cstr "default", settings := none,
                                  secret_settings := none }] }] }]) :=
  parse_discovery_static_block (cstr "iqn.2000-01.com.example:target1") (cstr "10.0.0.5")
    (cstr "default") 3260 1 (by decide) (by unfold no_space_at_ends; decide) (by decide)
    (by unfold no_space_at_ends; decide) (by unfold not_bracketed; decide) (by decide)
    (by decide) (by decide) (by decide) (by decide)

/-- C7 fails as stated for integers outside the range of a `gint`: the port 4294970556
written in the Portal line is stored as 3260. -/
theorem parse_discovery_static_block_port_overflow :
    (parse_discovery
        (static_block (cstr "iqn.2000-01.com.example:target1") (cstr "10.0.0.5") (cstr "default")
          4294970556 1)).map
        (fun st => st.parsed_targets.map (fun tg => tg.portals.map (fun po => po.port)))
      = .ok [[3260]] := by
  decide

/-! ### The comparators and `g_list_sort` -/

theorem strcmp_antisymm (a b : CString) : strcmp a b < 0 ↔ 0 < strcmp b a := by
  induction a generalizing b with
  | nil => cases b <;> simp [strcmp]
  | cons x s ih =>
    cases b with
    | nil => simp [strcmp]
    | cons y t =>
      unfold strcmp
      by_cases hxy : x = y
      · subst hxy
        simp [ih]
      · have hyx : ¬ y = x := fun h => hxy h.symm
        simp only [hxy, hyx, if_false]
        omega

theorem strcmp_trans (a b c : CString) :
    strcmp a b ≤ 0 → strcmp b c ≤ 0 → strcmp a c ≤ 0 := by
  induction a generalizing b c with
  | nil =>
    intro _ _
    cases c <;> simp [strcmp]
  | cons x s ih =>
    intro hab hbc
    cases b with
    | nil => simp [strcmp] at hab
    | cons y t =>
      cases c with
      | nil => simp [strcmp] at hbc
      | cons z u =>
        unfold strcmp at hab hbc ⊢
        by_cases hxy : x = y
        · subst hxy
          by_cases hxz : x = z
          · subst hxz
            simp only [if_true] at hab hbc ⊢
            exact ih t u hab hbc
          · simp only [hxz, if_false, if_true] at hab hbc ⊢
            exact hbc
        · by_cases hyz : y = z
          · subst hyz
            simp only [hxy, if_false, if_true] at hab hbc ⊢
            exact hab
          · simp only [hxy, hyz, if_false] at hab hbc
            by_cases hxz : x = z
            · omega
            · simp only [hxz, if_false]
              omega

theorem strcmp_isTotalPreorder : IsTotalPreorder strcmp :=
  ⟨strcmp_antisymm, strcmp_trans⟩

theorem iscsi_target_compare_isTotalPreorder : IsTotalPreorder iscsi_target_compare :=
  ⟨fun _ _ => strcmp_antisymm _ _, fun _ _ _ => strcmp_trans _ _ _⟩

theorem g_list_sort_merge_perm {α : Type} (compare : α → α → Int) :
    ∀ (fuel : Nat) (l1 l2 : List α), l1.length + l2.length ≤ fuel →
      (g_list_sort_merge compare fuel l1 l2).Perm (l1 ++ l2) := by
  intro fuel
  induction fuel with
  | zero =>
    intro l1 l2 h
    have h1 : l1 = [] := List.length_eq_zero.mp (by omega)
    have h2 : l2 = [] := List.length_eq_zero.mp (by omega)
    subst h1 h2
    simp [g_list_sort_merge]
  | succ fuel ih =>
    intro l1 l2 h
    cases l1 with
    | nil => simp [g_list_sort_merge]
    | cons a l1 =>
      cases l2 with
      | nil => simp [g_list_sort_merge]
      | cons b l2 =>
        simp only [g_list_sort_merge]
        simp only [List.length_cons] at h
        split_ifs
        · exact (ih l1 (b :: l2) (by simp only [List.length_cons]; omega)).cons a
        · refine ((ih (a :: l1) l2 (by simp only [List.length_cons]; omega)).cons b).trans ?_
          exact (List.perm_middle).symm

theorem g_list_sort_real_perm {α : Type} (compare : α → α → Int) :
    ∀ (fuel : Nat) (l : List α), (g_list_sort_real compare fuel l).Perm l := by
  intro fuel
  induction fuel with
  | zero =>
    intro l
    cases l with
    | nil => simp [g_list_sort_real]
    | cons a l => cases l <;> simp [g_list_sort_real]
  | succ fuel ih =>
    intro l
    cases l with
    | nil => simp [g_list_sort_real]
    | cons a l =>
      cases l with
      | nil => simp [g_list_sort_real]
      | cons b rest =>
        simp only [g_list_sort_real]
        refine (g_list_sort_merge_perm compare _ _ _ ?_).trans ?_
        · rw [(ih _).length_eq, (ih _).length_eq, ← List.length_append, List.take_append_drop]
        · refine ((ih _).append (ih _)).trans ?_
          rw [List.take_append_drop]

theorem g_list_sort_perm {α : Type} (compare : α → α → Int) (l : List α) :
    (g_list_sort compare l).Perm l :=
  g_list_sort_real_perm compare _ l

theorem compare_total {α : Type} {compare : α → α → Int} (h : IsTotalPreorder compare)
    (a b : α) : compare a b ≤ 0 ∨ compare b a ≤ 0 := by
  have h1 := h.1 b a
  omega

theorem g_list_sort_merge_sorted {α : Type} {compare : α → α → Int}
    (h : IsTotalPreorder compare) :
    ∀ (fuel : Nat) (l1 l2 : List α), l1.length + l2.length ≤ fuel →
      SortedBy compare l1 → SortedBy compare l2 →
      SortedBy compare (g_list_sort_merge compare fuel l1 l2) := by
  intro fuel
  induction fuel with
  | zero =>
    intro l1 l2 hf _ _
    have h1 : l1 = [] := List.length_eq_zero.mp (by omega)
    have h2 : l2 = [] := List.length_eq_zero.mp (by omega)
    subst h1 h2
    simp [g_list_sort_merge, SortedBy]
  | succ fuel ih =>
    intro l1 l2 hf hs1 hs2
    cases l1 with
    | nil => simpa [g_list_sort_merge] using hs2
    | cons a l1 =>
      cases l2 with
      | nil => simpa [g_list_sort_merge] using hs1
      | cons b l2 =>
        simp only [g_list_sort_merge]
        simp only [List.length_cons] at hf
        unfold SortedBy at hs1 hs2 ⊢
        split_ifs with hab
        · have hlen : l1.length + (b :: l2).length ≤ fuel := by
            simp only [List.length_cons]; omega
          refine List.pairwise_cons.mpr ⟨?_, ih l1 (b :: l2) hlen (List.pairwise_cons.mp hs1).2 hs2⟩
          intro x hx
          have hx := (g_list_sort_merge_perm compare fuel l1 (b :: l2) hlen).subset hx
          rcases List.mem_append.mp hx with hx1 | hx2
          · exact (List.pairwise_cons.mp hs1).1 x hx1
          · rcases List.mem_cons.mp hx2 with rfl | hx2
            · exact hab
            · exact h.2 _ _ _ hab ((List.pairwise_cons.mp hs2).1 x hx2)
        · have hlen : (a :: l1).length + l2.length ≤ fuel := by
            simp only [List.length_cons]; omega
          have hba : compare b a ≤ 0 := by
            have := compare_total h a b
            omega
          refine List.pairwise_cons.mpr ⟨?_, ih (a :: l1) l2 hlen hs1 (List.pairwise_cons.mp hs2).2⟩
          intro x hx
          have hx := (g_list_sort_merge_perm compare fuel (a :: l1) l2 hlen).subset hx
          rcases List.mem_append.mp hx with hx1 | hx2
          · rcases List.mem_cons.mp hx1 with rfl | hx1
            · exact hba
            · exact h.2 _ _ _ hba ((List.pairwise_cons.mp hs1).1 x hx1)
          · exact (List.pairwise_cons.mp hs2).1 x hx2

theorem g_list_sort_real_sorted {α : Type} {compare : α → α → Int}
    (h : IsTotalPreorder compare) :
    ∀ (fuel : Nat) (l : List α), l.length ≤ fuel →
      SortedBy compare (g_list_sort_real compare fuel l) := by
  intro fuel
  induction fuel with
  | zero =>
    intro l hl
    have h1 : l = [] := List.length_eq_zero.mp (by omega)
    subst h1
    simp [g_list_sort_real, SortedBy]
  | succ fuel ih =>
    intro l hl
    cases l with
    | nil => simp [g_list_sort_real, SortedBy]
    | cons a l =>
      cases l with
      | nil => simp [g_list_sort_real, SortedBy]
      | cons b rest =>
        simp only [g_list_sort_real]
        simp only [List.length_cons] at hl
        apply g_list_sort_merge_sorted h
        · rw [(g_list_sort_real_perm compare _ _).length_eq,
            (g_list_sort_real_perm compare _ _).length_eq, ← List.length_append,
            List.take_append_drop]
        · apply ih
          rw [List.length_take]
          simp only [List.length_cons]
          omega
        · apply ih
          rw [List.length_drop]
          simp only [List.length_cons]
          omega

theorem g_list_sort_sorted {α : Type} {compare : α → α → Int} (h : IsTotalPreorder compare)
    (l : List α) : SortedBy compare (g_list_sort compare l) :=
  g_list_sort_real_sorted h _ l (le_refl _)

/-- The fuel that `g_list_sort_real` gives to the merge is enough: any fuel that is at
least the number of elements gives the same list. -/
theorem g_list_sort_merge_fuel {α : Type} (compare : α → α → Int) :
    ∀ (fuel fuel' : Nat) (l1 l2 : List α), l1.length + l2.length ≤ fuel →
      l1.length + l2.length ≤ fuel' →
      g_list_sort_merge compare fuel l1 l2 = g_list_sort_merge compare fuel' l1 l2 := by
  intro fuel
  induction fuel with
  | zero =>
    intro fuel' l1 l2 h _
    have h1 : l1 = [] := List.length_eq_zero.mp (by omega)
    have h2 : l2 = [] := List.length_eq_zero.mp (by omega)
    subst h1 h2
    cases fuel' <;> rfl
  | succ fuel ih =>
    intro fuel' l1 l2 h h'
    cases l1 with
    | nil => cases fuel' <;> simp [g_list_sort_merge]
    | cons a l1 =>
      cases l2 with
      | nil => cases fuel' <;> simp [g_list_sort_merge]
      | cons b l2 =>
        simp only [List.length_cons] at h h'
        cases fuel' with
        | zero => omega
        | succ fuel' =>
          simp only [g_list_sort_merge]
          split_ifs
          · rw [ih fuel' l1 (b :: l2) (by simp only [List.length_cons]; omega)
              (by simp only [List.length_cons]; omega)]
          · rw [ih fuel' (a :: l1) l2 (by simp only [List.length_cons]; omega)
              (by simp only [List.length_cons]; omega)]

/-- The fuel that `g_list_sort` gives to `g_list_sort_real` is enough. -/
theorem g_list_sort_real_fuel {α : Type} (compare : α → α → Int) :
    ∀ (fuel fuel' : Nat) (l : List α), l.length ≤ fuel → l.length ≤ fuel' →
      g_list_sort_real compare fuel l = g_list_sort_real compare fuel' l := by
  intro fuel
  induction fuel with
  | zero =>
    intro fuel' l h _
    have h1 : l = [] := List.length_eq_zero.mp (by omega)
    subst h1
    cases fuel' <;> rfl
  | succ fuel ih =>
    intro fuel' l h h'
    cases l with
    | nil => cases fuel' <;> rfl
    | cons a l =>
      cases l with
      | nil => cases fuel' <;> rfl
      | cons b rest =>
        simp only [List.length_cons] at h h'
        cases fuel' with
        | zero => omega
        | succ fuel' =>
          simp only [g_list_sort_real]
          rw [ih fuel' _ (by rw [List.length_take]; simp only [List.length_cons]; omega)
                (by rw [List.length_take]; simp only [List.length_cons]; omega),
              ih fuel' _ (by rw [List.length_drop]; simp only [List.length_cons]; omega)
                (by rw [List.length_drop]; simp only [List.length_cons]; omega)]

theorem StrictlySortedBy.sortedBy {α : Type} {compare : α → α → Int} {l : List α}
    (h : StrictlySortedBy compare l) : SortedBy compare l :=
  List.Pairwise.imp (fun hab => le_of_lt hab) h

theorem strictlySorted_of_sorted_of_nodup_names {l : List iSCSITarget}
    (hs : SortedBy iscsi_target_compare l) (hn : (l.map (fun t => t.target_name)).Nodup) :
    StrictlySortedBy iscsi_target_compare l := by
  have hne : l.Pairwise (fun a b => a.target_name ≠ b.target_name) :=
    List.pairwise_map.mp hn
  refine List.Pairwise.imp₂ ?_ hs hne
  intro a b hle hab
  have : iscsi_target_compare a b ≠ 0 := fun h0 => hab ((strcmp_eq_zero_iff _ _).mp h0)
  omega

/-- What the loop of `diff_sorted_lists` decides for each element: an element of `list1`
with no compare-equal partner in `list2` goes to `removed`, an element of `list2` with no
partner in `list1` goes to `added`; when `list1` is strictly sorted `removed` holds nothing
else, and when `list2` is strictly sorted `added` holds nothing else. -/
theorem diff_sorted_lists_loop_partners {α : Type} {compare : α → α → Int}
    (h : IsTotalPreorder compare) :
    ∀ (fuel : Nat) (list1 list2 added removed : List α),
      list1.length + list2.length ≤ fuel →
      ∃ s1 s2 : List α,
        diff_sorted_lists_loop compare fuel list1 list2 added removed
          = (s2.reverse ++ added, s1.reverse ++ removed) ∧
        s1.Sublist list1 ∧ s2.Sublist list2 ∧
        (∀ x ∈ list1, (∀ b ∈ list2, compare x b ≠ 0) → x ∈ s1) ∧
        (∀ y ∈ list2, (∀ a ∈ list1, compare a y ≠ 0) → y ∈ s2) ∧
        (StrictlySortedBy compare list1 → SortedBy compare list2 →
          ∀ x ∈ s1, ∀ b ∈ list2, compare x b ≠ 0) ∧
        (SortedBy compare list1 → StrictlySortedBy compare list2 →
          ∀ y ∈ s2, ∀ a ∈ list1, compare a y ≠ 0) := by
  intro fuel
  induction fuel with
  | zero =>
    intro list1 list2 added removed hf
    have h1 : list1 = [] := by
      cases list1 with
      | nil => rfl
      | cons a l => simp at hf
    have h2 : list2 = [] := by
      cases list2 with
      | nil => rfl
      | cons a l => simp at hf
    subst h1 h2
    exact ⟨[], [], by simp [diff_sorted_lists_loop], List.Sublist.refl _, List.Sublist.refl _,
      fun x hx => by simp at hx, fun y hy => by simp at hy,
      fun _ _ x hx => by simp at hx, fun _ _ y hy => by simp at hy⟩
  | succ fuel ih =>
    intro list1 list2 added removed hf
    cases list1 with
    | nil =>
      exact ⟨[], list2, by simp [diff_sorted_lists_loop, foldl_prepend_eq],
        List.Sublist.refl _, List.Sublist.refl _,
        fun x hx => by simp at hx, fun y hy _ => hy,
        fun _ _ x hx => by simp at hx, fun _ _ y _ a ha => by simp at ha⟩
    | cons a l1 =>
      cases list2 with
      | nil =>
        exact ⟨a :: l1, [], by simp [diff_sorted_lists_loop, foldl_prepend_eq],
          List.Sublist.refl _, List.Sublist.refl _,
          fun x hx _ => hx, fun y hy => by simp at hy,
          fun _ _ x _ b hb => by simp at hb, fun _ _ y hy => by simp at hy⟩
      | cons b l2 =>
        simp only [List.length_cons] at hf
        by_cases hlt : compare a b < 0
        · obtain ⟨s1, s2, heq, hs1, hs2, hr', ha', hr, ha⟩ :=
            ih l1 (b :: l2) added (a :: removed) (by simp only [List.length_cons]; omega)
          refine ⟨a :: s1, s2, by simp [diff_sorted_lists_loop, hlt, heq], hs1.cons₂ a, hs2,
            ?_, ?_, ?_, ?_⟩
          · intro x hx hno
            rcases List.mem_cons.mp hx with rfl | hx
            · exact List.mem_cons_self _ _
            · exact List.mem_cons_of_mem _ (hr' x hx hno)
          · intro y hy hno
            exact ha' y hy (fun a' ha'' => hno a' (List.mem_cons_of_mem _ ha''))
          · intro hA hB x hx b' hb'
            rcases List.mem_cons.mp hx with rfl | hx
            · -- `x < b ≤ b'`
              have hbb : compare b b' ≤ 0 := by
                rcases List.mem_cons.mp hb' with rfl | hb'
                · have := compare_self_eq_zero h b'
                  omega
                · exact (List.pairwise_cons.mp hB).1 b' hb'
              intro h0
              have h1 := h.2 b b' x hbb (by have := compare_eq_zero_symm h h0; omega)
              have h2 := h.1 x b
              omega
            · exact hr (List.pairwise_cons.mp hA).2 hB x hx b' hb'
          · intro hA hB y hy a' ha''
            rcases List.mem_cons.mp ha'' with rfl | ha''
            · -- `a' < b ≤ y`
              have hby : compare b y ≤ 0 := by
                rcases List.mem_cons.mp (hs2.subset hy) with rfl | hyl
                · have := compare_self_eq_zero h y
                  omega
                · exact le_of_lt ((List.pairwise_cons.mp hB).1 y hyl)
              intro h0
              have h1 := h.2 b y a' hby (by have := compare_eq_zero_symm h h0; omega)
              have h2 := h.1 a' b
              omega
            · exact ha (List.pairwise_cons.mp hA).2 hB y hy a' ha''
        · by_cases hgt : compare a b > 0
          · obtain ⟨s1, s2, heq, hs1, hs2, hr', ha', hr, ha⟩ :=
              ih (a :: l1) l2 (b :: added) removed (by simp only [List.length_cons]; omega)
            refine ⟨s1, b :: s2, by simp [diff_sorted_lists_loop, hlt, hgt, heq], hs1,
              hs2.cons₂ b, ?_, ?_, ?_, ?_⟩
            · intro x hx hno
              exact hr' x hx (fun b' hb' => hno b' (List.mem_cons_of_mem _ hb'))
            · intro y hy hno
              rcases List.mem_cons.mp hy with rfl | hy
              · exact List.mem_cons_self _ _
              · exact List.mem_cons_of_mem _ (ha' y hy hno)
            · intro hA hB x hx b' hb'
              rcases List.mem_cons.mp hb' with rfl | hb'
              · -- `b' < a ≤ x`
                have hax : compare a x ≤ 0 := by
                  rcases List.mem_cons.mp (hs1.subset hx) with rfl | hxl
                  · have := compare_self_eq_zero h x
                    omega
                  · exact le_of_lt ((List.pairwise_cons.mp hA).1 x hxl)
                intro h0
                have h1 := h.2 a x b' hax (by omega)
                omega
              · exact hr hA (List.pairwise_cons.mp hB).2 x hx b' hb'
            · intro hA hB y hy a' ha''
              rcases List.mem_cons.mp hy with rfl | hy
              · -- `y < a ≤ a'`
                have haa : compare a a' ≤ 0 := by
                  rcases List.mem_cons.mp ha'' with rfl | ha''
                  · have := compare_self_eq_zero h a'
                    omega
                  · exact (List.pairwise_cons.mp hA).1 a' ha''
                intro h0
                have h1 := h.2 a a' y haa (by omega)
                omega
              · exact ha hA (List.pairwise_cons.mp hB).2 y hy a' ha''
          · have heq0 : compare a b = 0 := by omega
            obtain ⟨s1, s2, heq, hs1, hs2, hr', ha', hr, ha⟩ :=
              ih l1 l2 added removed (by omega)
            refine ⟨s1, s2, by simp [diff_sorted_lists_loop, hlt, hgt, heq], hs1.cons a,
              hs2.cons b, ?_, ?_, ?_, ?_⟩
            · intro x hx hno
              rcases List.mem_cons.mp hx with rfl | hx
              · exact absurd heq0 (hno b (List.mem_cons_self _ _))
              · exact hr' x hx (fun b' hb' => hno b' (List.mem_cons_of_mem _ hb'))
            · intro y hy hno
              rcases List.mem_cons.mp hy with rfl | hy
              · exact absurd heq0 (hno a (List.mem_cons_self _ _))
              · exact ha' y hy (fun a' ha'' => hno a' (List.mem_cons_of_mem _ ha''))
            · intro hA hB x hx b' hb'
              rcases List.mem_cons.mp hb' with rfl | hb'
              · -- `b' ~ a < x`
                have hax := (List.pairwise_cons.mp hA).1 x (hs1.subset hx)
                intro h0
                have h1 := compare_eq_zero_trans h h0 (compare_eq_zero_symm h heq0)
                have h2 := compare_eq_zero_symm h h1
                omega
              · exact hr (List.pairwise_cons.mp hA).2 (List.pairwise_cons.mp hB).2 x hx b' hb'
            · intro hA hB y hy a' ha''
              rcases List.mem_cons.mp ha'' with rfl | ha''
              · -- `a' ~ b < y`
                have hby := (List.pairwise_cons.mp hB).1 y (hs2.subset hy)
                intro h0
                have h1 := compare_eq_zero_trans h (compare_eq_zero_symm h heq0) h0
                omega
              · exact ha (List.pairwise_cons.mp hA).2 (List.pairwise_cons.mp hB).2 y hy a' ha''

/-! ### `add_remove_targets` -/

theorem foldl_add_target (added : List iSCSITarget) (provider : UDisksiSCSIProvider) :
    added.foldl add_target provider
      = { provider with
          targets := (prepare_added provider.next_object added).reverse ++ provider.targets
          next_object := provider.next_object + added.length } := by
  induction added generalizing provider with
  | nil => simp [prepare_added]
  | cons t ts ih =>
    rw [List.foldl_cons, ih]
    simp [add_target, prepare_added, prepared_target]
    omega

theorem foldl_remove_target (removed : List iSCSITarget) (provider : UDisksiSCSIProvider) :
    removed.foldl remove_target provider
      = { provider with
          object_manager_calls := provider.object_manager_calls ++
            removed.map (fun t => ObjectManagerCall.unexport t.object_path)
          targets := removed.foldl g_list_remove provider.targets } := by
  induction removed generalizing provider with
  | nil => simp
  | cons t ts ih =>
    rw [List.foldl_cons, ih]
    simp [remove_target]

theorem foldl_g_list_remove_eq_diff {α : Type} [DecidableEq α] (l removed : List α) :
    removed.foldl g_list_remove l = l.diff removed := by
  rw [List.diff_eq_foldl]
  rfl

theorem prepare_added_names (next_object : Nat) (added : List iSCSITarget) :
    (prepare_added next_object added).map (fun t => t.target_name)
      = added.map (fun t => t.target_name) := by
  induction added generalizing next_object with
  | nil => rfl
  | cons t ts ih => simp [prepare_added, prepared_target, ih]

theorem list_modify_map_without_object (l : List iSCSITarget) (index : Nat) (o : Option Nat) :
    (list_modify l index (fun t => { t with object := o })).map without_object
      = l.map without_object := by
  induction l generalizing index with
  | nil => rfl
  | cons a l ih =>
    cases index with
    | zero => simp [list_modify, without_object]
    | succ k => simp [list_modify, ih]

theorem list_modify_drop {α : Type} (l : List α) (index n : Nat) (f : α → α) (h : index < n) :
    (list_modify l index f).drop n = l.drop n := by
  induction l generalizing index n with
  | nil => rfl
  | cons a l ih =>
    cases n with
    | zero => omega
    | succ m =>
      cases index with
      | zero => simp [list_modify]
      | succ k =>
        simp only [list_modify, List.drop_succ_cons]
        exact ih k m (by omega)

theorem export_preserves_refl (n : Nat) (provider : UDisksiSCSIProvider) :
    export_preserves n provider provider :=
  ⟨rfl, rfl, [], by simp, fun c hc => by simp at hc⟩

theorem export_preserves_trans {n : Nat} {a b c : UDisksiSCSIProvider}
    (hab : export_preserves n a b) (hbc : export_preserves n b c) : export_preserves n a c := by
  obtain ⟨h1, h2, calls1, h3, h4⟩ := hab
  obtain ⟨k1, k2, calls2, k3, k4⟩ := hbc
  refine ⟨k1.trans h1, k2.trans h2, calls1 ++ calls2, ?_, ?_⟩
  · rw [k3, h3, List.append_assoc]
  · intro x hx
    rcases List.mem_append.mp hx with hx | hx
    · exact h4 x hx
    · exact k4 x hx

theorem export_target_preserves (n : Nat) (provider : UDisksiSCSIProvider) (index : Nat)
    (h : index < n) : export_preserves n provider (export_target provider index) := by
  unfold export_target
  split
  · exact export_preserves_refl n provider
  · refine ⟨list_modify_map_without_object _ _ _, list_modify_drop _ _ _ _ h, _, rfl, ?_⟩
    intro c hc
    simp only [List.mem_singleton] at hc
    subst hc
    trivial

theorem export_loop_preserves (n : Nat) (ks : List Nat) (provider : UDisksiSCSIProvider)
    (hn : 0 < n ∨ ks = []) :
    export_preserves n provider
      (ks.foldl (fun provider k => export_target provider (n - 1 - k)) provider) := by
  induction ks generalizing provider with
  | nil => exact export_preserves_refl n provider
  | cons k ks ih =>
    have hpos : 0 < n := by
      rcases hn with hn | hn
      · exact hn
      · cases hn
    rw [List.foldl_cons]
    exact export_preserves_trans (export_target_preserves n provider (n - 1 - k) (by omega))
      (ih _ (Or.inl hpos))

theorem add_remove_targets_shape (spawn : Spawner) (provider : UDisksiSCSIProvider)
    (parsed_targets : List iSCSITarget) :
    (add_remove_targets spawn provider parsed_targets).targets.map without_object
      = (reconciled_targets spawn provider parsed_targets).map without_object ∧
    (add_remove_targets spawn provider parsed_targets).targets.drop
        (diff_sorted_lists (g_list_sort iscsi_target_compare provider.targets) parsed_targets
          iscsi_target_compare).1.length
      = (reconciled_targets spawn provider parsed_targets).drop
        (diff_sorted_lists (g_list_sort iscsi_target_compare provider.targets) parsed_targets
          iscsi_target_compare).1.length ∧
    ∃ calls, (add_remove_targets spawn provider parsed_targets).object_manager_calls
        = provider.object_manager_calls
          ++ (diff_sorted_lists (g_list_sort iscsi_target_compare provider.targets)
                parsed_targets iscsi_target_compare).2.map
              (fun t => ObjectManagerCall.unexport t.object_path)
          ++ calls ∧
      ∀ c ∈ calls, c.is_export := by
  have hloop := export_loop_preserves
    (diff_sorted_lists (g_list_sort iscsi_target_compare provider.targets) parsed_targets
      iscsi_target_compare).1.length
    (List.range (diff_sorted_lists (g_list_sort iscsi_target_compare provider.targets)
      parsed_targets iscsi_target_compare).1.length)
    { cool_off_timeout_id := provider.cool_off_timeout_id
      connections := provider.connections
      targets := reconciled_targets spawn provider parsed_targets
      sources := provider.sources
      next_object := provider.next_object
        + (diff_sorted_lists (g_list_sort iscsi_target_compare provider.targets)
            parsed_targets iscsi_target_compare).1.length
      object_manager_calls := provider.object_manager_calls
        ++ (diff_sorted_lists (g_list_sort iscsi_target_compare provider.targets)
              parsed_targets iscsi_target_compare).2.map
            (fun t => ObjectManagerCall.unexport t.object_path) }
    (by
      cases hlen : (diff_sorted_lists (g_list_sort iscsi_target_compare provider.targets)
        parsed_targets iscsi_target_compare).1.length with
      | zero => right; rfl
      | succ m => left; omega)
  have heq : add_remove_targets spawn provider parsed_targets
      = (List.range (diff_sorted_lists (g_list_sort iscsi_target_compare provider.targets)
          parsed_targets iscsi_target_compare).1.length).foldl
        (fun pr k => export_target pr
          ((diff_sorted_lists (g_list_sort iscsi_target_compare provider.targets)
            parsed_targets iscsi_target_compare).1.length - 1 - k))
        { cool_off_timeout_id := provider.cool_off_timeout_id
          connections := provider.connections
          targets := reconciled_targets spawn provider parsed_targets
          sources := provider.sources
          next_object := provider.next_object
            + (diff_sorted_lists (g_list_sort iscsi_target_compare provider.targets)
                parsed_targets iscsi_target_compare).1.length
          object_manager_calls := provider.object_manager_calls
            ++ (diff_sorted_lists (g_list_sort iscsi_target_compare provider.targets)
                  parsed_targets iscsi_target_compare).2.map
                (fun t => ObjectManagerCall.unexport t.object_path) } := by
    unfold add_remove_targets reconciled_targets
    simp only [foldl_remove_target, foldl_add_target, foldl_g_list_remove_eq_diff]
  rw [heq]
  obtain ⟨h1, h2, calls, h3, h4⟩ := hloop
  exact ⟨h1, h2, calls, h3, h4⟩

theorem keyCount_eq_count_names (k : iSCSITarget) (l : List iSCSITarget) :
    keyCount iscsi_target_compare k l
      = (l.map (fun t => t.target_name)).countP (fun s => decide (s = k.target_name)) := by
  induction l with
  | nil => rfl
  | cons a l ih =>
    rw [keyCount_cons, List.map_cons, List.countP_cons, ih]
    congr 1
    simp only [iscsi_target_compare, strcmp_eq_zero_iff, decide_eq_true_eq]
    by_cases h : k.target_name = a.target_name
    · simp [h]
    · have h' : ¬ a.target_name = k.target_name := fun h' => h h'.symm
      simp [h, h']

theorem load_settings_target_name (spawn : Spawner) (t : iSCSITarget) :
    (load_settings spawn t).target_name = t.target_name := rfl

theorem update_target_connections_target_name (connections : ConnectionCache)
    (t : iSCSITarget) : (update_target_connections connections t).target_name = t.target_name :=
  rfl

theorem map_target_name_of_map_without_object {l1 l2 : List iSCSITarget}
    (h : l1.map without_object = l2.map without_object) :
    l1.map (fun t => t.target_name) = l2.map (fun t => t.target_name) := by
  have := congrArg (List.map (fun t : iSCSITarget => t.target_name)) h
  simpa [List.map_map, Function.comp, without_object] using this

theorem reconciled_targets_names (spawn : Spawner) (provider : UDisksiSCSIProvider)
    (parsed_targets : List iSCSITarget) :
    (reconciled_targets spawn provider parsed_targets).map (fun t => t.target_name)
      = ((diff_sorted_lists (g_list_sort iscsi_target_compare provider.targets) parsed_targets
            iscsi_target_compare).1.map (fun t => t.target_name)).reverse
        ++ ((g_list_sort iscsi_target_compare provider.targets).diff
            (diff_sorted_lists (g_list_sort iscsi_target_compare provider.targets) parsed_targets
              iscsi_target_compare).2).map (fun t => t.target_name) := by
  unfold reconciled_targets
  simp only [List.map_map, List.map_append, List.map_reverse]
  have hcomp : ((fun t : iSCSITarget => t.target_name)
      ∘ update_target_connections provider.connections ∘ load_settings spawn)
      = (fun t : iSCSITarget => t.target_name) := by
    funext t
    rfl
  rw [hcomp, prepare_added_names]

/-- C2: for every live target list and every parsed target list, after
`add_remove_targets` the target names of the live list are exactly the target names of
the parsed list, with the same multiplicities. -/
theorem add_remove_targets_names (spawn : Spawner) (provider : UDisksiSCSIProvider)
    (parsed_targets : List iSCSITarget) :
    ((add_remove_targets spawn provider parsed_targets).targets.map
        (fun t => t.target_name)).Perm
      (parsed_targets.map (fun t => t.target_name)) := by
  obtain ⟨hmap, _, _⟩ := add_remove_targets_shape spawn provider parsed_targets
  rw [map_target_name_of_map_without_object hmap, reconciled_targets_names]
  obtain ⟨s1, s2, heq, hs1, hs2, hcnt, _⟩ :=
    diff_sorted_lists_spec iscsi_target_compare_isTotalPreorder
      (g_list_sort iscsi_target_compare provider.targets) parsed_targets
  rw [heq]
  simp only []
  rw [List.perm_iff_count]
  intro name
  have hsub : s1.reverse.Subperm (g_list_sort iscsi_target_compare provider.targets) :=
    (List.reverse_perm s1).subperm.trans hs1.subperm
  have hk := hcnt { target_name := name, object_path := none, object := none, iface := none,
                    source_object_path := [], portals := [] }
  have hd := keyCount_diff_add iscsi_target_compare
    { target_name := name, object_path := none, object := none, iface := none,
      source_object_path := [], portals := [] } hsub
  have hr1 := keyCount_perm iscsi_target_compare
    { target_name := name, object_path := none, object := none, iface := none,
      source_object_path := [], portals := [] } (List.reverse_perm s1)
  simp only [keyCount_eq_count_names] at hk hd hr1
  show List.countP (fun s => decide (s = name)) _ = List.countP (fun s => decide (s = name)) _
  rw [List.countP_append, List.countP_reverse, List.map_reverse, List.countP_reverse] at *
  omega

theorem diff_sorted_lists_partners {α : Type} {compare : α → α → Int}
    (h : IsTotalPreorder compare) (list1 list2 : List α) :
    (∀ x ∈ (diff_sorted_lists list1 list2 compare).2, x ∈ list1) ∧
    (∀ y ∈ (diff_sorted_lists list1 list2 compare).1, y ∈ list2) ∧
    (∀ x ∈ list1, (∀ b ∈ list2, compare x b ≠ 0) → x ∈ (diff_sorted_lists list1 list2 compare).2) ∧
    (∀ y ∈ list2, (∀ a ∈ list1, compare a y ≠ 0) → y ∈ (diff_sorted_lists list1 list2 compare).1) ∧
    (StrictlySortedBy compare list1 → SortedBy compare list2 →
      ∀ x ∈ (diff_sorted_lists list1 list2 compare).2, ∀ b ∈ list2, compare x b ≠ 0) ∧
    (SortedBy compare list1 → StrictlySortedBy compare list2 →
      ∀ y ∈ (diff_sorted_lists list1 list2 compare).1, ∀ a ∈ list1, compare a y ≠ 0) := by
  obtain ⟨s1, s2, heq, hs1, hs2, hr', ha', hr, ha⟩ :=
    diff_sorted_lists_loop_partners h (list1.length + list2.length) list1 list2 [] []
      (le_refl _)
  have heq' : diff_sorted_lists list1 list2 compare = (s2.reverse, s1.reverse) := by
    simpa [diff_sorted_lists] using heq
  rw [heq']
  refine ⟨fun x hx => hs1.subset (List.mem_reverse.mp hx),
    fun y hy => hs2.subset (List.mem_reverse.mp hy),
    fun x hx hno => List.mem_reverse.mpr (hr' x hx hno),
    fun y hy hno => List.mem_reverse.mpr (ha' y hy hno),
    fun hA hB x hx => hr hA hB x (List.mem_reverse.mp hx),
    fun hA hB y hy => ha hA hB y (List.mem_reverse.mp hy)⟩

theorem mem_prepare_added {u : iSCSITarget} {next_object : Nat} {added : List iSCSITarget}
    (h : u ∈ prepare_added next_object added) :
    ∃ a ∈ added, ∃ k, next_object ≤ k ∧ u = prepared_target k a := by
  induction added generalizing next_object with
  | nil => simp [prepare_added] at h
  | cons t ts ih =>
    simp only [prepare_added, List.mem_cons] at h
    rcases h with h | h
    · exact ⟨t, List.mem_cons_self _ _, next_object, le_refl _, h⟩
    · obtain ⟨a, ha, k, hk, hu⟩ := ih h
      exact ⟨a, List.mem_cons_of_mem _ ha, k, by omega, hu⟩

theorem prepare_added_length (next_object : Nat) (added : List iSCSITarget) :
    (prepare_added next_object added).length = added.length := by
  induction added generalizing next_object with
  | nil => rfl
  | cons t ts ih => simp [prepare_added, ih]

theorem reconciled_targets_drop (spawn : Spawner) (provider : UDisksiSCSIProvider)
    (parsed_targets : List iSCSITarget) :
    (reconciled_targets spawn provider parsed_targets).drop
        (diff_sorted_lists (g_list_sort iscsi_target_compare provider.targets) parsed_targets
          iscsi_target_compare).1.length
      = (((g_list_sort iscsi_target_compare provider.targets).diff
            (diff_sorted_lists (g_list_sort iscsi_target_compare provider.targets)
              parsed_targets iscsi_target_compare).2).map (load_settings spawn)).map
          (update_target_connections provider.connections) := by
  unfold reconciled_targets
  rw [← List.map_drop, ← List.map_drop]
  congr 2
  have hlen : ((prepare_added provider.next_object
      (diff_sorted_lists (g_list_sort iscsi_target_compare provider.targets) parsed_targets
        iscsi_target_compare).1).reverse).length
      = (diff_sorted_lists (g_list_sort iscsi_target_compare provider.targets) parsed_targets
          iscsi_target_compare).1.length := by
    rw [List.length_reverse, prepare_added_length]
  rw [← hlen, List.drop_left]

theorem target_name_mem_iff {name : CString} {l : List iSCSITarget} :
    name ∈ l.map (fun t => t.target_name) ↔ ∃ b ∈ l, b.target_name = name := by
  simp [List.mem_map]

theorem update_load_iface_id (connections : ConnectionCache) (spawn : Spawner)
    (t : iSCSITarget) :
    (update_target_connections connections (load_settings spawn t)).iface.map (fun h => h.id)
      = t.iface.map (fun h => h.id) := by
  simp only [update_target_connections, portals_and_ifaces_to_gvariant, load_settings]
  cases t.iface <;> rfl

theorem ObjectManagerCall.mem_apply {manager : GDBusObjectManagerServer} {path : CString}
    {object : Nat} (c : ObjectManagerCall) (h : (path, object) ∈ manager)
    (hc : c ≠ .unexport (some path)) : (path, object) ∈ ObjectManagerCall.apply manager c := by
  cases c with
  | unexport q =>
    cases q with
    | none => exact h
    | some q =>
      simp only [ObjectManagerCall.apply, g_dbus_object_manager_server_unexport]
      split_ifs
      · simp only [List.mem_filter, decide_eq_true_eq]
        refine ⟨h, ?_⟩
        intro hq
        exact hc (by rw [← hq])
      · exact h
  | export_uniquely k q =>
    cases q with
    | none => exact h
    | some q =>
      simp only [ObjectManagerCall.apply, g_dbus_object_manager_server_export_uniquely]
      split_ifs
      · exact List.mem_append_left _ h
      · exact h
      · exact h

theorem mem_foldl_apply {path : CString} {object : Nat} (calls : List ObjectManagerCall)
    (manager : GDBusObjectManagerServer) (h : (path, object) ∈ manager)
    (hc : ∀ c ∈ calls, c ≠ .unexport (some path)) :
    (path, object) ∈ calls.foldl ObjectManagerCall.apply manager := by
  induction calls generalizing manager with
  | nil => exact h
  | cons c calls ih =>
    rw [List.foldl_cons]
    exact ih _ (ObjectManagerCall.mem_apply c h (hc c (List.mem_cons_self _ _)))
      (fun c' hc' => hc c' (List.mem_cons_of_mem _ hc'))

theorem object_manager_server_append (calls more : List ObjectManagerCall) :
    object_manager_server (calls ++ more)
      = more.foldl ObjectManagerCall.apply (object_manager_server calls) := by
  unfold object_manager_server
  rw [List.foldl_append]

/-- C3 at the failing input, a defect of the code.  A pass over a discovery that lists the
static targets `iqn.a/lun0` and `iqn.b/lun0` leaves both live with the same `object_path`,
`.../static/lun0` (the path is built from the last segment of the name), and
`export_uniquely` (line 1165) exports the object of `iqn.b/lun0` under that path and the
object of `iqn.a/lun0` under `.../static/lun0_1`, while the `object_path` of the record
stays as it was.  The live names are pairwise distinct and the parsed list of the next
pass, `iqn.b/lun0` alone, is sorted.  In that pass `iqn.a/lun0` is removed and line 1107
unexports its `object_path`: the object taken out of the object manager is the one of
`iqn.b/lun0`, the target that stays in the live list with its record, object and handle
unchanged, and the object of the removed target stays exported. -/
theorem add_remove_targets_unexports_survivor :
    load_and_process_iscsi demo_spawn_two_luns demo_empty_provider
      = .ok demo_two_luns_provider ∧
    (demo_two_luns_provider.targets.map (fun t => t.target_name)).Nodup ∧
    SortedBy iscsi_target_compare
      [demo_parsed_target (cstr "iqn.b/lun0") (cstr "/org/freedesktop/UDisks2/iSCSI/static")] ∧
    demo_two_luns_provider.targets.map
        (fun t => (t.target_name, t.object_path, t.object, t.iface.map (fun h => h.id)))
      = [(cstr "iqn.a/lun0", some (cstr "/org/freedesktop/UDisks2/iSCSI/static/lun0"),
          some 3, some 1),
         (cstr "iqn.b/lun0", some (cstr "/org/freedesktop/UDisks2/iSCSI/static/lun0"),
          some 2, some 0)] ∧
    object_manager_server demo_two_luns_provider.object_manager_calls
      = [(cstr "/org/freedesktop/UDisks2/iSCSI/static/lun0", 2),
         (cstr "/org/freedesktop/UDisks2/iSCSI/static/lun0_1", 3),
         (cstr "/org/freedesktop/UDisks2/iSCSI/static", 5)] ∧
    (add_remove_targets demo_spawn_fails demo_two_luns_provider
        [demo_parsed_target (cstr "iqn.b/lun0")
          (cstr "/org/freedesktop/UDisks2/iSCSI/static")]).targets.map
        (fun t => (t.target_name, t.object_path, t.object, t.iface.map (fun h => h.id)))
      = [(cstr "iqn.b/lun0", some (cstr "/org/freedesktop/UDisks2/iSCSI/static/lun0"),
          some 2, some 0)] ∧
    (add_remove_targets demo_spawn_fails demo_two_luns_provider
        [demo_parsed_target (cstr "iqn.b/lun0")
          (cstr "/org/freedesktop/UDisks2/iSCSI/static")]).object_manager_calls
      = demo_two_luns_provider.object_manager_calls
        ++ [.unexport (some (cstr "/org/freedesktop/UDisks2/iSCSI/static/lun0"))] ∧
    object_manager_server
        (add_remove_targets demo_spawn_fails demo_two_luns_provider
          [demo_parsed_target (cstr "iqn.b/lun0")
            (cstr "/org/freedesktop/UDisks2/iSCSI/static")]).object_manager_calls
      = [(cstr "/org/freedesktop/UDisks2/iSCSI/static/lun0_1", 3),
         (cstr "/org/freedesktop/UDisks2/iSCSI/static", 5)] := by
  unfold SortedBy
  refine ⟨?_, ?_, ?_, ?_, ?_, ?_, ?_, ?_⟩ <;> decide

/-- The last part of C3 on a parsed list that repeats a name: the live list holds one
target named `t1`, whose handle has the identity 0, and the parsed list (sorted by name)
holds two targets named `t1`, found through two sources.  The second of them is left
unmatched by the diff and gets a newly created handle (identity 2), although the name
`t1` is in the live list. -/
theorem add_remove_targets_new_handle_for_live_name :
    (demo_provider.targets.map (fun t => t.target_name)).Nodup ∧
    SortedBy iscsi_target_compare
      [demo_parsed_target (cstr "t1") (cstr "/org/freedesktop/UDisks2/iSCSI/static"),
       demo_parsed_target (cstr "t1") (cstr "/org/freedesktop/UDisks2/iSCSI/sendtargets/_31")] ∧
    cstr "t1" ∈ demo_provider.targets.map (fun t => t.target_name) ∧
    demo_provider.targets.map (fun t => t.iface.map (fun h => h.id)) = [some 0] ∧
    (add_remove_targets demo_spawn_fails demo_provider
        [demo_parsed_target (cstr "t1") (cstr "/org/freedesktop/UDisks2/iSCSI/static"),
         demo_parsed_target (cstr "t1")
           (cstr "/org/freedesktop/UDisks2/iSCSI/sendtargets/_31")]).targets.map
        (fun t => (t.target_name, t.iface.map (fun h => h.id)))
      = [(cstr "t1", some 2), (cstr "t1", some 0)] := by
  unfold SortedBy
  decide

/-- What holds of C3 in every state, for every live target list with pairwise distinct
names and every parsed list sorted by name.  Each live target whose name occurs in the
parsed list is still in the live list after `add_remove_targets` as the same record (with
its settings reloaded and its connections property updated), with its object path, object
and published handle unchanged.  Every unexport call made is for the `object_path` of a
live target whose name is not in the parsed list, and an object that is exported under a
path stays exported under it unless that path is the `object_path` of such a target; a
surviving target is therefore not unexported when no removed target has the path its
object is exported under as `object_path`.  When the names of the parsed list are pairwise
distinct too, only names that are in the parsed list and not in the live list get a newly
created handle (a handle that is not the handle of a target of the live list before the
call). -/
theorem add_remove_targets_keeps_survivors (spawn : Spawner) (provider : UDisksiSCSIProvider)
    (parsed_targets : List iSCSITarget)
    (hL : (provider.targets.map (fun t => t.target_name)).Nodup)
    (hP : SortedBy iscsi_target_compare parsed_targets) :
    (∀ t ∈ provider.targets, t.target_name ∈ parsed_targets.map (fun t => t.target_name) →
      update_target_connections provider.connections (load_settings spawn t)
          ∈ (add_remove_targets spawn provider parsed_targets).targets ∧
        (update_target_connections provider.connections (load_settings spawn t)).object_path
          = t.object_path ∧
        (update_target_connections provider.connections (load_settings spawn t)).object
          = t.object ∧
        (update_target_connections provider.connections (load_settings spawn t)).iface.map
            (fun h => h.id)
          = t.iface.map (fun h => h.id)) ∧
    (∀ path,
      ObjectManagerCall.unexport path
          ∈ (add_remove_targets spawn provider parsed_targets).object_manager_calls →
        ObjectManagerCall.unexport path ∈ provider.object_manager_calls ∨
        ∃ x ∈ provider.targets, x.object_path = path ∧
          x.target_name ∉ parsed_targets.map (fun t => t.target_name)) ∧
    (∀ path object,
      (path, object) ∈ object_manager_server provider.object_manager_calls →
      (∀ x ∈ provider.targets,
        x.target_name ∉ parsed_targets.map (fun t => t.target_name) →
          x.object_path ≠ some path) →
      (path, object) ∈ object_manager_server
        (add_remove_targets spawn provider parsed_targets).object_manager_calls) ∧
    ((parsed_targets.map (fun t => t.target_name)).Nodup →
      ∀ t' ∈ (add_remove_targets spawn provider parsed_targets).targets,
        ∀ h, t'.iface = some h →
          (∀ t ∈ provider.targets, ∀ h0, t.iface = some h0 → h0.id ≠ h.id) →
          t'.target_name ∈ parsed_targets.map (fun t => t.target_name) ∧
          t'.target_name ∉ provider.targets.map (fun t => t.target_name)) := by
  have hpre := iscsi_target_compare_isTotalPreorder
  have hperm := g_list_sort_perm iscsi_target_compare provider.targets
  have hsorted := g_list_sort_sorted hpre provider.targets
  have hstrict : StrictlySortedBy iscsi_target_compare
      (g_list_sort iscsi_target_compare provider.targets) :=
    strictlySorted_of_sorted_of_nodup_names hsorted
      (((hperm.map (fun t => t.target_name)).nodup_iff).mpr hL)
  obtain ⟨hrem_sub, hadd_sub, _, _, hrem, hadd⟩ :=
    diff_sorted_lists_partners hpre (g_list_sort iscsi_target_compare provider.targets)
      parsed_targets
  obtain ⟨hmap, hdrop, calls, hcalls, hexp⟩ :=
    add_remove_targets_shape spawn provider parsed_targets
  refine ⟨?_, ?_, ?_, ?_⟩
  · intro t ht hname
    refine ⟨?_, rfl, rfl, ?_⟩
    · obtain ⟨b, hb, hbn⟩ := target_name_mem_iff.mp hname
      have hnot : t ∉ (diff_sorted_lists (g_list_sort iscsi_target_compare provider.targets)
          parsed_targets iscsi_target_compare).2 := by
        intro hmem
        exact hrem hstrict hP t hmem b hb ((strcmp_eq_zero_iff _ _).mpr hbn.symm)
      have hin : t ∈ (g_list_sort iscsi_target_compare provider.targets).diff
          (diff_sorted_lists (g_list_sort iscsi_target_compare provider.targets)
            parsed_targets iscsi_target_compare).2 :=
        List.mem_diff_of_mem (hperm.mem_iff.mpr ht) hnot
      have hmem : update_target_connections provider.connections (load_settings spawn t)
          ∈ (reconciled_targets spawn provider parsed_targets).drop
            (diff_sorted_lists (g_list_sort iscsi_target_compare provider.targets)
              parsed_targets iscsi_target_compare).1.length := by
        rw [reconciled_targets_drop]
        exact List.mem_map_of_mem _ (List.mem_map_of_mem _ hin)
      rw [← hdrop] at hmem
      exact List.mem_of_mem_drop hmem
    · exact update_load_iface_id _ _ _
  · intro path hpath
    rw [hcalls] at hpath
    rcases List.mem_append.mp hpath with hpath | hpath
    · rcases List.mem_append.mp hpath with hpath | hpath
      · exact Or.inl hpath
      · obtain ⟨x, hx, hxp⟩ := List.mem_map.mp hpath
        refine Or.inr ⟨x, hperm.mem_iff.mp (hrem_sub x hx), ?_, ?_⟩
        · simpa using hxp
        · intro hname
          obtain ⟨b, hb, hbn⟩ := target_name_mem_iff.mp hname
          exact hrem hstrict hP x hx b hb ((strcmp_eq_zero_iff _ _).mpr hbn.symm)
    · exact absurd (hexp _ hpath) (by simp [ObjectManagerCall.is_export])
  · intro path object hreg hfree
    rw [hcalls, object_manager_server_append, object_manager_server_append]
    apply mem_foldl_apply
    · apply mem_foldl_apply _ _ hreg
      intro c hc
      obtain ⟨x, hx, hxc⟩ := List.mem_map.mp hc
      subst hxc
      intro heq
      have hxp : x.object_path = some path := by simpa using heq
      refine hfree x (hperm.mem_iff.mp (hrem_sub x hx)) ?_ hxp
      intro hname
      obtain ⟨b, hb, hbn⟩ := target_name_mem_iff.mp hname
      exact hrem hstrict hP x hx b hb ((strcmp_eq_zero_iff _ _).mpr hbn.symm)
    · intro c hc heq
      have := hexp c hc
      rw [heq] at this
      simp [ObjectManagerCall.is_export] at this
  · intro hPn t' ht' h hh hnew
    have hPstrict : StrictlySortedBy iscsi_target_compare parsed_targets :=
      strictlySorted_of_sorted_of_nodup_names hP hPn
    have hw : without_object t' ∈ (reconciled_targets spawn provider parsed_targets).map
        without_object := by
      rw [← hmap]
      exact List.mem_map_of_mem _ ht'
    obtain ⟨t'', ht'', hwo⟩ := List.mem_map.mp hw
    have hname : t''.target_name = t'.target_name := by
      have := congrArg iSCSITarget.target_name hwo
      simpa [without_object] using this
    have hiface : t''.iface = t'.iface := by
      have := congrArg iSCSITarget.iface hwo
      simpa [without_object] using this
    unfold reconciled_targets at ht''
    obtain ⟨v, hv, hvt⟩ := List.mem_map.mp ht''
    obtain ⟨u, hu, huv⟩ := List.mem_map.mp hv
    have hname_u : u.target_name = t'.target_name := by
      rw [← hname, ← hvt, ← huv]
      rfl
    have hiface_u : u.iface.map (fun h => h.id) = some h.id := by
      rw [← update_load_iface_id provider.connections spawn u, huv, hvt, hiface, hh]
      rfl
    rcases List.mem_append.mp hu with hu | hu
    · obtain ⟨a, ha, k, _, hua⟩ := mem_prepare_added (List.mem_reverse.mp hu)
      have hna : a.target_name = t'.target_name := by
        rw [← hname_u, hua]
        rfl
      refine ⟨target_name_mem_iff.mpr ⟨a, hadd_sub a ha, hna⟩, ?_⟩
      intro hin
      obtain ⟨x, hx, hxn⟩ := target_name_mem_iff.mp hin
      exact hadd hsorted hPstrict a ha x (hperm.mem_iff.mpr hx)
        ((strcmp_eq_zero_iff _ _).mpr (hxn.trans hna.symm))
    · exfalso
      have huL : u ∈ provider.targets := hperm.mem_iff.mp (List.diff_subset _ _ hu)
      cases hui : u.iface with
      | none => rw [hui] at hiface_u; simp at hiface_u
      | some hu' =>
        rw [hui] at hiface_u
        simp only [Option.map_some', Option.some.injEq] at hiface_u
        exact hnew u huL hu' hui hiface_u

/-- The live target `t1` survives a pass whose parsed list holds `t1` and a new target
`t2`, and its object stays exported under its path. -/
theorem add_remove_targets_keeps_survivors_witness :
    (add_remove_targets demo_spawn_fails demo_provider
        [demo_parsed_target (cstr "t1") (cstr "/org/freedesktop/UDisks2/iSCSI/static"),
         demo_parsed_target (cstr "t2") (cstr "/org/freedesktop/UDisks2/iSCSI/static")]).targets.map
        (fun t => (t.target_name, t.iface.map (fun h => h.id)))
      = [(cstr "t2", some 2), (cstr "t1", some 0)] ∧
    ((∀ t ∈ demo_provider.targets,
      t.target_name ∈
          [demo_parsed_target (cstr "t1") (cstr "/org/freedesktop/UDisks2/iSCSI/static"),
           demo_parsed_target (cstr "t2") (cstr "/org/freedesktop/UDisks2/iSCSI/static")].map
            (fun t => t.target_name) →
        update_target_connections demo_provider.connections (load_settings demo_spawn_fails t)
            ∈ (add_remove_targets demo_spawn_fails demo_provider
                [demo_parsed_target (cstr "t1") (cstr "/org/freedesktop/UDisks2/iSCSI/static"),
                 demo_parsed_target (cstr "t2")
                   (cstr "/org/freedesktop/UDisks2/iSCSI/static")]).targets ∧
          (update_target_connections demo_provider.connections
              (load_settings demo_spawn_fails t)).object_path = t.object_path ∧
          (update_target_connections demo_provider.connections
              (load_settings demo_spawn_fails t)).object = t.object ∧
          (update_target_connections demo_provider.connections
              (load_settings demo_spawn_fails t)).iface.map (fun h => h.id)
            = t.iface.map (fun h => h.id))) ∧
    (cstr "/org/freedesktop/UDisks2/iSCSI/static/t1", 1) ∈ object_manager_server
        (add_remove_targets demo_spawn_fails demo_provider
          [demo_parsed_target (cstr "t1") (cstr "/org/freedesktop/UDisks2/iSCSI/static"),
           demo_parsed_target (cstr "t2")
             (cstr "/org/freedesktop/UDisks2/iSCSI/static")]).object_manager_calls :=
  ⟨by decide,
   (add_remove_targets_keeps_survivors demo_spawn_fails demo_provider
      [demo_parsed_target (cstr "t1") (cstr "/org/freedesktop/UDisks2/iSCSI/static"),
       demo_parsed_target (cstr "t2") (cstr "/org/freedesktop/UDisks2/iSCSI/static")]
      (by decide) (by unfold SortedBy; decide)).1,
   (add_remove_targets_keeps_survivors demo_spawn_fails demo_provider
      [demo_parsed_target (cstr "t1") (cstr "/org/freedesktop/UDisks2/iSCSI/static"),
       demo_parsed_target (cstr "t2") (cstr "/org/freedesktop/UDisks2/iSCSI/static")]
      (by decide) (by unfold SortedBy; decide)).2.2.1 _ _ (by decide) (by decide)⟩

/-! ### The discovery parser, line by line -/

theorem g_strstrip_space_cons (s : CString) : g_strstrip (32 :: s) = g_strstrip s := by
  unfold g_strstrip
  simp [List.dropWhile_cons, g_ascii_isspace]

theorem parse_portal_address_of_stripped {a : CString} (h : no_space_at_ends a) :
    parse_portal_address a
      = if a.head? = some 91 ∧ a.getLast? = some 93 then g_strstrip ((a.drop 1).dropLast)
        else a := by
  unfold parse_portal_address
  rw [g_strstrip_eq_self h]
  simp only [g_strstrip_space_cons]

theorem parse_portal_line_of_target (st : ParserState) (target : Nat) (a : CString)
    (p t : Int) (htarget : st.target = some target)
    (hp1 : -2147483648 ≤ p) (hp2 : p ≤ 2147483647)
    (ht1 : -2147483648 ≤ t) (ht2 : t ≤ 2147483647) :
    parse_portal_line st (cstr "\tPortal: " ++ a ++ 58 :: (printf_d p ++ 44 :: printf_d t))
      = .ok { st with
              portal := .at target
                (match st.allocated_targets.get? target with
                  | some tg => tg.portals.length
                  | none => 0)
              allocated_targets :=
                list_modify st.allocated_targets target
                  (fun tg => { tg with
                    portals := tg.portals ++
                      [{ address := parse_portal_address a, port := p, tpgt := t,
                         ifaces := [] }] }) } := by
  unfold parse_portal_line
  rw [htarget]
  simp only []
  rw [strrchr_append_of_not_mem _ _ 58 (colon_not_mem_port_tpgt p t)]
  simp only [List.drop_one, List.tail_cons]
  rw [sscanf_d_comma_d_printf p t hp1 hp2 ht1 ht2]
  simp only []
  have hlen : (cstr "\tPortal: " ++ a ++ 58 :: (printf_d p ++ 44 :: printf_d t)).length
      - (58 :: (printf_d p ++ 44 :: printf_d t)).length = 9 + a.length := by
    simp [cstr]
    omega
  rw [hlen]
  have hlt : ¬ (9 + a.length < 9) := by omega
  simp only [hlt, if_false]
  have haddr : List.take (9 + a.length - 9)
      (List.drop 9 (cstr "\tPortal: " ++ a ++ 58 :: (printf_d p ++ 44 :: printf_d t))) = a := by
    have h9 : 9 + a.length - 9 = a.length := by omega
    rw [h9]
    simp [cstr]
  rw [haddr]

/-- C11 fails as stated, in two ways.  The address `[ fe80::1 ]` has no white space at its
ends and has the bracketed form `[x]` with `x` the text ` fe80::1 ` (a space on each side),
but the Portal holds the address `fe80::1`, not `x`.  And the tpgt 4294967297 written in the
line, which does not fit a `gint`, is stored as 1. -/
theorem parse_line_portal_bracket_space_and_overflow :
    no_space_at_ends (cstr "[ fe80::1 ]") ∧
    (parse_discovery (cstr "STATIC:\nTarget: t1\n\tPortal: [ fe80::1 ]:3260,1")).map
        (fun st => st.parsed_targets.map (fun tg => tg.portals))
      = .ok [[{ address := cstr "fe80::1", port := 3260, tpgt := 1, ifaces := [] }]] ∧
    (parse_discovery (cstr "STATIC:\nTarget: t1\n\tPortal: 10.0.0.5:3260,4294967297")).map
        (fun st => st.parsed_targets.map (fun tg => tg.portals))
      = .ok [[{ address := cstr "10.0.0.5", port := 3260, tpgt := 1, ifaces := [] }]] := by
  unfold no_space_at_ends
  decide

/-- C11 as amended: for every address text `a` with no white space at its ends and all
32-bit signed integers `p` and `t`, the line made of a tab, `Portal: `, `a`, `:`, `p`, `,`,
`t`, read while a target is current, appends to that target one Portal with port `p`, tpgt
`t`, no interface yet, and the address `a`, or, when `a` has the bracketed form `[x]`, the
text `x` without the white space at its ends.  The line is split at its last colon, so `a`
may itself contain colons. -/
theorem parse_line_portal_appends (st : ParserState) (target : Nat) (a : CString) (p t : Int)
    (htarget : st.target = some target) (ha : no_space_at_ends a)
    (hp1 : -2147483648 ≤ p) (hp2 : p ≤ 2147483647)
    (ht1 : -2147483648 ≤ t) (ht2 : t ≤ 2147483647) :
    parse_line st (cstr "\tPortal: " ++ a ++ 58 :: (printf_d p ++ 44 :: printf_d t))
      = .ok { st with
              portal := .at target
                (match st.allocated_targets.get? target with
                  | some tg => tg.portals.length
                  | none => 0)
              allocated_targets :=
                list_modify st.allocated_targets target
                  (fun tg => { tg with
                    portals := tg.portals ++
                      [{ address :=
                           if a.head? = some 91 ∧ a.getLast? = some 93 then
                             g_strstrip ((a.drop 1).dropLast)
                           else a
                         port := p, tpgt := t, ifaces := [] }] }) } := by
  rw [List.append_assoc, parse_line_portal, ← List.append_assoc,
    parse_portal_line_of_target st target a p t htarget hp1 hp2 ht1 ht2,
    parse_portal_address_of_stripped ha]

/-- Witness for the amended C11: the line for the bracketed IPv6 address `[fe80::1]`, read
while the target `t1` is current. -/
theorem parse_line_portal_appends_witness :
    parse_line
        { mode := .MODE_IN_STATIC, source := some static_source, target := some 0,
          portal := .null
          allocated_targets := [demo_parsed_target (cstr "t1") (cstr "/org/freedesktop/UDisks2/iSCSI/static")]
          parsed_sources := [static_source] }
        (cstr "\tPortal: " ++ cstr "[fe80::1]" ++ 58 :: (printf_d 3260 ++ 44 :: printf_d 1))
      = .ok { mode := .MODE_IN_STATIC, source := some static_source, target := some 0,
              portal := .at 0 1
              allocated_targets :=
                [{ demo_parsed_target (cstr "t1") (cstr "/org/freedesktop/UDisks2/iSCSI/static") with
                   portals := (demo_parsed_target (cstr "t1")
                       (cstr "/org/freedesktop/UDisks2/iSCSI/static")).portals ++
                     [{ address := cstr "fe80::1", port := 3260, tpgt := 1, ifaces := [] }] }]
              parsed_sources := [static_source] } :=
  parse_line_portal_appends _ 0 (cstr "[fe80::1]") 3260 1 rfl
    (by unfold no_space_at_ends; decide) (by decide) (by decide) (by decide) (by decide)

theorem split_lines_ne_nil (s : CString) : split_lines s ≠ [] := by
  induction s with
  | nil => simp [split_lines]
  | cons b rest ih =>
    unfold split_lines
    split_ifs
    · simp
    · split <;> simp

theorem split_lines_append_first (pre s : CString) (h : 10 ∉ pre) :
    ∃ line lines, split_lines s = line :: lines ∧
      split_lines (pre ++ s) = (pre ++ line) :: lines := by
  induction pre with
  | nil =>
    cases hs : split_lines s with
    | nil => exact absurd hs (split_lines_ne_nil s)
    | cons line lines => exact ⟨line, lines, rfl, by simpa using hs⟩
  | cons b pre ih =>
    have hb : ¬ b = 10 := fun hb => h (by simp [hb])
    obtain ⟨line, lines, h1, h2⟩ := ih (fun hl => h (List.mem_cons_of_mem _ hl))
    refine ⟨line, lines, h1, ?_⟩
    simp [split_lines, hb, h2]

theorem parse_line_isns (st : ParserState) :
    parse_line st (cstr "iSNS:")
      = .ok { st with mode := .MODE_IN_ISNS, source := none, target := none, portal := .null } := by
  unfold parse_line
  simp [strcmp_eq_zero_iff, cstr, g_str_has_prefix]

theorem parse_line_isns_discovery_address (st : ParserState) (hmode : st.mode = .MODE_IN_ISNS)
    (X : CString) :
    parse_line st (cstr "DiscoveryAddress: " ++ X)
      = .error (.g_error_todo_support (cstr "isns")) := by
  unfold parse_line
  simp [strcmp_eq_zero_iff, cstr, g_str_has_prefix, hmode, parse_new_source,
    iscsi_source_compute_object_path, strcmp]

/-- C12 fails for every discovery address `X`: the line `iSNS:` followed by the line
`DiscoveryAddress: X` does not complete.  The parser builds a source with the mechanism
`isns`, and `iscsi_source_compute_object_path` ends the process for it with
`g_error ("TODO: support '%s'")` (line 396) before the source is put on the parsed list. -/
theorem parse_discovery_isns_aborts (X : CString) :
    parse_discovery (cstr "iSNS:\nDiscoveryAddress: " ++ X)
      = .error (.g_error_todo_support (cstr "isns")) := by
  unfold parse_discovery
  have h1 : cstr "iSNS:\nDiscoveryAddress: " ++ X
      = cstr "iSNS:" ++ 10 :: (cstr "DiscoveryAddress: " ++ X) := by
    simp [cstr]
  rw [h1, split_lines_append _ _ (by decide)]
  obtain ⟨line, lines, _, h2⟩ := split_lines_append_first (cstr "DiscoveryAddress: ") X (by decide)
  rw [h2]
  simp only [parse_lines, parse_line_isns]
  rw [parse_line_isns_discovery_address _ rfl]

/-- C13 fails: in the line tab `Portal: 5,6`, read while the target `t1` is current, the
last colon is the one of the prefix `Portal:`, the text after it scans as `port,tpgt`, and
the colon lies two bytes before the start of the address portion, so the assertion
`g_assert (s - s2 >= 0)` of line 1400 fails and the parser is aborted. -/
theorem parse_discovery_portal_assertion_fails :
    strrchr (cstr "\tPortal: 5,6") 58 = some (cstr ": 5,6") ∧
    sscanf_d_comma_d (cstr " 5,6") = some (5, 6) ∧
    parse_discovery (cstr "STATIC:\nTarget: t1\n\tPortal: 5,6\n") = .error .g_assert_failed := by
  decide

theorem parse_line_unexpected (st : ParserState) (u : CString)
    (h1 : u ≠ cstr "SENDTARGETS:") (h2 : u ≠ cstr "iSNS:") (h3 : u ≠ cstr "STATIC:")
    (h4 : u ≠ cstr "FIRMWARE:") (h5 : u ≠ cstr "No targets found.")
    (h6 : g_str_has_prefix u (cstr "DiscoveryAddress: ") = false)
    (h7 : g_str_has_prefix u (cstr "Target: ") = false)
    (h8 : g_str_has_prefix u (cstr "\tPortal: ") = false)
    (h9 : g_str_has_prefix u (cstr "\t\tIface Name: ") = false) :
    parse_line st u = .ok st := by
  unfold parse_line
  simp only [strcmp_eq_zero_iff, h1, h2, h3, h4, h5, h6, h7, h8, h9, if_false, and_false,
    Bool.false_eq_true]

theorem parse_lines_append (st : ParserState) (l1 l2 : List CString) :
    parse_lines st (l1 ++ l2)
      = match parse_lines st l1 with
        | .error e => .error e
        | .ok st' => parse_lines st' l2 := by
  induction l1 generalizing st with
  | nil => simp [parse_lines]
  | cons line l1 ih =>
    simp only [List.cons_append, parse_lines]
    cases parse_line st line with
    | error e => rfl
    | ok st' => exact ih st'

/-- C14: for every discovery text `text` and every line `u` that is none of the headers
`SENDTARGETS:`, `iSNS:`, `STATIC:`, `FIRMWARE:`, `No targets found.` and does not start
with `DiscoveryAddress: `, `Target: `, tab `Portal: ` or tab tab `Iface Name: `, a text
whose lines are the lines of `text` with `u` inserted as an extra line at any position `k`
is parsed to the same result as `text`: the same sources and targets with their portals
and interfaces (and the same abort, when `text` makes the parser abort). -/
theorem parse_discovery_ignores_unexpected_line (text text' u : CString) (k : Nat)
    (h1 : u ≠ cstr "SENDTARGETS:") (h2 : u ≠ cstr "iSNS:") (h3 : u ≠ cstr "STATIC:")
    (h4 : u ≠ cstr "FIRMWARE:") (h5 : u ≠ cstr "No targets found.")
    (h6 : g_str_has_prefix u (cstr "DiscoveryAddress: ") = false)
    (h7 : g_str_has_prefix u (cstr "Target: ") = false)
    (h8 : g_str_has_prefix u (cstr "\tPortal: ") = false)
    (h9 : g_str_has_prefix u (cstr "\t\tIface Name: ") = false)
    (hins : split_lines text'
      = (split_lines text).take k ++ u :: (split_lines text).drop k) :
    parse_discovery text' = parse_discovery text := by
  unfold parse_discovery
  rw [hins]
  conv_rhs => rw [← List.take_append_drop k (split_lines text)]
  rw [parse_lines_append, parse_lines_append]
  cases parse_lines ParserState.initial (List.take k (split_lines text)) with
  | error e => rfl
  | ok st =>
    simp only [parse_lines, parse_line_unexpected st u h1 h2 h3 h4 h5 h6 h7 h8 h9]

/-- Witness for C14: the line `unexpected` inserted after the `Target: ` line of a static
block. -/
theorem parse_discovery_ignores_unexpected_line_witness :
    (parse_discovery (cstr "STATIC:\nTarget: t1\n\tPortal: 10.0.0.5:3260,1\n")).map
        (fun st => st.parsed_targets.map (fun t => (t.target_name, t.portals)))
      = .ok [(cstr "t1", [{ address := cstr "10.0.0.5", port := 3260, tpgt := 1, ifaces := [] }])] ∧
    parse_discovery (cstr "STATIC:\nTarget: t1\nunexpected\n\tPortal: 10.0.0.5:3260,1\n")
      = parse_discovery (cstr "STATIC:\nTarget: t1\n\tPortal: 10.0.0.5:3260,1\n") :=
  ⟨by decide,
   parse_discovery_ignores_unexpected_line
     (cstr "STATIC:\nTarget: t1\n\tPortal: 10.0.0.5:3260,1\n")
     (cstr "STATIC:\nTarget: t1\nunexpected\n\tPortal: 10.0.0.5:3260,1\n") (cstr "unexpected") 2
     (by decide) (by decide) (by decide) (by decide) (by decide) (by decide) (by decide)
     (by decide) (by decide) (by decide)⟩

theorem list_modify_map_eq {α β : Type} (g : α → β) (f : α → α) (hf : ∀ x, g (f x) = g x)
    (l : List α) (k : Nat) : (list_modify l k f).map g = l.map g := by
  induction l generalizing k with
  | nil => rfl
  | cons a l ih =>
    cases k with
    | zero => simp [list_modify, hf]
    | succ k => simp [list_modify, ih]

theorem parse_new_source_target_names (st st' : ParserState) (mode : Mode)
    (mechanism : CString) (discovery_address : Option CString)
    (h : parse_new_source st mode mechanism discovery_address = .ok st') :
    st'.allocated_targets = st.allocated_targets := by
  unfold parse_new_source at h
  split at h
  · exact absurd h (by simp)
  · have h' := Except.ok.inj h
    subst h'
    rfl

theorem parse_portal_line_target_names (st st' : ParserState) (line : CString)
    (h : parse_portal_line st line = .ok st') :
    st'.allocated_targets.map (fun t => t.target_name)
      = st.allocated_targets.map (fun t => t.target_name) := by
  unfold parse_portal_line at h
  split at h
  · have h' := Except.ok.inj h
    subst h'
    rfl
  · split at h
    · have h' := Except.ok.inj h
      subst h'
      rfl
    · split at h
      · have h' := Except.ok.inj h
        subst h'
        rfl
      · split at h
        · exact absurd h (by simp)
        · have h' := Except.ok.inj h
          subst h'
          show List.map (fun t : iSCSITarget => t.target_name)
              (list_modify st.allocated_targets _ _) = _
          apply list_modify_map_eq
          intro x
          rfl

theorem parse_iface_line_target_names (st st' : ParserState) (line : CString)
    (h : parse_iface_line st line = .ok st') :
    st'.allocated_targets.map (fun t => t.target_name)
      = st.allocated_targets.map (fun t => t.target_name) := by
  unfold parse_iface_line at h
  split at h
  · exact absurd h (by simp)
  · have h' := Except.ok.inj h
    subst h'
    rfl
  · have h' := Except.ok.inj h
    subst h'
    show List.map (fun t : iSCSITarget => t.target_name)
        (list_modify st.allocated_targets _ _) = _
    apply list_modify_map_eq
    intro x
    rfl

theorem parse_line_target_names (st st' : ParserState) (line : CString)
    (h : parse_line st line = .ok st') :
    ∃ extra, st'.allocated_targets.map (fun t => t.target_name)
        = st.allocated_targets.map (fun t => t.target_name) ++ extra ∧
      extra.Sublist (target_line_names [line]) := by
  have hsame : ∀ s : ParserState, s.allocated_targets.map (fun t => t.target_name)
      = st.allocated_targets.map (fun t => t.target_name) →
      ∃ extra, s.allocated_targets.map (fun t => t.target_name)
          = st.allocated_targets.map (fun t => t.target_name) ++ extra ∧
        extra.Sublist (target_line_names [line]) :=
    fun s hs => ⟨[], by rw [hs, List.append_nil], List.nil_sublist _⟩
  unfold parse_line at h
  by_cases c1 : strcmp line (cstr "SENDTARGETS:") = 0
  · rw [if_pos c1] at h
    have h' := Except.ok.inj h
    subst h'
    exact hsame _ rfl
  rw [if_neg c1] at h
  by_cases c2 : st.mode = .MODE_IN_SENDTARGETS ∧ g_str_has_prefix line (cstr "DiscoveryAddress: ")
  · rw [if_pos c2] at h
    exact hsame _ (by rw [parse_new_source_target_names _ _ _ _ _ h])
  rw [if_neg c2] at h
  by_cases c3 : strcmp line (cstr "iSNS:") = 0
  · rw [if_pos c3] at h
    have h' := Except.ok.inj h
    subst h'
    exact hsame _ rfl
  rw [if_neg c3] at h
  by_cases c4 : st.mode = .MODE_IN_ISNS ∧ g_str_has_prefix line (cstr "DiscoveryAddress: ")
  · rw [if_pos c4] at h
    exact hsame _ (by rw [parse_new_source_target_names _ _ _ _ _ h])
  rw [if_neg c4] at h
  by_cases c5 : strcmp line (cstr "STATIC:") = 0
  · rw [if_pos c5] at h
    exact hsame _ (by rw [parse_new_source_target_names _ _ _ _ _ h])
  rw [if_neg c5] at h
  by_cases c6 : strcmp line (cstr "FIRMWARE:") = 0
  · rw [if_pos c6] at h
    exact hsame _ (by rw [parse_new_source_target_names _ _ _ _ _ h])
  rw [if_neg c6] at h
  by_cases c7 : strcmp line (cstr "No targets found.") = 0
  · rw [if_pos c7] at h
    have h' := Except.ok.inj h
    subst h'
    exact hsame _ rfl
  rw [if_neg c7] at h
  by_cases c8 : g_str_has_prefix line (cstr "Target: ") = true
  · rw [if_pos c8] at h
    split at h
    · have h' := Except.ok.inj h
      subst h'
      exact hsame _ rfl
    · have h' := Except.ok.inj h
      subst h'
      refine ⟨[g_strstrip (line.drop 8)], by simp, ?_⟩
      simp [target_line_names, c8]
  rw [if_neg c8] at h
  by_cases c9 : g_str_has_prefix line (cstr "\tPortal: ") = true
  · rw [if_pos c9] at h
    exact hsame _ (parse_portal_line_target_names _ _ _ h)
  rw [if_neg c9] at h
  by_cases c10 : g_str_has_prefix line (cstr "\t\tIface Name: ") = true
  · rw [if_pos c10] at h
    exact hsame _ (parse_iface_line_target_names _ _ _ h)
  rw [if_neg c10] at h
  have h' := Except.ok.inj h
  subst h'
  exact hsame _ rfl

theorem target_line_names_cons (line : CString) (lines : List CString) :
    target_line_names (line :: lines) = target_line_names [line] ++ target_line_names lines := by
  unfold target_line_names
  rw [← List.map_append, ← List.filter_append]
  rfl

theorem parse_lines_target_names (lines : List CString) (st st' : ParserState)
    (h : parse_lines st lines = .ok st') :
    ∃ extra, st'.allocated_targets.map (fun t => t.target_name)
        = st.allocated_targets.map (fun t => t.target_name) ++ extra ∧
      extra.Sublist (target_line_names lines) := by
  induction lines generalizing st with
  | nil =>
    simp only [parse_lines] at h
    cases h
    exact ⟨[], by simp, List.nil_sublist _⟩
  | cons line lines ih =>
    simp only [parse_lines] at h
    cases h1 : parse_line st line with
    | error e => rw [h1] at h; cases h
    | ok st1 =>
      rw [h1] at h
      obtain ⟨e1, he1, hs1⟩ := parse_line_target_names st st1 line h1
      obtain ⟨e2, he2, hs2⟩ := ih st1 h
      refine ⟨e1 ++ e2, by rw [he2, he1, List.append_assoc], ?_⟩
      rw [target_line_names_cons]
      exact List.Sublist.append hs1 hs2

/-- C15 fails as stated: the parser does not merge targets.  A target `t1` that two
SendTargets discovery addresses report is put twice on the parsed target list. -/
theorem parse_discovery_repeats_target_name :
    (parse_discovery
        (cstr "SENDTARGETS:\nDiscoveryAddress: 10.0.0.1,3260\nTarget: t1\nDiscoveryAddress: 10.0.0.2,3260\nTarget: t1\n")).map
        (fun st => st.parsed_targets.map (fun t => t.target_name))
      = .ok [cstr "t1", cstr "t1"] := by
  decide

/-- C15 as amended: for every discovery text in which the lines that start with
`Target: ` carry pairwise distinct names (the text after the prefix, without the white
space at its ends), the target names in the parsed target list that a run of the
discovery parser produces are pairwise distinct. -/
theorem parse_discovery_target_names_nodup (text : CString) (st : ParserState)
    (hlines : (target_line_names (split_lines text)).Nodup)
    (hparse : parse_discovery text = .ok st) :
    (st.parsed_targets.map (fun t => t.target_name)).Nodup := by
  obtain ⟨extra, he, hs⟩ := parse_lines_target_names _ _ _ hparse
  unfold ParserState.parsed_targets
  rw [List.map_reverse, List.nodup_reverse, he]
  simp only [ParserState.initial, List.map_nil, List.nil_append]
  exact hs.nodup hlines

/-- Witness for the amended C15: a static block with the two targets `t1` and `t2`. -/
theorem parse_discovery_target_names_nodup_witness :
    ∃ st, parse_discovery (cstr "STATIC:\nTarget: t1\nTarget: t2\n") = .ok st ∧
      st.parsed_targets.map (fun t => t.target_name) = [cstr "t2", cstr "t1"] ∧
      (st.parsed_targets.map (fun t => t.target_name)).Nodup :=
  ⟨{ mode := .MODE_IN_STATIC, source := some static_source, target := some 1, portal := .null
     allocated_targets :=
       [{ target_name := cstr "t1", object_path := none, object := none, iface := none
          source_object_path := cstr "/org/freedesktop/UDisks2/iSCSI/static", portals := [] },
        { target_name := cstr "t2", object_path := none, object := none, iface := none
          source_object_path := cstr "/org/freedesktop/UDisks2/iSCSI/static", portals := [] }]
     parsed_sources := [static_source] },
   by decide, by decide,
   parse_discovery_target_names_nodup (cstr "STATIC:\nTarget: t1\nTarget: t2\n") _
     (by decide) (by decide)⟩

/-! ### Records that are abandoned -/

theorem is_null_of_null_equivalent {value : Option CString} (h : null_equivalent value) :
    is_null value = true := by
  rcases h with h | h
  · rw [h]; rfl
  · rw [h]; decide

theorem as_int_of_null_equivalent (device : GUdevDevice) (name : CString)
    (h : null_equivalent (g_udev_device_get_sysfs_attr device name)) :
    g_udev_device_get_sysfs_attr_as_int device name = 0 := by
  unfold g_udev_device_get_sysfs_attr_as_int
  rcases h with h | h
  · rw [h]
  · rw [h]; decide

/-- C16 fails as stated for tpgt: the session device of `connection1:0` has no `tpgt`
attribute, the path is not cached, and the add event still builds a record, with tpgt 0,
and enters it into all three tables. -/
theorem handle_iscsi_connection_uevent_absent_tpgt :
    g_hash_table_lookup ConnectionCache.empty.sysfs_to_connection
        (demo_connection_device (cstr "1")).sysfs_path = none ∧
    g_udev_device_get_sysfs_attr demo_session_device_without_tpgt (cstr "tpgt") = none ∧
    handle_iscsi_connection_uevent demo_sysfs_without_tpgt ConnectionCache.empty (cstr "add")
        (demo_connection_device (cstr "1"))
      = { sysfs_to_connection :=
            [((demo_connection_device (cstr "1")).sysfs_path,
              { built_connection demo_session_device_without_tpgt.sysfs_path (cstr "t1")
                  (cstr "default") (cstr "10.0.0.5") 0 3260 with
                state := some (cstr "LOGGED_IN") })]
          id_to_connection :=
            [(cstr "0,10.0.0.5:3260,default,t1", (demo_connection_device (cstr "1")).sysfs_path)]
          id_without_tpgt_to_connection :=
            [(cstr "10.0.0.5:3260,default,t1", (demo_connection_device (cstr "1")).sysfs_path)] } := by
  decide

/-- C16 as amended: for an event other than `remove` (an add or change event) on a sysfs
path that is not cached, whose session device is found, if any of target_name, iface_name,
address or port is absent or is the literal text `(null)`, construction is abandoned and
none of the three tables changes. -/
theorem handle_iscsi_connection_uevent_abandons (sysfs : Sysfs) (provider : ConnectionCache)
    (uevent : CString) (device session_device : GUdevDevice) (names : List CString)
    (name : CString)
    (hevent : uevent ≠ cstr "remove")
    (hnew : g_hash_table_lookup provider.sysfs_to_connection device.sysfs_path = none)
    (hdir : sysfs.is_dir (device.sysfs_path ++ cstr "/device/../iscsi_session") = true)
    (hnames : sysfs.dir_entries (device.sysfs_path ++ cstr "/device/../iscsi_session")
      = some names)
    (hname : names.find? (fun name => sscanf_prefix_d name (cstr "session")) = some name)
    (hsession : sysfs.query_by_sysfs_path
      (device.sysfs_path ++ cstr "/device/../iscsi_session" ++ 47 :: name) = some session_device)
    (hnull : null_equivalent (g_udev_device_get_sysfs_attr session_device (cstr "targetname")) ∨
      null_equivalent (g_udev_device_get_sysfs_attr session_device (cstr "ifacename")) ∨
      null_equivalent (g_udev_device_get_sysfs_attr device (cstr "persistent_address")) ∨
      null_equivalent (g_udev_device_get_sysfs_attr device (cstr "persistent_port"))) :
    handle_iscsi_connection_uevent sysfs provider uevent device = provider := by
  have hcond : is_null (g_udev_device_get_sysfs_attr session_device (cstr "targetname")) = true ∨
      is_null (g_udev_device_get_sysfs_attr session_device (cstr "ifacename")) = true ∨
      is_null (g_udev_device_get_sysfs_attr device (cstr "persistent_address")) = true ∨
      g_udev_device_get_sysfs_attr_as_int device (cstr "persistent_port") = 0 := by
    rcases hnull with h | h | h | h
    · exact Or.inl (is_null_of_null_equivalent h)
    · exact Or.inr (Or.inl (is_null_of_null_equivalent h))
    · exact Or.inr (Or.inr (Or.inl (is_null_of_null_equivalent h)))
    · exact Or.inr (Or.inr (Or.inr (as_int_of_null_equivalent _ _ h)))
  have hbuilt : new_connection sysfs provider device = (provider, none) := by
    unfold new_connection
    simp only [hdir, hnames, hname, hsession]
    simp only [not_true_eq_false, if_false]
    rw [if_pos hcond]
  unfold handle_iscsi_connection_uevent
  simp only [strcmp_eq_zero_iff, hevent, if_false, hnew, hbuilt]

/-- Witness for the amended C16: a change event for `connection2:0` whose session gives the
target name `(null)`. -/
theorem handle_iscsi_connection_uevent_abandons_witness :
    handle_iscsi_connection_uevent (demo_sysfs (cstr "(null)")) ConnectionCache.empty (cstr "change")
        (demo_connection_device (cstr "2"))
      = ConnectionCache.empty :=
  handle_iscsi_connection_uevent_abandons (demo_sysfs (cstr "(null)")) ConnectionCache.empty
    (cstr "change") (demo_connection_device (cstr "2"))
    (demo_session_device (cstr "2") (cstr "(null)")) [cstr "session2"] (cstr "session2")
    (by decide) (by decide) (by decide) (by decide) (by decide) (by decide)
    (Or.inl (Or.inr (by decide)))

/-! ### The settings loader -/

theorem strstr_eq_none (haystack needle : CString) (h : strstr haystack needle = none) :
    ¬ needle <:+: haystack := by
  induction haystack with
  | nil =>
    unfold strstr at h
    split_ifs at h with hp
    rintro ⟨s, t, hst⟩
    have hn : needle = [] :=
      (List.append_eq_nil.mp (List.append_eq_nil.mp hst).1).2
    exact hp (by rw [hn]; rfl)
  | cons b rest ih =>
    unfold strstr at h
    split_ifs at h with hp
    have hrest : strstr rest needle = none := by
      cases hr : strstr rest needle with
      | none => rfl
      | some i => rw [hr] at h; simp at h
    rintro ⟨s, t, hst⟩
    cases s with
    | nil =>
      apply hp
      rw [List.isPrefixOf_iff_prefix]
      exact ⟨t, by simpa using hst⟩
    | cons c s =>
      simp only [List.cons_append, List.cons.injEq] at hst
      exact ih hrest ⟨s, t, by simpa using hst.2⟩

theorem strstr_eq_some (haystack needle : CString) (i : Nat)
    (h : strstr haystack needle = some i) :
    haystack = haystack.take i ++ needle ++ haystack.drop (i + needle.length) ∧
    ∀ key value, haystack = key ++ needle ++ value → i ≤ key.length := by
  induction haystack generalizing i with
  | nil =>
    unfold strstr at h
    split_ifs at h with hp
    have hn : needle = [] := by
      rw [List.isPrefixOf_iff_prefix] at hp
      exact List.prefix_nil.mp hp
    cases h
    subst hn
    exact ⟨by simp, fun _ _ _ => Nat.zero_le _⟩
  | cons b rest ih =>
    unfold strstr at h
    split_ifs at h with hp
    · cases h
      rw [List.isPrefixOf_iff_prefix] at hp
      obtain ⟨t, ht⟩ := hp
      refine ⟨?_, fun _ _ _ => Nat.zero_le _⟩
      rw [← ht]
      simp
    · cases hr : strstr rest needle with
      | none => rw [hr] at h; simp at h
      | some j =>
        rw [hr] at h
        simp only [Option.map_some', Option.some.injEq] at h
        subst h
        obtain ⟨h1, h2⟩ := ih j hr
        refine ⟨?_, ?_⟩
        · simp only [List.take_succ_cons, List.cons_append, List.cons.injEq, true_and]
          rw [show j + 1 + needle.length = (j + needle.length) + 1 by omega, List.drop_succ_cons]
          exact h1
        · intro key value hkv
          cases key with
          | nil =>
            exfalso
            apply hp
            rw [List.isPrefixOf_iff_prefix]
            exact ⟨value, by simpa using hkv.symm⟩
          | cons c key =>
            simp only [List.cons_append, List.cons.injEq] at hkv
            have := h2 key value (by simpa using hkv.2)
            simp only [List.length_cons]
            omega

theorem setting_of_line_is_entry (line : CString) :
    is_entry_of_line line (setting_of_line line) := by
  unfold is_entry_of_line setting_of_line
  by_cases h35 : line.head? = some 35
  · simp [h35]
  · cases hs : strstr line (cstr " = ") with
    | none =>
      have := strstr_eq_none _ _ hs
      simp [h35, this]
    | some i =>
      obtain ⟨h1, h2⟩ := strstr_eq_some _ _ _ hs
      refine ⟨?_, ?_⟩
      · rintro (h | h)
        · exact absurd h h35
        · exact absurd ⟨_, _, h1.symm⟩ h
      · intro _ _
        refine ⟨line.take i, line.drop (i + 3), ?_, ?_, ?_⟩
        · exact h1
        · intro key' value' hkv
          have := h2 key' value' hkv
          have h3 : (cstr " = ").length = 3 := rfl
          have hlen := congrArg List.length h1
          simp only [List.length_append, List.length_take, List.length_drop, h3] at hlen
          rw [List.length_take]
          omega
        · simp [h35]

/-- C17 at the failing inputs, a defect of the code: nothing ensures that the key and the
value are valid UTF-8 (the TODO of line 1049) before `g_variant_builder_add` gets them, and
GLib stores the text `[Invalid UTF-8]` for a string that is not.  The output line
`node.session.auth.username = J`, byte 0xfc, `rgen` (a user name written in Latin-1) does
not start with `#` and contains ` = `, yet the value of its entry is `[Invalid UTF-8]` in
both arrays, not the text after the ` = `; and for a line whose text before the ` = ` has
the byte 0xfc the key of the entry is `[Invalid UTF-8]`. -/
theorem load_settings_parse_entry_not_utf8 :
    load_settings_parse (cstr "node.session.auth.username = J" ++ [252] ++ cstr "rgen\n")
      = ([(cstr "node.session.auth.username", cstr "[Invalid UTF-8]")],
         [(cstr "node.session.auth.username", cstr "[Invalid UTF-8]")]) ∧
    setting_of_line (cstr "node.session.auth.username = J" ++ [252] ++ cstr "rgen")
      = some (cstr "node.session.auth.username", cstr "J" ++ [252] ++ cstr "rgen") ∧
    load_settings_parse (cstr "node.name" ++ [252] ++ cstr " = <empty>\n")
      = ([(cstr "[Invalid UTF-8]", [])], [(cstr "[Invalid UTF-8]", [])]) ∧
    setting_of_line (cstr "node.name" ++ [252] ++ cstr " = <empty>")
      = some (cstr "node.name" ++ [252], []) := by
  refine ⟨?_, ?_, ?_, ?_⟩ <;> decide

/-- For every settings output text, line by line and in line order, a line that starts
with `#` or contains no ` = ` gives no entry, and every other line gives one entry, made
of the text before the first ` = ` and of all the text after it, the empty string when
that text is exactly `<empty>`.  The secret settings hold these entries, each string as
`g_variant_builder_add` stores it, and the public settings hold them with the value of a
`password` key blanked; when the keys and the values are valid UTF-8 the stored strings
are the parsed ones, which is what C17 says. -/
theorem load_settings_parse_entries (ia_out : CString) :
    ∃ entries : List (Option (CString × CString)),
      List.Forall₂ is_entry_of_line (split_lines ia_out) entries ∧
      (load_settings_parse ia_out).2 = entries.reduceOption.map stored_entry ∧
      (load_settings_parse ia_out).1
        = entries.reduceOption.map (fun e => stored_entry (mask_entry e)) ∧
      ((∀ e ∈ entries.reduceOption,
          g_utf8_validate e.1 = true ∧ g_utf8_validate e.2 = true) →
        (load_settings_parse ia_out).2 = entries.reduceOption ∧
        (load_settings_parse ia_out).1 = entries.reduceOption.map mask_entry) := by
  have hred : ((split_lines ia_out).map setting_of_line).reduceOption
      = (split_lines ia_out).filterMap setting_of_line := by
    simp [List.reduceOption, List.filterMap_map]
  refine ⟨(split_lines ia_out).map setting_of_line, ?_, ?_, ?_, ?_⟩
  · rw [List.forall₂_map_right_iff]
    exact List.forall₂_same.mpr (fun line _ => setting_of_line_is_entry line)
  · rw [load_settings_parse_eq, hred]
  · rw [load_settings_parse_eq, hred]
  · rw [load_settings_parse_eq, hred]
    intro hvalid
    constructor
    · simp only []
      conv_rhs => rw [← List.map_id ((split_lines ia_out).filterMap setting_of_line)]
      apply List.map_congr_left
      intro e he
      exact stored_entry_of_valid e (hvalid e he)
    · simp only []
      apply List.map_congr_left
      intro e he
      have hv := hvalid e he
      apply stored_entry_of_valid
      unfold mask_entry
      split_ifs
      · exact ⟨hv.1, rfl⟩
      · exact hv

theorem load_settings_iface_of_failure (spawn : Spawner) (target_name address : CString)
    (port : Int) (iface : iSCSIIface)
    (hfail : ∀ out, spawn (load_settings_command_line target_name address port iface.name)
      = some out → exited_with_zero out.exit_status = false) :
    load_settings_iface spawn target_name address port iface
      = { iface with settings := some [], secret_settings := some [] } := by
  unfold load_settings_iface
  cases hs : spawn (load_settings_command_line target_name address port iface.name) with
  | none => rfl
  | some out => simp [hfail out hs]

theorem load_settings_iface_of_success (spawn : Spawner) (target_name address : CString)
    (port : Int) (iface : iSCSIIface) (out : SpawnOutput)
    (hs : spawn (load_settings_command_line target_name address port iface.name) = some out)
    (he : exited_with_zero out.exit_status = true) :
    load_settings_iface spawn target_name address port iface
      = { iface with
          settings := some (load_settings_parse out.standard_output).1
          secret_settings := some (load_settings_parse out.standard_output).2 } := by
  unfold load_settings_iface
  simp [hs, he]

theorem load_settings_portals (spawn : Spawner) (target : iSCSITarget) :
    ∀ q ∈ target.portals, ∃ q' ∈ (load_settings spawn target).portals,
      q'.address = q.address ∧ q'.port = q.port ∧ q'.tpgt = q.tpgt ∧
      q'.ifaces.Perm
        (q.ifaces.map (load_settings_iface spawn target.target_name q.address q.port)) := by
  intro q hq
  refine ⟨load_settings_portal spawn target.target_name q, ?_, rfl, rfl, rfl, ?_⟩
  · unfold load_settings
    exact List.mem_map_of_mem _ ((g_list_sort_perm _ _).mem_iff.mpr hq)
  · unfold load_settings_portal
    exact (g_list_sort_perm _ _).map _

/-- C18: for every target, every portal of it and every interface of that portal, when
the settings command for that interface cannot be spawned or does not exit with status 0,
after `load_settings` the interface is in its portal with both the public and the secret
settings empty, whatever they held before; the target has as many portals as before, every
interface of every portal has been processed by the body of the loop (the interfaces of
each portal are, up to the order, the images of its interfaces under the body), and an
interface whose command succeeds gets the settings parsed from the output of its own
command. -/
theorem load_settings_failed_command (spawn : Spawner) (target : iSCSITarget)
    (portal : iSCSIPortal) (iface : iSCSIIface)
    (hportal : portal ∈ target.portals) (hiface : iface ∈ portal.ifaces)
    (hfail : ∀ out,
      spawn (load_settings_command_line target.target_name portal.address portal.port iface.name)
        = some out → exited_with_zero out.exit_status = false) :
    (∃ portal' ∈ (load_settings spawn target).portals,
      portal'.address = portal.address ∧ portal'.port = portal.port ∧
      portal'.tpgt = portal.tpgt ∧
      { iface with settings := some [], secret_settings := some [] } ∈ portal'.ifaces) ∧
    (load_settings spawn target).portals.length = target.portals.length ∧
    (∀ q ∈ target.portals, ∃ q' ∈ (load_settings spawn target).portals,
      q'.address = q.address ∧ q'.port = q.port ∧ q'.tpgt = q.tpgt ∧
      q'.ifaces.Perm
        (q.ifaces.map (load_settings_iface spawn target.target_name q.address q.port))) ∧
    (∀ (q : iSCSIPortal) (other : iSCSIIface) (out : SpawnOutput),
      spawn (load_settings_command_line target.target_name q.address q.port other.name)
        = some out →
      exited_with_zero out.exit_status = true →
      load_settings_iface spawn target.target_name q.address q.port other
        = { other with
            settings := some (load_settings_parse out.standard_output).1
            secret_settings := some (load_settings_parse out.standard_output).2 }) := by
  refine ⟨?_, ?_, load_settings_portals spawn target, ?_⟩
  · obtain ⟨q', hq', h1, h2, h3, hperm⟩ := load_settings_portals spawn target portal hportal
    refine ⟨q', hq', h1, h2, h3, hperm.mem_iff.mpr ?_⟩
    rw [← load_settings_iface_of_failure spawn target.target_name portal.address portal.port
      iface hfail]
    exact List.mem_map_of_mem _ hiface
  · unfold load_settings
    simp only [List.length_map]
    exact (g_list_sort_perm _ _).length_eq
  · intro q other out hs he
    exact load_settings_iface_of_success spawn _ _ _ _ out hs he

/-- Witness for C18: the command for the interface `eth1` exits with status 21, the one
for `default` succeeds; `eth1` loses the settings it held and `default` gets its own. -/
theorem load_settings_failed_command_witness :
    (load_settings demo_spawn_default_only demo_target_two_ifaces).portals
      = [{ address := cstr "10.0.0.5", port := 3260, tpgt := 1
           ifaces :=
             [{ name := cstr "default"
                settings := some [(cstr "node.startup", cstr "automatic"),
                                  (cstr "node.session.auth.password", [])]
                secret_settings := some [(cstr "node.startup", cstr "automatic"),
                                         (cstr "node.session.auth.password", cstr "secret123")] },
              { name := cstr "eth1", settings := some [], secret_settings := some [] }] }] ∧
    ∃ portal' ∈ (load_settings demo_spawn_default_only demo_target_two_ifaces).portals,
      portal'.address = cstr "10.0.0.5" ∧ portal'.port = 3260 ∧ portal'.tpgt = 1 ∧
      { name := cstr "eth1", settings := some [], secret_settings := some [] } ∈ portal'.ifaces :=
  ⟨by decide,
   (load_settings_failed_command demo_spawn_default_only demo_target_two_ifaces
      { address := cstr "10.0.0.5", port := 3260, tpgt := 1
        ifaces := [{ name := cstr "eth1"
                     settings := some [(cstr "node.startup", cstr "manual")]
                     secret_settings := some [(cstr "node.startup", cstr "manual")] },
                   { name := cstr "default", settings := none, secret_settings := none }] }
      { name := cstr "eth1"
        settings := some [(cstr "node.startup", cstr "manual")]
        secret_settings := some [(cstr "node.startup", cstr "manual")] }
      (by decide) (by decide)
      (by
        intro out h
        have hcmd : demo_spawn_default_only
            (load_settings_command_line (cstr "t1") (cstr "10.0.0.5") 3260 (cstr "eth1"))
            = some { standard_output := [], standard_error := cstr "iscsiadm: no records found",
                     exit_status := 5376 } := rfl
        have h' : some out = some { standard_output := [], standard_error := cstr "iscsiadm: no records found", exit_status := 5376 } := h.symm.trans hcmd
        cases h'
        decide)).1⟩

/-! ### Whole passes -/

theorem diff_sorted_lists_loop_of_names_eq (fuel : Nat) :
    ∀ (list1 list2 added removed : List iSCSITarget),
      list1.map (fun t => t.target_name) = list2.map (fun t => t.target_name) →
      diff_sorted_lists_loop iscsi_target_compare fuel list1 list2 added removed
        = (added, removed) := by
  induction fuel with
  | zero =>
    intro list1 list2 added removed h
    cases list1 with
    | nil =>
      cases list2 with
      | nil => simp [diff_sorted_lists_loop]
      | cons b l2 => simp at h
    | cons a l1 =>
      cases list2 with
      | nil => simp at h
      | cons b l2 => simp [diff_sorted_lists_loop]
  | succ fuel ih =>
    intro list1 list2 added removed h
    cases list1 with
    | nil =>
      cases list2 with
      | nil => simp [diff_sorted_lists_loop]
      | cons b l2 => simp at h
    | cons a l1 =>
      cases list2 with
      | nil => simp at h
      | cons b l2 =>
        simp only [List.map_cons, List.cons.injEq] at h
        have h0 : iscsi_target_compare a b = 0 := (strcmp_eq_zero_iff _ _).mpr h.1
        simp only [diff_sorted_lists_loop, h0, lt_self_iff_false, if_false, gt_iff_lt]
        exact ih l1 l2 added removed h.2

theorem diff_sorted_lists_of_names_eq (list1 list2 : List iSCSITarget)
    (h : list1.map (fun t => t.target_name) = list2.map (fun t => t.target_name)) :
    diff_sorted_lists list1 list2 iscsi_target_compare = ([], []) :=
  diff_sorted_lists_loop_of_names_eq _ list1 list2 [] [] h

theorem names_eq_of_sorted_of_perm {list1 list2 : List iSCSITarget}
    (h1 : SortedBy iscsi_target_compare list1) (h2 : SortedBy iscsi_target_compare list2)
    (hp : (list1.map (fun t => t.target_name)).Perm (list2.map (fun t => t.target_name))) :
    list1.map (fun t => t.target_name) = list2.map (fun t => t.target_name) := by
  haveI : IsAntisymm CString (fun a b => strcmp a b ≤ 0) :=
    ⟨fun a b hab hba => by
      have := strcmp_antisymm a b
      have h0 : strcmp a b = 0 := by omega
      exact (strcmp_eq_zero_iff a b).mp h0⟩
  have hs1 : (list1.map (fun t => t.target_name)).Sorted (fun a b => strcmp a b ≤ 0) :=
    List.pairwise_map.mpr h1
  have hs2 : (list2.map (fun t => t.target_name)).Sorted (fun a b => strcmp a b ≤ 0) :=
    List.pairwise_map.mpr h2
  exact List.eq_of_perm_of_sorted hp hs1 hs2

theorem reconciled_targets_names_perm (spawn : Spawner) (provider : UDisksiSCSIProvider)
    (parsed_targets : List iSCSITarget) :
    ((reconciled_targets spawn provider parsed_targets).map (fun t => t.target_name)).Perm
      (parsed_targets.map (fun t => t.target_name)) := by
  rw [reconciled_targets_names]
  obtain ⟨s1, s2, heq, hs1, hs2, hcnt, _⟩ :=
    diff_sorted_lists_spec iscsi_target_compare_isTotalPreorder
      (g_list_sort iscsi_target_compare provider.targets) parsed_targets
  rw [heq]
  simp only []
  rw [List.perm_iff_count]
  intro name
  have hsub : s1.reverse.Subperm (g_list_sort iscsi_target_compare provider.targets) :=
    (List.reverse_perm s1).subperm.trans hs1.subperm
  have hk := hcnt { target_name := name, object_path := none, object := none, iface := none,
                    source_object_path := [], portals := [] }
  have hd := keyCount_diff_add iscsi_target_compare
    { target_name := name, object_path := none, object := none, iface := none,
      source_object_path := [], portals := [] } hsub
  have hr1 := keyCount_perm iscsi_target_compare
    { target_name := name, object_path := none, object := none, iface := none,
      source_object_path := [], portals := [] } (List.reverse_perm s1)
  simp only [keyCount_eq_count_names] at hk hd hr1
  show List.countP (fun s => decide (s = name)) _ = List.countP (fun s => decide (s = name)) _
  rw [List.countP_append, List.countP_reverse, List.map_reverse, List.countP_reverse] at *
  omega

theorem add_remove_targets_of_empty_diff (spawn : Spawner) (provider : UDisksiSCSIProvider)
    (parsed_targets : List iSCSITarget)
    (h : diff_sorted_lists (g_list_sort iscsi_target_compare provider.targets) parsed_targets
      iscsi_target_compare = ([], [])) :
    add_remove_targets spawn provider parsed_targets
      = { provider with
          targets := ((g_list_sort iscsi_target_compare provider.targets).map
            (load_settings spawn)).map (update_target_connections provider.connections) } := by
  unfold add_remove_targets
  simp only [h, List.foldl_nil, List.length_nil, List.range_zero]

/-- Two passes over a parsed list that is sorted by name and a second list with the same
names: the second pass finds nothing to add and nothing to remove, and changes only the
live records, by running `load_settings` and building the connections again. -/
theorem add_remove_targets_second_pass_of_sorted (spawn spawn' : Spawner)
    (provider : UDisksiSCSIProvider) (parsed_targets parsed_targets' : List iSCSITarget)
    (hsorted : SortedBy iscsi_target_compare parsed_targets)
    (hnames : parsed_targets'.map (fun t => t.target_name)
      = parsed_targets.map (fun t => t.target_name)) :
    diff_sorted_lists
        (g_list_sort iscsi_target_compare
          (add_remove_targets spawn provider parsed_targets).targets)
        parsed_targets' iscsi_target_compare = ([], []) ∧
    add_remove_targets spawn' (add_remove_targets spawn provider parsed_targets) parsed_targets'
      = { add_remove_targets spawn provider parsed_targets with
          targets :=
            ((g_list_sort iscsi_target_compare
                (add_remove_targets spawn provider parsed_targets).targets).map
              (load_settings spawn')).map
              (update_target_connections
                (add_remove_targets spawn provider parsed_targets).connections) } := by
  have hdiff : diff_sorted_lists
      (g_list_sort iscsi_target_compare
        (add_remove_targets spawn provider parsed_targets).targets)
      parsed_targets' iscsi_target_compare = ([], []) := by
    apply diff_sorted_lists_of_names_eq
    rw [hnames]
    apply names_eq_of_sorted_of_perm
      (g_list_sort_sorted iscsi_target_compare_isTotalPreorder _) hsorted
    refine ((g_list_sort_perm _ _).map _).trans ?_
    obtain ⟨hmap, _, _⟩ := add_remove_targets_shape spawn provider parsed_targets
    rw [map_target_name_of_map_without_object hmap]
    exact reconciled_targets_names_perm spawn provider parsed_targets
  exact ⟨hdiff, add_remove_targets_of_empty_diff _ _ _ hdiff⟩

/-- C20: for every provider state and every parsed target list, taken as
`add_remove_targets` receives it, that is after the `g_list_sort` of line 1439 that
precedes its only call (line 1442), running `add_remove_targets` with it and then again
with a list whose target names are the same gives empty `added` and `removed` lists in the
second pass, which makes no call to the object manager and allocates no object (no target
is unexported or exported), while `load_settings` runs in the second pass, with the
commands as they answer then, on every live target. -/
theorem add_remove_targets_second_pass (spawn spawn' : Spawner)
    (provider : UDisksiSCSIProvider) (parsed parsed_targets' : List iSCSITarget)
    (hnames : parsed_targets'.map (fun t => t.target_name)
      = (g_list_sort iscsi_target_compare parsed).map (fun t => t.target_name)) :
    diff_sorted_lists
        (g_list_sort iscsi_target_compare
          (add_remove_targets spawn provider
            (g_list_sort iscsi_target_compare parsed)).targets)
        parsed_targets' iscsi_target_compare = ([], []) ∧
    (add_remove_targets spawn'
        (add_remove_targets spawn provider (g_list_sort iscsi_target_compare parsed))
        parsed_targets').object_manager_calls
      = (add_remove_targets spawn provider
          (g_list_sort iscsi_target_compare parsed)).object_manager_calls ∧
    (add_remove_targets spawn'
        (add_remove_targets spawn provider (g_list_sort iscsi_target_compare parsed))
        parsed_targets').next_object
      = (add_remove_targets spawn provider
          (g_list_sort iscsi_target_compare parsed)).next_object ∧
    add_remove_targets spawn'
        (add_remove_targets spawn provider (g_list_sort iscsi_target_compare parsed))
        parsed_targets'
      = { add_remove_targets spawn provider (g_list_sort iscsi_target_compare parsed) with
          targets :=
            ((g_list_sort iscsi_target_compare
                (add_remove_targets spawn provider
                  (g_list_sort iscsi_target_compare parsed)).targets).map
              (load_settings spawn')).map
              (update_target_connections
                (add_remove_targets spawn provider
                  (g_list_sort iscsi_target_compare parsed)).connections) } := by
  obtain ⟨hdiff, hpass⟩ := add_remove_targets_second_pass_of_sorted spawn spawn' provider
    (g_list_sort iscsi_target_compare parsed) parsed_targets'
    (g_list_sort_sorted iscsi_target_compare_isTotalPreorder parsed) hnames
  refine ⟨hdiff, ?_, ?_, hpass⟩
  · rw [hpass]
  · rw [hpass]

/-- Witness for C20: the live target `t1`, and two passes for a discovery that lists `t2`
before `t1`; the second pass makes no call to the object manager. -/
theorem add_remove_targets_second_pass_witness :
    diff_sorted_lists
        (g_list_sort iscsi_target_compare
          (add_remove_targets demo_spawn_fails demo_provider
            (g_list_sort iscsi_target_compare
              [demo_parsed_target (cstr "t2") (cstr "/org/freedesktop/UDisks2/iSCSI/static"),
               demo_parsed_target (cstr "t1")
                 (cstr "/org/freedesktop/UDisks2/iSCSI/static")])).targets)
        [demo_parsed_target (cstr "t1") (cstr "/org/freedesktop/UDisks2/iSCSI/static"),
         demo_parsed_target (cstr "t2") (cstr "/org/freedesktop/UDisks2/iSCSI/static")]
        iscsi_target_compare = ([], []) ∧
    (add_remove_targets demo_spawn_default_only
        (add_remove_targets demo_spawn_fails demo_provider
          (g_list_sort iscsi_target_compare
            [demo_parsed_target (cstr "t2") (cstr "/org/freedesktop/UDisks2/iSCSI/static"),
             demo_parsed_target (cstr "t1") (cstr "/org/freedesktop/UDisks2/iSCSI/static")]))
        [demo_parsed_target (cstr "t1") (cstr "/org/freedesktop/UDisks2/iSCSI/static"),
         demo_parsed_target (cstr "t2")
           (cstr "/org/freedesktop/UDisks2/iSCSI/static")]).object_manager_calls
      = (add_remove_targets demo_spawn_fails demo_provider
          (g_list_sort iscsi_target_compare
            [demo_parsed_target (cstr "t2") (cstr "/org/freedesktop/UDisks2/iSCSI/static"),
             demo_parsed_target (cstr "t1")
               (cstr "/org/freedesktop/UDisks2/iSCSI/static")])).object_manager_calls :=
  ⟨(add_remove_targets_second_pass demo_spawn_fails demo_spawn_fails demo_provider
      [demo_parsed_target (cstr "t2") (cstr "/org/freedesktop/UDisks2/iSCSI/static"),
       demo_parsed_target (cstr "t1") (cstr "/org/freedesktop/UDisks2/iSCSI/static")]
      [demo_parsed_target (cstr "t1") (cstr "/org/freedesktop/UDisks2/iSCSI/static"),
       demo_parsed_target (cstr "t2") (cstr "/org/freedesktop/UDisks2/iSCSI/static")]
      (by decide)).1,
   (add_remove_targets_second_pass demo_spawn_fails demo_spawn_default_only demo_provider
      [demo_parsed_target (cstr "t2") (cstr "/org/freedesktop/UDisks2/iSCSI/static"),
       demo_parsed_target (cstr "t1") (cstr "/org/freedesktop/UDisks2/iSCSI/static")]
      [demo_parsed_target (cstr "t1") (cstr "/org/freedesktop/UDisks2/iSCSI/static"),
       demo_parsed_target (cstr "t2") (cstr "/org/freedesktop/UDisks2/iSCSI/static")]
      (by decide)).2.1⟩

/-! ### `diff_sorted_lists` on lists without repeated keys -/

theorem nodup_of_strictlySorted {α : Type} {compare : α → α → Int}
    (h : IsTotalPreorder compare) {l : List α} (hl : StrictlySortedBy compare l) : l.Nodup := by
  refine List.Pairwise.imp ?_ hl
  intro a b hab heq
  subst heq
  have := compare_self_eq_zero h a
  omega

/-- C21: for a comparator that is a total preorder and lists `A`, `B` sorted strictly
ascending by it, `diff_sorted_lists A B` puts in `removed` exactly the elements of `A` that
compare equal to no element of `B` and in `added` exactly the elements of `B` that compare
equal to no element of `A`, each of them once, and an element that has a compare-equal
partner in the other list is in neither. -/
theorem diff_sorted_lists_exact {α : Type} (compare : α → α → Int)
    (h : IsTotalPreorder compare) (A B : List α)
    (hA : StrictlySortedBy compare A) (hB : StrictlySortedBy compare B) :
    (∀ x, x ∈ (diff_sorted_lists A B compare).2 ↔ x ∈ A ∧ ∀ b ∈ B, compare x b ≠ 0) ∧
    (∀ y, y ∈ (diff_sorted_lists A B compare).1 ↔ y ∈ B ∧ ∀ a ∈ A, compare a y ≠ 0) ∧
    (diff_sorted_lists A B compare).2.Nodup ∧
    (diff_sorted_lists A B compare).1.Nodup ∧
    (∀ x ∈ A, (∃ b ∈ B, compare x b = 0) →
      x ∉ (diff_sorted_lists A B compare).2 ∧ x ∉ (diff_sorted_lists A B compare).1) ∧
    (∀ y ∈ B, (∃ a ∈ A, compare a y = 0) →
      y ∉ (diff_sorted_lists A B compare).2 ∧ y ∉ (diff_sorted_lists A B compare).1) := by
  obtain ⟨hrem_sub, hadd_sub, hrem_in, hadd_in, hrem, hadd⟩ :=
    diff_sorted_lists_partners h A B
  have hrem' := hrem hA hB.sortedBy
  have hadd' := hadd hA.sortedBy hB
  obtain ⟨s1, s2, heq, hs1, hs2, _, _⟩ := diff_sorted_lists_spec h A B
  have hiff_rem : ∀ x, x ∈ (diff_sorted_lists A B compare).2 ↔
      x ∈ A ∧ ∀ b ∈ B, compare x b ≠ 0 :=
    fun x => ⟨fun hx => ⟨hrem_sub x hx, hrem' x hx⟩, fun hx => hrem_in x hx.1 hx.2⟩
  have hiff_add : ∀ y, y ∈ (diff_sorted_lists A B compare).1 ↔
      y ∈ B ∧ ∀ a ∈ A, compare a y ≠ 0 :=
    fun y => ⟨fun hy => ⟨hadd_sub y hy, hadd' y hy⟩, fun hy => hadd_in y hy.1 hy.2⟩
  refine ⟨hiff_rem, hiff_add, ?_, ?_, ?_, ?_⟩
  · rw [heq]
    exact List.nodup_reverse.mpr (hs1.nodup (nodup_of_strictlySorted h hA))
  · rw [heq]
    exact List.nodup_reverse.mpr (hs2.nodup (nodup_of_strictlySorted h hB))
  · rintro x hx ⟨b, hb, hxb⟩
    refine ⟨fun hmem => ((hiff_rem x).mp hmem).2 b hb hxb, fun hmem => ?_⟩
    exact ((hiff_add x).mp hmem).2 x hx (compare_self_eq_zero h x)
  · rintro y hy ⟨a, ha, hay⟩
    refine ⟨fun hmem => ?_, fun hmem => ((hiff_add y).mp hmem).2 a ha hay⟩
    exact ((hiff_rem y).mp hmem).2 y hy (compare_self_eq_zero h y)

/-- Witness for C21: integers compared by subtraction. -/
theorem diff_sorted_lists_exact_witness :
    diff_sorted_lists [1, 3, 5, 8] [3, 4, 8, 9] (fun a b : Int => a - b) = ([9, 4], [5, 1]) ∧
    (∀ x, x ∈ (diff_sorted_lists [1, 3, 5, 8] [3, 4, 8, 9] (fun a b : Int => a - b)).2 ↔
      x ∈ ([1, 3, 5, 8] : List Int) ∧
        ∀ b ∈ ([3, 4, 8, 9] : List Int), (fun a b : Int => a - b) x b ≠ 0) :=
  ⟨by decide,
   (diff_sorted_lists_exact (fun a b : Int => a - b)
    ⟨fun a b => by constructor <;> intro hab <;> simp only [] at hab ⊢ <;> omega,
     fun a b c hab hbc => by simp only [] at hab hbc ⊢; omega⟩
    [1, 3, 5, 8] [3, 4, 8, 9] (by unfold StrictlySortedBy; decide)
    (by unfold StrictlySortedBy; decide)).1⟩

/-! ### The scheduler -/

theorem foldl_max_le (l : List Nat) (m : Nat) : ∀ x ∈ l, x ≤ l.foldl max m := by
  induction l generalizing m with
  | nil => intro x hx; simp at hx
  | cons a l ih =>
    intro x hx
    simp only [List.foldl_cons]
    rcases List.mem_cons.mp hx with h | h
    · subst h
      have hmono : ∀ (l : List Nat) (m : Nat), m ≤ l.foldl max m := by
        intro l
        induction l with
        | nil => intro m; exact le_refl _
        | cons b l ih2 => intro m; exact le_trans (le_max_left m b) (ih2 _)
      exact le_trans (le_max_right m x) (hmono l _)
    · exact ih _ x h

theorem g_timeout_add_fresh (timeout_sources : List Nat) :
    (g_timeout_add timeout_sources).1 ≠ 0 ∧
    (g_timeout_add timeout_sources).1 ∉ timeout_sources ∧
    (g_timeout_add timeout_sources).2
      = timeout_sources ++ [(g_timeout_add timeout_sources).1] := by
  refine ⟨by simp [g_timeout_add], ?_, rfl⟩
  intro hmem
  have := foldl_max_le timeout_sources 0 _ hmem
  simp only [g_timeout_add] at this
  omega

theorem request_reload_of_pending (s : SchedulerState)
    (h : s.provider.cool_off_timeout_id ≠ 0) : request_reload s = s := by
  unfold request_reload
  rw [if_neg h]

theorem request_reload_iterate_of_pending (n : Nat) (s : SchedulerState)
    (h : s.provider.cool_off_timeout_id ≠ 0) : request_reload^[n] s = s := by
  induction n with
  | zero => rfl
  | succ n ih => rw [Function.iterate_succ_apply, request_reload_of_pending s h, ih]

theorem export_source_cool_off (provider : UDisksiSCSIProvider) (index : Nat) :
    (export_source provider index).cool_off_timeout_id = provider.cool_off_timeout_id := by
  unfold export_source
  split <;> rfl

theorem export_target_cool_off (provider : UDisksiSCSIProvider) (index : Nat) :
    (export_target provider index).cool_off_timeout_id = provider.cool_off_timeout_id := by
  unfold export_target
  split <;> rfl

theorem foldl_cool_off {α : Type} (f : UDisksiSCSIProvider → α → UDisksiSCSIProvider)
    (hf : ∀ p a, (f p a).cool_off_timeout_id = p.cool_off_timeout_id) (l : List α)
    (provider : UDisksiSCSIProvider) :
    (l.foldl f provider).cool_off_timeout_id = provider.cool_off_timeout_id := by
  induction l generalizing provider with
  | nil => rfl
  | cons a l ih => rw [List.foldl_cons, ih, hf]

theorem add_remove_targets_cool_off (spawn : Spawner) (provider : UDisksiSCSIProvider)
    (parsed_targets : List iSCSITarget) :
    (add_remove_targets spawn provider parsed_targets).cool_off_timeout_id
      = provider.cool_off_timeout_id := by
  unfold add_remove_targets
  simp only []
  rw [foldl_cool_off _ (fun p k => export_target_cool_off p _)]
  simp only []
  rw [foldl_cool_off add_target (fun p a => rfl), foldl_cool_off remove_target (fun p a => rfl)]

theorem add_remove_sources_cool_off (provider : UDisksiSCSIProvider)
    (parsed_sources : List iSCSISource) :
    (add_remove_sources provider parsed_sources).cool_off_timeout_id
      = provider.cool_off_timeout_id := by
  unfold add_remove_sources
  simp only []
  rw [foldl_cool_off _ (fun p k => export_source_cool_off p _)]
  rw [foldl_cool_off add_source (fun p a => rfl), foldl_cool_off remove_source (fun p a => rfl)]

theorem load_and_process_iscsi_cool_off (spawn : Spawner) (provider provider' : UDisksiSCSIProvider)
    (h : load_and_process_iscsi spawn provider = .ok provider') :
    provider'.cool_off_timeout_id = provider.cool_off_timeout_id := by
  unfold load_and_process_iscsi at h
  simp only [] at h
  split at h
  · exact absurd h (by simp)
  · have h' := Except.ok.inj h
    subst h'
    rw [add_remove_sources_cool_off, add_remove_targets_cool_off]

/-- C23 at the failing input, a defect of the code: `request_reload` is written to
"coalesce many requests into one" (line 1480), and C23 says that the flag is cleared
before the pass so that a request made during the pass is not lost.  On the empty provider
the timer with the id 1 is pending and fires.  The pass of line 1473 runs with the pending
flag still set, so a `request_reload` made while it runs (here when the pass has just
built the live lists) changes nothing; only then line 1474 clears the flag and the source
is removed.  No timer is pending afterwards: the request is dropped, not coalesced into a
later pass. -/
theorem on_cool_off_timeout_cb_loses_request :
    (request_reload demo_scheduler).provider.cool_off_timeout_id = 1 ∧
    (request_reload demo_scheduler).timeout_sources = [1] ∧
    load_and_process_iscsi demo_spawn_static (request_reload demo_scheduler).provider
      = .ok { demo_loaded_provider with cool_off_timeout_id := 1 } ∧
    request_reload
        { request_reload demo_scheduler with
          provider := { demo_loaded_provider with cool_off_timeout_id := 1 } }
      = { request_reload demo_scheduler with
          provider := { demo_loaded_provider with cool_off_timeout_id := 1 } } ∧
    on_cool_off_timeout_cb_return 1
        (request_reload
          { request_reload demo_scheduler with
            provider := { demo_loaded_provider with cool_off_timeout_id := 1 } })
      = { provider := demo_loaded_provider, timeout_sources := [] } := by
  decide

/-- The loss of a reload request in every state: when the cool-off timer fires with the
pending flag set and the pass completes, the pass leaves the flag as it is and the flag is
cleared after the pass (lines 1473-1474), so any number `n` of reload requests made while
the pass is running, at its start or at its end, finds the flag set and changes nothing.
The state after the callback is the one of a callback that ran alone, flag 0 and the
fired source removed, with no new timer.  Only a reload request made after the callback
has returned schedules a new timer. -/
theorem on_cool_off_timeout_cb_clears_after_pass (spawn : Spawner) (s : SchedulerState)
    (provider : UDisksiSCSIProvider) (n : Nat)
    (hpending : s.provider.cool_off_timeout_id ≠ 0)
    (hpass : load_and_process_iscsi spawn s.provider = .ok provider) :
    provider.cool_off_timeout_id = s.provider.cool_off_timeout_id ∧
    request_reload^[n] s = s ∧
    request_reload^[n] { s with provider := provider } = { s with provider := provider } ∧
    on_cool_off_timeout_cb_return s.provider.cool_off_timeout_id
        (request_reload^[n] { s with provider := provider })
      = { provider := { provider with cool_off_timeout_id := 0 }
          timeout_sources := s.timeout_sources.erase s.provider.cool_off_timeout_id } ∧
    on_cool_off_timeout_cb spawn s.provider.cool_off_timeout_id s
      = .ok { provider := { provider with cool_off_timeout_id := 0 }
              timeout_sources := s.timeout_sources.erase s.provider.cool_off_timeout_id } ∧
    ∃ id, id ≠ 0 ∧
      request_reload
          { provider := { provider with cool_off_timeout_id := 0 }
            timeout_sources := s.timeout_sources.erase s.provider.cool_off_timeout_id }
        = { provider := { provider with cool_off_timeout_id := id }
            timeout_sources :=
              s.timeout_sources.erase s.provider.cool_off_timeout_id ++ [id] } := by
  have hflag := load_and_process_iscsi_cool_off spawn s.provider provider hpass
  have hpending' : ({ s with provider := provider } : SchedulerState).provider.cool_off_timeout_id
      ≠ 0 := by
    show provider.cool_off_timeout_id ≠ 0
    rw [hflag]
    exact hpending
  have hnoop := request_reload_iterate_of_pending n { s with provider := provider } hpending'
  refine ⟨hflag, request_reload_iterate_of_pending n s hpending, hnoop, ?_, ?_, ?_⟩
  · rw [hnoop]
    rfl
  · unfold on_cool_off_timeout_cb
    rw [hpass]
    rfl
  · obtain ⟨hne, _, hadd⟩ :=
      g_timeout_add_fresh (s.timeout_sources.erase s.provider.cool_off_timeout_id)
    refine ⟨_, hne, ?_⟩
    unfold request_reload
    rw [if_pos rfl]
    simp only []
    rw [← hadd]

/-- The timer 1 fires, the pass loads the static target, and two requests come in while
it runs. -/
theorem on_cool_off_timeout_cb_clears_after_pass_witness :
    on_cool_off_timeout_cb_return (request_reload demo_scheduler).provider.cool_off_timeout_id
        (request_reload^[2]
          { request_reload demo_scheduler with
            provider := { demo_loaded_provider with cool_off_timeout_id := 1 } })
      = { provider := { ({ demo_loaded_provider with cool_off_timeout_id := 1 } :
                          UDisksiSCSIProvider) with cool_off_timeout_id := 0 }
          timeout_sources := (request_reload demo_scheduler).timeout_sources.erase
            (request_reload demo_scheduler).provider.cool_off_timeout_id } :=
  (on_cool_off_timeout_cb_clears_after_pass demo_spawn_static (request_reload demo_scheduler)
    { demo_loaded_provider with cool_off_timeout_id := 1 } 2 (by decide) (by decide)).2.2.2.1

/-! ### Runs that show what the code does -/

/-- C24 fails: two portals with the same address and tpgt and the ports 2147483647 and -1,
both of which the parser reads from a discovery text.  The tuple of the first is the
greater one, but `a->port - b->port` is 2147483648, which wraps to a negative `gint`: the
comparison is negative in both directions, so it is not even antisymmetric. -/
theorem iscsi_portal_compare_overflow :
    strcmp (cstr "10.0.0.5") (cstr "10.0.0.5") = 0 ∧
    ((-1 : Int) < 2147483647) ∧
    iscsi_portal_compare
        { address := cstr "10.0.0.5", port := 2147483647, tpgt := 1, ifaces := [] }
        { address := cstr "10.0.0.5", port := -1, tpgt := 1, ifaces := [] }
      = -2147483648 ∧
    iscsi_portal_compare
        { address := cstr "10.0.0.5", port := -1, tpgt := 1, ifaces := [] }
        { address := cstr "10.0.0.5", port := 2147483647, tpgt := 1, ifaces := [] }
      = -2147483648 ∧
    (parse_discovery
        (cstr "STATIC:\nTarget: t1\n\tPortal: 10.0.0.5:2147483647,1\n\tPortal: 10.0.0.5:-1,1\n")).map
        (fun st => st.parsed_targets.map (fun t => t.portals))
      = .ok [[{ address := cstr "10.0.0.5", port := 2147483647, tpgt := 1, ifaces := [] },
              { address := cstr "10.0.0.5", port := -1, tpgt := 1, ifaces := [] }]] := by
  decide

/-- C25 fails: the live target `t1` has the portal 10.0.0.5 with the interface `default`,
and the parsed target `t1` has the portal 10.0.0.6 with the interface `eth1`.  After
`add_remove_targets` the live target `t1` still has the portal 10.0.0.5 with `default`, and
the connections published for it are those of that portal: the change is not picked
up. -/
theorem add_remove_targets_keeps_old_portals :
    demo_provider.targets.map (fun t => t.target_name) = [cstr "t1"] ∧
    demo_provider.targets.map (fun t => t.portals.map (fun po => po.address))
      = [[cstr "10.0.0.5"]] ∧
    (add_remove_targets demo_spawn_fails demo_provider
        [{ demo_parsed_target (cstr "t1") (cstr "/org/freedesktop/UDisks2/iSCSI/static") with
           portals := [{ address := cstr "10.0.0.6", port := 3260, tpgt := 1
                         ifaces := [{ name := cstr "eth1", settings := none,
                                      secret_settings := none }] }] }]).targets.map
        (fun t => t.target_name)
      = [cstr "t1"] ∧
    (add_remove_targets demo_spawn_fails demo_provider
        [{ demo_parsed_target (cstr "t1") (cstr "/org/freedesktop/UDisks2/iSCSI/static") with
           portals := [{ address := cstr "10.0.0.6", port := 3260, tpgt := 1
                         ifaces := [{ name := cstr "eth1", settings := none,
                                      secret_settings := none }] }] }]).targets.map
        (fun t => t.portals.map (fun po => (po.address, po.ifaces.map (fun i => i.name))))
      = [[(cstr "10.0.0.5", [cstr "default"])]] ∧
    (add_remove_targets demo_spawn_fails demo_provider
        [{ demo_parsed_target (cstr "t1") (cstr "/org/freedesktop/UDisks2/iSCSI/static") with
           portals := [{ address := cstr "10.0.0.6", port := 3260, tpgt := 1
                         ifaces := [{ name := cstr "eth1", settings := none,
                                      secret_settings := none }] }] }]).targets.map
        (fun t => t.iface.map (fun h => h.connections.map (fun v => (v.address, v.iface_name))))
      = [some [(cstr "10.0.0.5", cstr "default")]] := by
  decide

/-- C26 fails for interfaces: the `Iface Name: ` line comes after the line `Target: t2`,
but the branch for `Target: ` lines does not reset `portal`, which still points to the
portal of `t1`; the interface is attached to that portal and `t2` gets none.  The same
happens when `t2` has a Portal line that is skipped because it has no `:port,tpgt`. -/
theorem parse_discovery_iface_after_target :
    (parse_discovery
        (cstr "STATIC:\nTarget: t1\n\tPortal: 10.0.0.5:3260,1\nTarget: t2\n\t\tIface Name: default\n")).map
        (fun st => st.parsed_targets.map
          (fun t => (t.target_name,
            t.portals.map (fun po => (po.address, po.ifaces.map (fun i => i.name))))))
      = .ok [(cstr "t2", []), (cstr "t1", [(cstr "10.0.0.5", [cstr "default"])])] ∧
    (parse_discovery
        (cstr "STATIC:\nTarget: t1\n\tPortal: 10.0.0.5:3260,1\nTarget: t2\n\tPortal: 10.0.0.6\n\t\tIface Name: default\n")).map
        (fun st => st.parsed_targets.map
          (fun t => (t.target_name,
            t.portals.map (fun po => (po.address, po.ifaces.map (fun i => i.name))))))
      = .ok [(cstr "t2", []), (cstr "t1", [(cstr "10.0.0.5", [cstr "default"])])] := by
  constructor <;> decide

/-- C28 fails: the discovery text gives the portal the tpgt -1 and the cache is empty, so
`connections_get_state` finds no connection and writes nothing to `*out_tpgt`; the tpgt
that `portals_and_ifaces_to_gvariant` publishes is the value of the local variable
`connection_tpgt`, which was never written (`none`). -/
theorem portals_and_ifaces_to_gvariant_unwritten_tpgt :
    connections_get_state ConnectionCache.empty (cstr "t1") (-1) (cstr "10.0.0.5") 3260
        (cstr "default")
      = (some [], none) ∧
    (parse_discovery
        (static_block (cstr "t1") (cstr "10.0.0.5") (cstr "default") 3260 (-1))).map
        (fun st => st.parsed_targets.map (fun t => t.portals.map (fun po => po.tpgt)))
      = .ok [[-1]] ∧
    (parse_discovery
        (static_block (cstr "t1") (cstr "10.0.0.5") (cstr "default") 3260 (-1))).map
        (fun st => st.parsed_targets.map
          (fun t => (portals_and_ifaces_to_gvariant ConnectionCache.empty t).2.map
            (fun v => v.tpgt)))
      = .ok [[none]] := by
  decide

/-- C29 fails at the first step of the loop: `portal` is declared without an initial value
(line 1243) and nothing is assigned to it before the loop, while `target` is NULL.  A text
whose `Iface Name: ` line is read before any header line makes the loop test and use that
indeterminate value. -/
theorem parse_discovery_reads_uninitialized_portal :
    ParserState.initial.portal = .uninitialized ∧
    ParserState.initial.target = none ∧
    parse_discovery (cstr "\t\tIface Name: default\n") = .error .uninitialized_portal ∧
    parse_discovery (cstr "Target: t1\n\tPortal: 10.0.0.5:3260,1\n\t\tIface Name: default\n")
      = .error .uninitialized_portal := by
  decide

/-! ### Id strings -/

theorem split_at_first {c : Nat} : ∀ (x x' r r' : CString), c ∉ x → c ∉ x' →
    x ++ c :: r = x' ++ c :: r' → x = x' ∧ r = r' := by
  intro x
  induction x with
  | nil =>
    intro x' r r' _ hx' h
    cases x' with
    | nil => simpa using h
    | cons b x' =>
      simp only [List.nil_append, List.cons_append, List.cons.injEq] at h
      exact absurd (by rw [h.1]; exact List.mem_cons_self _ _) hx'
  | cons a x ih =>
    intro x' r r' hx hx' h
    cases x' with
    | nil =>
      simp only [List.nil_append, List.cons_append, List.cons.injEq] at h
      exact absurd (by rw [← h.1]; exact List.mem_cons_self _ _) hx
    | cons b x' =>
      simp only [List.cons_append, List.cons.injEq] at h
      obtain ⟨h1, h2⟩ := ih x' r r' (fun hm => hx (List.mem_cons_of_mem _ hm))
        (fun hm => hx' (List.mem_cons_of_mem _ hm)) h.2
      exact ⟨by rw [h.1, h1], h2⟩

theorem split_at_last {c : Nat} (x x' r r' : CString) (hr : c ∉ r) (hr' : c ∉ r')
    (h : x ++ c :: r = x' ++ c :: r') : x = x' ∧ r = r' := by
  have hrev := congrArg List.reverse h
  simp only [List.reverse_append, List.reverse_cons, List.append_assoc, List.singleton_append]
    at hrev
  obtain ⟨h1, h2⟩ := split_at_first r.reverse r'.reverse x.reverse x'.reverse
    (by simpa using hr) (by simpa using hr') hrev
  exact ⟨List.reverse_injective h2, List.reverse_injective h1⟩

theorem printf_u_injective {u v : Nat} (h : printf_u u = printf_u v) : u = v := by
  have hu := printf_u_value u
  rw [h, printf_u_value] at hu
  exact hu.symm

theorem printf_d_injective {c d : Int} (h : printf_d c = printf_d d) : c = d := by
  unfold printf_d at h
  have hdigit : ∀ u v : Nat, ¬ (45 :: printf_u u = printf_u v) := by
    intro u v heq
    have := printf_u_digits v 45 (by rw [← heq]; exact List.mem_cons_self _ _)
    simp [is_digit] at this
  by_cases hc : c < 0
  · by_cases hd : d < 0
    · simp only [hc, hd, if_true, List.cons.injEq, true_and] at h
      have := printf_u_injective h
      omega
    · simp only [hc, hd, if_true, if_false] at h
      exact absurd h (hdigit _ _)
  · by_cases hd : d < 0
    · simp only [hc, hd, if_true, if_false] at h
      exact absurd h.symm (hdigit _ _)
    · simp only [hc, hd, if_false] at h
      have := printf_u_injective h
      omega

theorem comma_not_mem_printf_d (p : Int) : 44 ∉ printf_d p := by
  intro h
  rcases printf_d_bytes p 44 h with h | h
  · omega
  · simp [is_digit] at h

theorem colon_not_mem_printf_d (p : Int) : 58 ∉ printf_d p := by
  intro h
  rcases printf_d_bytes p 58 h with h | h
  · omega
  · simp [is_digit] at h

theorem format_id_without_tpgt_injective {a a' i i' t t' : CString} {p p' : Int}
    (ha : 44 ∉ a) (ha' : 44 ∉ a') (hi : 44 ∉ i) (hi' : 44 ∉ i')
    (h : format_id_without_tpgt a p i t = format_id_without_tpgt a' p' i' t') :
    a = a' ∧ p = p' ∧ i = i' ∧ t = t' := by
  unfold format_id_without_tpgt at h
  have h1 : (a ++ 58 :: printf_d p) ++ 44 :: (i ++ 44 :: t)
      = (a' ++ 58 :: printf_d p') ++ 44 :: (i' ++ 44 :: t') := by
    simpa [List.append_assoc] using h
  have hx : ∀ (a : CString) (p : Int), 44 ∉ a → 44 ∉ a ++ 58 :: printf_d p := by
    intro a p ha hm
    rcases List.mem_append.mp hm with hm | hm
    · exact ha hm
    · rcases List.mem_cons.mp hm with hm | hm
      · omega
      · exact comma_not_mem_printf_d p hm
  obtain ⟨h2, h3⟩ := split_at_first _ _ _ _ (hx a p ha) (hx a' p' ha') h1
  obtain ⟨h4, h5⟩ := split_at_first _ _ _ _ hi hi' h3
  obtain ⟨h6, h7⟩ := split_at_last _ _ _ _ (colon_not_mem_printf_d p)
    (colon_not_mem_printf_d p') h2
  exact ⟨h6, printf_d_injective h7, h4, h5⟩

theorem format_id_injective {a a' i i' t t' : CString} {g g' p p' : Int}
    (ha : 44 ∉ a) (ha' : 44 ∉ a') (hi : 44 ∉ i) (hi' : 44 ∉ i')
    (h : format_id g a p i t = format_id g' a' p' i' t') :
    g = g' ∧ a = a' ∧ p = p' ∧ i = i' ∧ t = t' := by
  have h1 : printf_d g ++ 44 :: format_id_without_tpgt a p i t
      = printf_d g' ++ 44 :: format_id_without_tpgt a' p' i' t' := by
    unfold format_id at h
    unfold format_id_without_tpgt
    simpa [List.append_assoc] using h
  obtain ⟨h2, h3⟩ := split_at_first _ _ _ _ (comma_not_mem_printf_d g)
    (comma_not_mem_printf_d g') h1
  exact ⟨printf_d_injective h2, format_id_without_tpgt_injective ha ha' hi hi' h3⟩

/-- C27 fails as stated: the cache, reached from the empty cache by one add event, holds
one connection, of the target `a,b` through the interface `default`; the query for the
target `b` through the interface `default,a` builds the same id string and takes its result
from that connection. -/
theorem connections_get_state_key_collision :
    (run_connection_events ConnectionCache.empty
        [{ sysfs := demo_sysfs (cstr "a,b"), uevent := cstr "add",
           device := demo_connection_device (cstr "1") }]).sysfs_to_connection.map
        (fun e => (e.2.target_name, e.2.iface_name))
      = [(cstr "a,b", cstr "default")] ∧
    connections_get_state
        (run_connection_events ConnectionCache.empty
          [{ sysfs := demo_sysfs (cstr "a,b"), uevent := cstr "add",
             device := demo_connection_device (cstr "1") }])
        (cstr "b") 1 (cstr "10.0.0.5") 3260 (cstr "default,a")
      = (some (cstr "LOGGED_IN"), some 1) := by
  decide

/-- C27 as amended: for every cache state reachable from the empty cache and every query
(target_name `t`, tpgt `g`, address `a`, port `p`, iface_name `i`), if
`connections_get_state` takes its result from a cached connection `c`, and neither the
addresses nor the interface names of the query and of `c` contain a comma, then
`c.target_name = t`, `c.iface_name = i`, `c.address = a`, `c.port = p`, and `c.tpgt = g` when
`g` is not -1. -/
theorem connections_get_state_matches_query (events : List ConnectionEvent)
    (t a i : CString) (g p : Int) (c : Connection)
    (hfound :
      (if g ≠ -1 then
          g_hash_table_lookup (run_connection_events ConnectionCache.empty events).id_to_connection
            (format_id g a p i t)
        else
          g_hash_table_lookup
            (run_connection_events ConnectionCache.empty events).id_without_tpgt_to_connection
            (format_id_without_tpgt a p i t)).bind
        (run_connection_events ConnectionCache.empty events).deref = some c)
    (ha : 44 ∉ a) (hi : 44 ∉ i) (hca : 44 ∉ c.address) (hci : 44 ∉ c.iface_name) :
    connections_get_state (run_connection_events ConnectionCache.empty events) t g a p i
      = (c.state, some c.tpgt) ∧
    c.target_name = t ∧ c.iface_name = i ∧ c.address = a ∧ c.port = p ∧
    (g ≠ -1 → c.tpgt = g) := by
  obtain ⟨hids, hid, hidw⟩ := consistent_run_connection_events events
  refine ⟨?_, ?_⟩
  · unfold connections_get_state
    simp only []
    rw [hfound]
  · by_cases hg : g = -1
    · rw [if_neg (by simpa using hg)] at hfound
      cases hl : g_hash_table_lookup
          (run_connection_events ConnectionCache.empty events).id_without_tpgt_to_connection
          (format_id_without_tpgt a p i t) with
      | none => rw [hl] at hfound; simp at hfound
      | some ref =>
        rw [hl] at hfound
        simp only [Option.some_bind, ConnectionCache.deref] at hfound
        obtain ⟨c', hc', hkey⟩ := hidw _ _ hl
        have hcc : c' = c := by
          rw [hc'] at hfound
          exact Option.some.inj hfound
        subst hcc
        have hcomp := (hids _ _ hc').2
        rw [hcomp] at hkey
        obtain ⟨h1, h2, h3, h4⟩ := format_id_without_tpgt_injective hca ha hci hi hkey
        exact ⟨h4, h3, h1, h2, fun hne => absurd hg hne⟩
    · rw [if_pos hg] at hfound
      cases hl : g_hash_table_lookup
          (run_connection_events ConnectionCache.empty events).id_to_connection
          (format_id g a p i t) with
      | none => rw [hl] at hfound; simp at hfound
      | some ref =>
        rw [hl] at hfound
        simp only [Option.some_bind, ConnectionCache.deref] at hfound
        obtain ⟨c', hc', hkey⟩ := hid _ _ hl
        have hcc : c' = c := by
          rw [hc'] at hfound
          exact Option.some.inj hfound
        subst hcc
        have hcomp := (hids _ _ hc').1
        rw [hcomp] at hkey
        obtain ⟨h0, h1, h2, h3, h4⟩ := format_id_injective hca ha hci hi hkey
        exact ⟨h4, h3, h1, h2, fun _ => h0⟩

/-- Witness for the amended C27: the query for the connection that one add event cached. -/
theorem connections_get_state_matches_query_witness :
    connections_get_state
        (run_connection_events ConnectionCache.empty
          [{ sysfs := demo_sysfs (cstr "t1"), uevent := cstr "add",
             device := demo_connection_device (cstr "1") }])
        (cstr "t1") 1 (cstr "10.0.0.5") 3260 (cstr "default")
      = (demo_connection_one.state, some demo_connection_one.tpgt) ∧
    demo_connection_one.target_name = cstr "t1" ∧
    demo_connection_one.iface_name = cstr "default" ∧
    demo_connection_one.address = cstr "10.0.0.5" ∧
    demo_connection_one.port = 3260 ∧
    ((1 : Int) ≠ -1 → demo_connection_one.tpgt = 1) :=
  connections_get_state_matches_query
    [{ sysfs := demo_sysfs (cstr "t1"), uevent := cstr "add",
       device := demo_connection_device (cstr "1") }]
    (cstr "t1") (cstr "10.0.0.5") (cstr "default") 1 3260 demo_connection_one
    (by decide) (by decide) (by decide) (by decide) (by decide)

/-! ### Decoding an object path -/

theorem unescape_segment_cons_of_ne {b : Nat} (hb : b ≠ 95) (r : CString) :
    unescape_segment (b :: r) = b :: unescape_segment r := by
  cases r with
  | nil => simp [unescape_segment]
  | cons c r =>
    cases r with
    | nil => simp [unescape_segment]
    | cons d r => simp [unescape_segment, hb]

theorem unescape_segment_escape (h l : Nat) (r : CString) :
    unescape_segment (95 :: h :: l :: r)
      = (16 * hex_value h + hex_value l) :: unescape_segment r := by
  simp [unescape_segment]

theorem hex_value_hex_digit {d : Nat} (h : d < 16) : hex_value (hex_digit d) = d := by
  unfold hex_value hex_digit
  split_ifs <;> omega

theorem unescape_spec_escape_segment : ∀ s : CString, (∀ b ∈ s, b < 128) →
    unescape_segment (spec_escape_segment s) = s := by
  intro s
  induction s with
  | nil => intro _; rfl
  | cons b rest ih =>
    intro hs
    have hb : b < 128 := hs b (List.mem_cons_self _ _)
    have hrest := ih (fun x hx => hs x (List.mem_cons_of_mem _ hx))
    unfold spec_escape_segment spec_escape_byte
    split_ifs with halnum
    · have hne : b ≠ 95 := by omega
      rw [List.singleton_append, unescape_segment_cons_of_ne hne, hrest]
    · simp only [List.cons_append, List.nil_append]
      rw [unescape_segment_escape, hrest, hex_value_hex_digit (by omega),
        hex_value_hex_digit (by omega)]
      congr 1
      omega

theorem last_segment_eq_self {s : CString} (h : 47 ∉ s) : last_segment s = s := by
  cases s with
  | nil => rfl
  | cons b rest =>
    have hb : ¬ b = 47 := fun hb => h (by simp [hb])
    have hr : 47 ∉ rest := fun hr => h (List.mem_cons_of_mem _ hr)
    simp [last_segment, hb, hr]

/-- C30: for every base and all names `n1`, `n2` that contain no `/` and only bytes below
0x80, decoding each `_` followed by two hexadecimal digits back to its byte in the part of
`util_compute_object_path base n1` after the base recovers `n1`, and
`util_compute_object_path base n1 = util_compute_object_path base n2` implies `n1 = n2`. -/
theorem util_compute_object_path_round_trip (base n1 n2 : CString)
    (hslash1 : 47 ∉ n1) (hascii1 : ∀ b ∈ n1, b < 128)
    (hslash2 : 47 ∉ n2) (hascii2 : ∀ b ∈ n2, b < 128) :
    unescape_segment ((util_compute_object_path base n1).drop base.length) = n1 ∧
    (util_compute_object_path base n1 = util_compute_object_path base n2 → n1 = n2) := by
  have hdec : ∀ n : CString, 47 ∉ n → (∀ b ∈ n, b < 128) →
      unescape_segment ((util_compute_object_path base n).drop base.length) = n := by
    intro n hslash hascii
    rw [util_compute_object_path_ascii base n hascii, last_segment_eq_self hslash,
      List.drop_left, unescape_spec_escape_segment n hascii]
  refine ⟨hdec n1 hslash1 hascii1, fun h => ?_⟩
  rw [← hdec n1 hslash1 hascii1, h, hdec n2 hslash2 hascii2]

/-- Witness for C30: the target name of the spec with a `_` added. -/
theorem util_compute_object_path_round_trip_witness :
    util_compute_object_path (cstr "/org/freedesktop/UDisks2/iSCSI/static/")
        (cstr "iqn.2000-01.com.example:target_1")
      = cstr "/org/freedesktop/UDisks2/iSCSI/static/iqn_2e2000_2d01_2ecom_2eexample_3atarget_5f1" ∧
    unescape_segment
        ((util_compute_object_path (cstr "/org/freedesktop/UDisks2/iSCSI/static/")
          (cstr "iqn.2000-01.com.example:target_1")).drop
          (cstr "/org/freedesktop/UDisks2/iSCSI/static/").length)
      = cstr "iqn.2000-01.com.example:target_1" :=
  ⟨by decide,
   (util_compute_object_path_round_trip (cstr "/org/freedesktop/UDisks2/iSCSI/static/")
      (cstr "iqn.2000-01.com.example:target_1") (cstr "t2")
      (by decide) (by decide) (by decide) (by decide)).1⟩

/-! ### The source comparator -/

theorem g_strcmp0_isTotalPreorder : IsTotalPreorder g_strcmp0 := by
  refine ⟨?_, ?_⟩
  · intro a b
    cases a <;> cases b <;> simp [g_strcmp0, strcmp_antisymm]
  · intro a b c hab hbc
    cases a <;> cases b <;> cases c <;> simp [g_strcmp0] at hab hbc ⊢
    exact strcmp_trans _ _ _ hab hbc

theorem iscsi_source_compare_isTotalPreorder : IsTotalPreorder iscsi_source_compare := by
  have hs := strcmp_isTotalPreorder
  have hg := g_strcmp0_isTotalPreorder
  refine ⟨?_, ?_⟩
  · intro a b
    unfold iscsi_source_compare
    simp only []
    have h1 := hs.1 a.mechanism b.mechanism
    have h2 := hs.1 b.mechanism a.mechanism
    have h3 := hg.1 a.discovery_address b.discovery_address
    by_cases hab : strcmp a.mechanism b.mechanism = 0
    · have hba : strcmp b.mechanism a.mechanism = 0 := compare_eq_zero_symm hs hab
      simp only [hab, hba, ne_eq, not_true_eq_false, if_false]
      exact h3
    · have hba : ¬ strcmp b.mechanism a.mechanism = 0 :=
        fun h => hab (compare_eq_zero_symm hs h)
      simp only [hab, hba, ne_eq, not_false_eq_true, if_true]
      exact h1
  · intro a b c
    unfold iscsi_source_compare
    simp only []
    have tr := hs.2 a.mechanism b.mechanism c.mechanism
    have ab := hs.1 a.mechanism b.mechanism
    have ba := hs.1 b.mechanism a.mechanism
    have bc := hs.1 b.mechanism c.mechanism
    have cb := hs.1 c.mechanism b.mechanism
    have ac := hs.1 a.mechanism c.mechanism
    have ca := hs.1 c.mechanism a.mechanism
    by_cases hab : strcmp a.mechanism b.mechanism = 0
    · by_cases hbc : strcmp b.mechanism c.mechanism = 0
      · have hac : strcmp a.mechanism c.mechanism = 0 := compare_eq_zero_trans hs hab hbc
        simp only [hab, hbc, hac, ne_eq, not_true_eq_false, if_false]
        exact hg.2 _ _ _
      · have hac : ¬ strcmp a.mechanism c.mechanism = 0 := fun h =>
          hbc (compare_eq_zero_trans hs (compare_eq_zero_symm hs hab) h)
        simp only [hab, hbc, hac, ne_eq, not_true_eq_false, not_false_eq_true, if_false, if_true]
        intro _ h2
        exact tr (by omega) h2
    · by_cases hbc : strcmp b.mechanism c.mechanism = 0
      · have hac : ¬ strcmp a.mechanism c.mechanism = 0 := fun h =>
          hab (compare_eq_zero_trans hs h (compare_eq_zero_symm hs hbc))
        simp only [hab, hbc, hac, ne_eq, not_true_eq_false, not_false_eq_true, if_false, if_true]
        intro h1 _
        exact tr h1 (by omega)
      · by_cases hac : strcmp a.mechanism c.mechanism = 0
        · simp only [hab, hbc, hac, ne_eq, not_true_eq_false, not_false_eq_true, if_false,
            if_true]
          intro h1 h2
          exfalso
          have hca : strcmp c.mechanism a.mechanism = 0 := compare_eq_zero_symm hs hac
          have := hs.2 b.mechanism c.mechanism a.mechanism h2 (by omega)
          omega
        · simp only [hab, hbc, hac, ne_eq, not_false_eq_true, if_true]
          exact tr

/-! ### What links the variables of the parsing loop -/

theorem mem_list_modify {α : Type} {f : α → α} {x : α} :
    ∀ {l : List α} {k : Nat}, x ∈ list_modify l k f → ∃ y ∈ l, x = y ∨ x = f y := by
  intro l
  induction l with
  | nil => intro k h; simp [list_modify] at h
  | cons a l ih =>
    intro k h
    cases k with
    | zero =>
      simp only [list_modify, List.mem_cons] at h
      rcases h with h | h
      · exact ⟨a, List.mem_cons_self _ _, Or.inr h⟩
      · exact ⟨x, List.mem_cons_of_mem _ h, Or.inl rfl⟩
    | succ k =>
      simp only [list_modify, List.mem_cons] at h
      rcases h with h | h
      · exact ⟨a, List.mem_cons_self _ _, Or.inl h⟩
      · obtain ⟨y, hy, hxy⟩ := ih h
        exact ⟨y, List.mem_cons_of_mem _ hy, hxy⟩

theorem linked_of_same {st st' : ParserState} (h : st.linked)
    (hportal : ∀ target portal, st'.portal = .at target portal → st'.target ≠ none)
    (htarget : st'.target ≠ none → st.target ≠ none)
    (hsource : st'.source = st.source) (hsources : st'.parsed_sources = st.parsed_sources)
    (hpaths : ∀ t ∈ st'.allocated_targets, ∃ t0 ∈ st.allocated_targets,
      t.source_object_path = t0.source_object_path) : st'.linked := by
  obtain ⟨_, h2, h3, h4, h5⟩ := h
  refine ⟨hportal, fun ht => ?_, fun s hs => ?_, fun s hs => ?_, fun t ht => ?_⟩
  · rw [hsource]; exact h2 (htarget ht)
  · rw [hsources]; exact h3 s (by rw [← hsource]; exact hs)
  · exact h4 s (by rw [← hsources]; exact hs)
  · obtain ⟨t0, ht0, hp⟩ := hpaths t ht
    obtain ⟨s, hs, hsp⟩ := h5 t0 ht0
    exact ⟨s, by rw [hsources]; exact hs, by rw [hp]; exact hsp⟩

theorem linked_of_reset {st st' : ParserState} (h : st.linked)
    (hportal : st'.portal = .null) (htarget : st'.target = none)
    (hsource : st'.source = none) (hsources : st'.parsed_sources = st.parsed_sources)
    (htargets : st'.allocated_targets = st.allocated_targets) : st'.linked := by
  obtain ⟨_, _, _, h4, h5⟩ := h
  refine ⟨fun k j hk => ?_, fun ht => absurd htarget ht, fun s hs => ?_, fun s hs => ?_,
    fun t ht => ?_⟩
  · rw [hportal] at hk; cases hk
  · rw [hsource] at hs; cases hs
  · exact h4 s (by rw [← hsources]; exact hs)
  · rw [htargets] at ht
    obtain ⟨s, hs, hsp⟩ := h5 t ht
    exact ⟨s, by rw [hsources]; exact hs, hsp⟩

theorem parse_new_source_linked {st st' : ParserState} (h : st.linked) (mode : Mode)
    (mechanism : CString) (discovery_address : Option CString)
    (hd : strcmp mechanism (cstr "sendtargets") = 0 → discovery_address ≠ none)
    (hparse : parse_new_source st mode mechanism discovery_address = .ok st') : st'.linked := by
  obtain ⟨_, _, _, h4, h5⟩ := h
  unfold parse_new_source at hparse
  split at hparse
  · exact absurd hparse (by simp)
  · rename_i source hsource
    have hpath : source.object_path ≠ none := by
      unfold iscsi_source_compute_object_path at hsource
      simp only [] at hsource
      split_ifs at hsource with c1 c2 c3
      · have := Except.ok.inj hsource
        subst this
        simp
      · have := Except.ok.inj hsource
        subst this
        cases hda : discovery_address with
        | none => exact absurd hda (hd c2)
        | some d => simp
      · have := Except.ok.inj hsource
        subst this
        simp
    have h' := Except.ok.inj hparse
    subst h'
    refine ⟨fun k j hk => ?_, fun ht => absurd rfl ht, fun s hs => ?_, fun s hs => ?_,
      fun t ht => ?_⟩
    · cases hk
    · have : source = s := Option.some.inj hs
      subst this
      exact List.mem_cons_self _ _
    · rcases List.mem_cons.mp hs with hs | hs
      · subst hs; exact hpath
      · exact h4 s hs
    · obtain ⟨s, hs, hsp⟩ := h5 t ht
      exact ⟨s, List.mem_cons_of_mem _ hs, hsp⟩

theorem parse_portal_line_linked {st st' : ParserState} (h : st.linked) (line : CString)
    (hparse : parse_portal_line st line = .ok st') : st'.linked := by
  unfold parse_portal_line at hparse
  split at hparse
  · have h' := Except.ok.inj hparse
    subst h'
    exact h
  · rename_i target htarget
    split at hparse
    · have h' := Except.ok.inj hparse
      subst h'
      exact h
    · split at hparse
      · have h' := Except.ok.inj hparse
        subst h'
        exact h
      · split at hparse
        · exact absurd hparse (by simp)
        · have h' := Except.ok.inj hparse
          subst h'
          refine linked_of_same h (fun k j _ => ?_) (fun ht => ht) rfl rfl (fun t ht => ?_)
          · show st.target ≠ none
            rw [htarget]
            simp
          · obtain ⟨t0, ht0, ht⟩ := mem_list_modify ht
            refine ⟨t0, ht0, ?_⟩
            rcases ht with ht | ht <;> rw [ht]

theorem parse_iface_line_linked {st st' : ParserState} (h : st.linked) (line : CString)
    (hparse : parse_iface_line st line = .ok st') : st'.linked := by
  unfold parse_iface_line at hparse
  split at hparse
  · exact absurd hparse (by simp)
  · have h' := Except.ok.inj hparse
    subst h'
    exact h
  · have h' := Except.ok.inj hparse
    subst h'
    refine linked_of_same h h.1 (fun ht => ht) rfl rfl (fun t ht => ?_)
    obtain ⟨t0, ht0, ht⟩ := mem_list_modify ht
    refine ⟨t0, ht0, ?_⟩
    rcases ht with ht | ht <;> rw [ht]

theorem parse_line_linked {st st' : ParserState} (h : st.linked) (line : CString)
    (hparse : parse_line st line = .ok st') : st'.linked := by
  unfold parse_line at hparse
  by_cases c1 : strcmp line (cstr "SENDTARGETS:") = 0
  · rw [if_pos c1] at hparse
    have h' := Except.ok.inj hparse
    subst h'
    exact linked_of_reset h rfl rfl rfl rfl rfl
  rw [if_neg c1] at hparse
  by_cases c2 : st.mode = .MODE_IN_SENDTARGETS ∧ g_str_has_prefix line (cstr "DiscoveryAddress: ")
  · rw [if_pos c2] at hparse
    exact parse_new_source_linked h _ _ _ (fun _ => by simp) hparse
  rw [if_neg c2] at hparse
  by_cases c3 : strcmp line (cstr "iSNS:") = 0
  · rw [if_pos c3] at hparse
    have h' := Except.ok.inj hparse
    subst h'
    exact linked_of_reset h rfl rfl rfl rfl rfl
  rw [if_neg c3] at hparse
  by_cases c4 : st.mode = .MODE_IN_ISNS ∧ g_str_has_prefix line (cstr "DiscoveryAddress: ")
  · rw [if_pos c4] at hparse
    exact parse_new_source_linked h _ _ _ (fun _ => by simp) hparse
  rw [if_neg c4] at hparse
  by_cases c5 : strcmp line (cstr "STATIC:") = 0
  · rw [if_pos c5] at hparse
    exact parse_new_source_linked h _ _ _ (fun hm => absurd hm (by decide)) hparse
  rw [if_neg c5] at hparse
  by_cases c6 : strcmp line (cstr "FIRMWARE:") = 0
  · rw [if_pos c6] at hparse
    exact parse_new_source_linked h _ _ _ (fun hm => absurd hm (by decide)) hparse
  rw [if_neg c6] at hparse
  by_cases c7 : strcmp line (cstr "No targets found.") = 0
  · rw [if_pos c7] at hparse
    have h' := Except.ok.inj hparse
    subst h'
    exact linked_of_reset h rfl rfl rfl rfl rfl
  rw [if_neg c7] at hparse
  by_cases c8 : g_str_has_prefix line (cstr "Target: ") = true
  · rw [if_pos c8] at hparse
    split at hparse
    · have h' := Except.ok.inj hparse
      subst h'
      exact h
    · rename_i source hsource
      have h' := Except.ok.inj hparse
      subst h'
      obtain ⟨_, h2, h3, h4, h5⟩ := h
      refine ⟨fun _ _ _ => by simp, fun _ => by rw [hsource]; simp, h3, h4, fun t ht => ?_⟩
      rcases List.mem_append.mp ht with ht | ht
      · exact h5 t ht
      · simp only [List.mem_singleton] at ht
        subst ht
        refine ⟨source, h3 source hsource, ?_⟩
        cases hp : source.object_path with
        | none => exact absurd hp (h4 source (h3 source hsource))
        | some path => rfl
  rw [if_neg c8] at hparse
  by_cases c9 : g_str_has_prefix line (cstr "\tPortal: ") = true
  · rw [if_pos c9] at hparse
    exact parse_portal_line_linked h line hparse
  rw [if_neg c9] at hparse
  by_cases c10 : g_str_has_prefix line (cstr "\t\tIface Name: ") = true
  · rw [if_pos c10] at hparse
    exact parse_iface_line_linked h line hparse
  rw [if_neg c10] at hparse
  have h' := Except.ok.inj hparse
  subst h'
  exact h

theorem parse_lines_linked (lines : List CString) {st st' : ParserState} (h : st.linked)
    (hparse : parse_lines st lines = .ok st') : st'.linked := by
  induction lines generalizing st with
  | nil =>
    simp only [parse_lines] at hparse
    have h' := Except.ok.inj hparse
    subst h'
    exact h
  | cons line lines ih =>
    simp only [parse_lines] at hparse
    cases h1 : parse_line st line with
    | error e => rw [h1] at hparse; exact absurd hparse (by simp)
    | ok st1 =>
      rw [h1] at hparse
      exact ih (parse_line_linked h line h1) hparse

/-- On every text that the parser gets through, the variables are linked at the end, and the
source object path of every parsed target is the object path of a parsed source. -/
theorem parse_discovery_linked (text : CString) (st : ParserState)
    (hparse : parse_discovery text = .ok st) :
    st.linked ∧
    ∀ t ∈ st.parsed_targets, ∃ s ∈ st.parsed_sources,
      s.object_path = some t.source_object_path := by
  have hinit : ParserState.initial.linked := by
    refine ⟨fun _ _ hk => ?_, fun ht => absurd rfl ht, fun s hs => ?_, fun s hs => ?_,
      fun t ht => ?_⟩
    · cases hk
    · cases hs
    · cases hs
    · cases ht
  have hl := parse_lines_linked _ hinit hparse
  exact ⟨hl, fun t ht => hl.2.2.2.2 t (List.mem_reverse.mp ht)⟩

/-! ### The object manager -/

theorem export_candidate_injective (orig : CString) :
    Function.Injective (export_candidate orig) := by
  intro j k h
  unfold export_candidate at h
  by_cases hj : j = 0
  · by_cases hk : k = 0
    · rw [hj, hk]
    · rw [if_pos hj, if_neg hk] at h
      have := congrArg List.length h
      simp [cstr] at this
  · by_cases hk : k = 0
    · rw [if_neg hj, if_pos hk] at h
      have := congrArg List.length h
      simp [cstr] at this
    · rw [if_neg hj, if_neg hk] at h
      have h2 := List.append_cancel_left h
      have h3 := printf_d_injective h2
      exact_mod_cast h3

theorem export_uniquely_object_path_loop_free (manager : GDBusObjectManagerServer)
    (orig : CString) :
    ∀ (fuel c : Nat),
      (∀ j < c, export_candidate orig j ∈ manager.map Prod.fst) →
      manager.length < c + fuel →
      export_uniquely_object_path manager orig fuel (c + 1) (export_candidate orig c)
        ∉ manager.map Prod.fst := by
  intro fuel
  induction fuel with
  | zero =>
    intro c htried hlen
    exfalso
    have hnodup : ((List.range c).map (export_candidate orig)).Nodup :=
      (List.nodup_range c).map (export_candidate_injective orig)
    have hsub : (List.range c).map (export_candidate orig) ⊆ manager.map Prod.fst := by
      intro q hq
      obtain ⟨j, hj, rfl⟩ := List.mem_map.mp hq
      exact htried j (List.mem_range.mp hj)
    have := (hnodup.subperm hsub).length_le
    simp only [List.length_map, List.length_range] at this
    omega
  | succ fuel ih =>
    intro c htried hlen
    unfold export_uniquely_object_path
    by_cases hreg : export_candidate orig c ∈ manager.map Prod.fst
    · have hany : manager.any (fun r => decide (r.1 = export_candidate orig c)) = true := by
        obtain ⟨r, hr, hrc⟩ := List.mem_map.mp hreg
        exact List.any_eq_true.mpr ⟨r, hr, by simpa using hrc⟩
      rw [if_pos hany]
      have hnext : orig ++ cstr "_" ++ printf_d ((c + 1 : Nat) : Int)
          = export_candidate orig (c + 1) := by
        unfold export_candidate
        rw [if_neg (by omega)]
      rw [hnext]
      apply ih (c + 1)
      · intro j hj
        rcases Nat.lt_succ_iff_lt_or_eq.mp hj with hj | hj
        · exact htried j hj
        · rw [hj]; exact hreg
      · omega
    · have hany : ¬ manager.any (fun r => decide (r.1 = export_candidate orig c)) = true := by
        intro h
        obtain ⟨r, hr, hrc⟩ := List.any_eq_true.mp h
        exact hreg (List.mem_map.mpr ⟨r, hr, by simpa using hrc⟩)
      rw [if_neg hany]
      exact hreg

/-- The fuel of the loop of `g_dbus_object_manager_server_export_uniquely` is enough: no
object is exported under the path that it gives. -/
theorem export_uniquely_object_path_free (manager : GDBusObjectManagerServer)
    (orig_object_path : CString) :
    export_uniquely_object_path manager orig_object_path (manager.length + 1) 1
        orig_object_path
      ∉ manager.map Prod.fst := by
  have h := export_uniquely_object_path_loop_free manager orig_object_path
    (manager.length + 1) 0 (fun j hj => absurd hj (Nat.not_lt_zero j)) (by omega)
  exact h

end UDisksISCSI
